import Mathlib

/-!
A shallow embedding of the reconciliation / upsert-with-drift-tracking engine of
canvas-ledger (src/cl/ledger/ingest.py, src/cl/ledger/models.py and the change-log
schema of src/cl/migrations/versions/005_history_tracking.py), together with proofs
of the specified properties.

Conventions of the embedding:
- Canvas (external) identifiers are `Int` (Python ints), internal row ids are `Nat`.
- Timestamps are `Int` (an abstract totally ordered clock); each call of the source
  function `_utcnow()` consumes one value of a clock function `τ : Nat → Int`.
- Python `float` score fields are embedded as `Rat` (the source only compares them
  for equality and stringifies them; no arithmetic is performed on them).
- An SQLModel `Session` bound to the SQLite file is embedded as explicit state
  passing of a `DB` value; `session.commit()` points are recorded in the `commits`
  trace of an `Outcome`.  `session.add` of a new row together with the
  `session.flush()` that directly follows it in the orchestrators is embedded as
  insertion with the id drawn from a single `next_id` counter.
- Raised exceptions are embedded as explicit error values (`CanvasErr`); the
  orchestrator re-raising an unexpected exception is the `raised` field of the
  `Outcome`.
-/

namespace CanvasLedger

/-- Status classification returned by the upsert helpers of ingest.py
(the Python strings "new", "updated", "unchanged"). -/
inductive Status
  | new
  | updated
  | unchanged
deriving DecidableEq, Repr

/-- Entity kinds of the change_log table (migration 005: "offering, enrollment,
person, section, user_enrollment, term"); `sec` stands for the string "section". -/
inductive EntityType
  | term
  | offering
  | user_enrollment
  | sec
  | person
  | enrollment
deriving DecidableEq, Repr

/-- A row of the change_log table (migration 005 / the ChangeLog model used by
ingest.py). old_value and new_value are stringified, nullable. -/
structure ChangeLog where
  entity_type : EntityType
  entity_canvas_id : Int
  field_name : String
  old_value : Option String
  new_value : Option String
  ingest_run_id : Nat
  observed_at : Int
deriving DecidableEq, Repr

/-- Embedding of `_record_change` (ingest.py): converts values to strings for
storage, a None value is stored as-is (i.e. as SQL null, never the string "None"):
`old_value=str(old_value) if old_value is not None else None`, same for new_value.
A non-nullable source field is passed as `some v`. -/
def _record_change {α : Type} [ToString α] (entity_type : EntityType)
    (entity_canvas_id : Int) (field_name : String) (old_value new_value : Option α)
    (ingest_run_id : Nat) (observed_at : Int) : ChangeLog :=
  { entity_type := entity_type
    entity_canvas_id := entity_canvas_id
    field_name := field_name
    old_value := old_value.map toString
    new_value := new_value.map toString
    ingest_run_id := ingest_run_id
    observed_at := observed_at }

/-- Python f-string rendering of an optional value ("None" when absent), used
only inside human-readable drift description strings.  The quote characters the
source puts around values are elided (they carry no meaning for any property). -/
def pyShowOpt {α : Type} [ToString α] : Option α → String
  | some a => toString a
  | none => "None"

/-- Scope of an ingestion run (models.py IngestScope). -/
inductive IngestScope
  | catalog
  | offering
deriving DecidableEq, Repr

/-- Status of an ingestion run (models.py IngestStatus). -/
inductive IngestStatus
  | running
  | completed
  | failed
deriving DecidableEq, Repr

/-- The ingest_run row (models.py IngestRun, plus the drift_count column added by
migration 005).  The copy of models.py under src/ predates migration 005, so the
drift_count column itself is taken from the migration. -/
structure IngestRun where
  id : Nat
  started_at : Int
  completed_at : Option Int := none
  scope : IngestScope
  scope_detail : Option String := none
  status : IngestStatus := .running
  error_message : Option String := none
  new_count : Nat := 0
  updated_count : Nat := 0
  unchanged_count : Nat := 0
  drift_count : Nat := 0
deriving DecidableEq, Repr

/-- Embedding of `IngestRun.mark_completed` (models.py) extended with drift_count.
Modelled from the spec: the drift_count assignment is missing from the copy of
models.py under src/ (which predates migration 005); ingest.py passes
`drift_count=drift_count` to mark_completed and the spec finalizes the run with
its counts (new/updated/unchanged/drift), so mark_completed stores all four. -/
def markCompleted (r : IngestRun) (new_count updated_count unchanged_count
    drift_count : Nat) (now : Int) : IngestRun :=
  { r with
    completed_at := some now
    status := .completed
    new_count := new_count
    updated_count := updated_count
    unchanged_count := unchanged_count
    drift_count := drift_count }

/-- Embedding of `IngestRun.mark_failed` (models.py). -/
def markFailed (r : IngestRun) (error_message : String) (now : Int) : IngestRun :=
  { r with
    completed_at := some now
    status := .failed
    error_message := some error_message }

/-- The term row (models.py Term). -/
structure Term where
  id : Nat
  canvas_term_id : Int
  name : String
  start_date : Option Int
  end_date : Option Int
  observed_at : Int
  last_seen_at : Int
deriving DecidableEq, Repr

/-- The offering row (models.py Offering). -/
structure Offering where
  id : Nat
  canvas_course_id : Int
  name : String
  code : Option String
  term_id : Option Nat
  workflow_state : String
  observed_at : Int
  last_seen_at : Int
deriving DecidableEq, Repr

/-- The user_enrollment row (models.py UserEnrollment). -/
structure UserEnrollment where
  id : Nat
  canvas_enrollment_id : Int
  offering_id : Nat
  role : String
  enrollment_state : String
  observed_at : Int
  last_seen_at : Int
deriving DecidableEq, Repr

/-- The section row (models.py Section). -/
structure Section where
  id : Nat
  canvas_section_id : Int
  offering_id : Nat
  name : String
  sis_section_id : Option String
  observed_at : Int
  last_seen_at : Int
deriving DecidableEq, Repr

/-- The person row (models.py Person). -/
structure Person where
  id : Nat
  canvas_user_id : Int
  name : String
  sortable_name : Option String
  sis_user_id : Option String
  login_id : Option String
  observed_at : Int
  last_seen_at : Int
deriving DecidableEq, Repr

/-- The enrollment row (models.py Enrollment). -/
structure Enrollment where
  id : Nat
  canvas_enrollment_id : Int
  offering_id : Nat
  section_id : Option Nat
  person_id : Nat
  role : String
  enrollment_state : String
  current_grade : Option String
  current_score : Option Rat
  final_grade : Option String
  final_score : Option Rat
  observed_at : Int
  last_seen_at : Int
deriving DecidableEq, Repr

/-- The SQLite database state: one list per table plus the id counter
(autoincrement; 1 is the first id, as in SQLite). -/
structure DB where
  terms : List Term
  offerings : List Offering
  user_enrollments : List UserEnrollment
  sections : List Section
  persons : List Person
  enrollments : List Enrollment
  change_log : List ChangeLog
  ingest_runs : List IngestRun
  next_id : Nat
deriving DecidableEq, Repr

/-- The empty database (fresh SQLite file after migrations). -/
def emptyDB : DB :=
  { terms := [], offerings := [], user_enrollments := [], sections := []
    persons := [], enrollments := [], change_log := [], ingest_runs := []
    next_id := 1 }

/-- Normalized term data from the Canvas API (client.py TermData). -/
structure TermData where
  canvas_term_id : Int
  name : String
  start_date : Option Int
  end_date : Option Int
deriving DecidableEq, Repr

/-- Normalized enrollment data from the Canvas API (client.py EnrollmentData). -/
structure EnrollmentData where
  canvas_enrollment_id : Int
  role : String
  enrollment_state : String
  course_id : Int
deriving DecidableEq, Repr

/-- Normalized course data from the Canvas API (client.py CourseData). -/
structure CourseData where
  canvas_course_id : Int
  name : String
  code : Option String
  workflow_state : String
  term_id : Option Int
  enrollments : List EnrollmentData
deriving DecidableEq, Repr

/-- Normalized section data from the Canvas API (client.py SectionData). -/
structure SectionData where
  canvas_section_id : Int
  course_id : Int
  name : String
  sis_section_id : Option String
deriving DecidableEq, Repr

/-- Normalized enrollment data for deep ingestion (client.py CourseEnrollmentData). -/
structure CourseEnrollmentData where
  canvas_enrollment_id : Int
  course_id : Int
  course_section_id : Option Int
  user_id : Int
  role : String
  enrollment_state : String
  user_name : String
  user_sortable_name : Option String
  user_sis_id : Option String
  user_login_id : Option String
  current_grade : Option String
  current_score : Option Rat
  final_grade : Option String
  final_score : Option Rat
deriving DecidableEq, Repr

/-- The exception taxonomy of client.py: CanvasAuthenticationError and
CanvasNotFoundError are subclasses of CanvasClientError; `unexpected` stands for
any exception that is not a CanvasClientError. -/
inductive CanvasErr
  | auth (msg : String)
  | notFound (msg : String)
  | client (msg : String)
  | unexpected (msg : String)
deriving DecidableEq, Repr

/-- The message carried by an error. -/
def CanvasErr.msg : CanvasErr → String
  | .auth m => m
  | .notFound m => m
  | .client m => m
  | .unexpected m => m

/-- Whether `except CanvasClientError` catches the exception (true for the
auth, notFound and client kinds, false for an unexpected exception). -/
def CanvasErr.isClientError : CanvasErr → Bool
  | .unexpected _ => false
  | _ => true

/-- The read-only Canvas API client, as the orchestrator consumes it: each method
either returns data or raises.  A fixed value of this structure is one fixed
observed snapshot (byte-identical input on every call). -/
structure CanvasClient where
  list_my_courses : Except CanvasErr (List CourseData)
  get_term_from_course : Int → Except CanvasErr (Option TermData)
  list_sections : Int → Except CanvasErr (List SectionData)
  list_enrollments : Int → Except CanvasErr (List CourseEnrollmentData)

/-- Result of an ingestion run (ingest.py IngestResult). -/
structure IngestResult where
  run_id : Nat
  new_count : Nat
  updated_count : Nat
  unchanged_count : Nat
  drift_detected : List String
  error : Option String := none
deriving DecidableEq, Repr

/-- Output shape shared by the upsert helpers of ingest.py: the mutated session
state, the upserted record, its status, the drift description list and the
change count.  (`_upsert_term` returns no drift list in the source; its
embedding leaves `drift_list` empty.) -/
structure Upserted (α : Type) where
  db : DB
  record : α
  status : Status
  drift_list : List String := []
  change_count : Nat
deriving Repr

/-- Replace every element whose key matches `k` by `new` (the in-place mutation
of the row found by the unique-key lookup). -/
def updByKey {α : Type} (key : α → Int) (k : Int) (new : α) (l : List α) : List α :=
  l.map fun a => if key a == k then new else a

/-- Embedding of `_upsert_term` (ingest.py).  Each per-field `if` of the source
assigns the observed value to the stored field only when it differs; writing the
observed value unconditionally into the updated record is the same function,
since the assignment is a no-op on an equal field. -/
def _upsert_term (db : DB) (term_data : TermData) (ingest_run_id : Nat)
    (now : Int) : Upserted Term :=
  match db.terms.find? (fun t => t.canvas_term_id == term_data.canvas_term_id) with
  | none =>
      let term : Term :=
        { id := db.next_id
          canvas_term_id := term_data.canvas_term_id
          name := term_data.name
          start_date := term_data.start_date
          end_date := term_data.end_date
          observed_at := now
          last_seen_at := now }
      { db := { db with terms := db.terms ++ [term], next_id := db.next_id + 1 }
        record := term, status := .new, change_count := 0 }
  | some existing =>
      let changes : List ChangeLog :=
        (if existing.name ≠ term_data.name then
          [_record_change .term term_data.canvas_term_id "name"
            (some existing.name) (some term_data.name) ingest_run_id now]
         else []) ++
        (if existing.start_date ≠ term_data.start_date then
          [_record_change .term term_data.canvas_term_id "start_date"
            existing.start_date term_data.start_date ingest_run_id now]
         else []) ++
        (if existing.end_date ≠ term_data.end_date then
          [_record_change .term term_data.canvas_term_id "end_date"
            existing.end_date term_data.end_date ingest_run_id now]
         else [])
      let drift : Bool := changes.length != 0
      let updated : Term :=
        { existing with
          name := term_data.name
          start_date := term_data.start_date
          end_date := term_data.end_date
          last_seen_at := now
          observed_at := if drift then now else existing.observed_at }
      { db := { db with
          terms := updByKey Term.canvas_term_id term_data.canvas_term_id updated db.terms
          change_log := db.change_log ++ changes }
        record := updated
        status := if drift then .updated else .unchanged
        change_count := if drift then changes.length else 0 }

/-- Embedding of `_upsert_offering` (ingest.py). -/
def _upsert_offering (db : DB) (course_data : CourseData) (term_id : Option Nat)
    (ingest_run_id : Nat) (now : Int) : Upserted Offering :=
  match db.offerings.find?
      (fun o => o.canvas_course_id == course_data.canvas_course_id) with
  | none =>
      let offering : Offering :=
        { id := db.next_id
          canvas_course_id := course_data.canvas_course_id
          name := course_data.name
          code := course_data.code
          term_id := term_id
          workflow_state := course_data.workflow_state
          observed_at := now
          last_seen_at := now }
      { db := { db with offerings := db.offerings ++ [offering],
                        next_id := db.next_id + 1 }
        record := offering, status := .new, change_count := 0 }
  | some existing =>
      let cid := course_data.canvas_course_id
      let nameDrift :=
        if existing.name ≠ course_data.name then
          ([("Offering " ++ toString cid ++ ": name " ++ existing.name ++ " -> "
              ++ course_data.name)],
           [_record_change .offering cid "name" (some existing.name)
              (some course_data.name) ingest_run_id now])
        else ([], [])
      let codeDrift :=
        if existing.code ≠ course_data.code then
          ([("Offering " ++ toString cid ++ ": code " ++ pyShowOpt existing.code
              ++ " -> " ++ pyShowOpt course_data.code)],
           [_record_change .offering cid "code" existing.code course_data.code
              ingest_run_id now])
        else ([], [])
      let stateDrift :=
        if existing.workflow_state ≠ course_data.workflow_state then
          ([("Offering " ++ toString cid ++ ": state " ++ existing.workflow_state
              ++ " -> " ++ course_data.workflow_state)],
           [_record_change .offering cid "workflow_state"
              (some existing.workflow_state) (some course_data.workflow_state)
              ingest_run_id now])
        else ([], [])
      let termDrift :=
        if existing.term_id ≠ term_id then
          ([("Offering " ++ toString cid ++ ": term_id " ++ pyShowOpt existing.term_id
              ++ " -> " ++ pyShowOpt term_id)],
           [_record_change .offering cid "term_id" existing.term_id term_id
              ingest_run_id now])
        else ([], [])
      let drift_list := nameDrift.1 ++ codeDrift.1 ++ stateDrift.1 ++ termDrift.1
      let changes := nameDrift.2 ++ codeDrift.2 ++ stateDrift.2 ++ termDrift.2
      let drift : Bool := changes.length != 0
      let updated : Offering :=
        { existing with
          name := course_data.name
          code := course_data.code
          workflow_state := course_data.workflow_state
          term_id := term_id
          last_seen_at := now
          observed_at := if drift then now else existing.observed_at }
      { db := { db with
          offerings := updByKey Offering.canvas_course_id cid updated db.offerings
          change_log := db.change_log ++ changes }
        record := updated
        status := if drift then .updated else .unchanged
        drift_list := drift_list
        change_count := if drift then changes.length else 0 }

/-- Embedding of `_upsert_user_enrollment` (ingest.py). -/
def _upsert_user_enrollment (db : DB) (enrollment_id : Int) (offering_id : Nat)
    (role : String) (enrollment_state : String) (ingest_run_id : Nat)
    (now : Int) : Upserted UserEnrollment :=
  match db.user_enrollments.find?
      (fun e => e.canvas_enrollment_id == enrollment_id) with
  | none =>
      let enrollment : UserEnrollment :=
        { id := db.next_id
          canvas_enrollment_id := enrollment_id
          offering_id := offering_id
          role := role
          enrollment_state := enrollment_state
          observed_at := now
          last_seen_at := now }
      { db := { db with user_enrollments := db.user_enrollments ++ [enrollment],
                        next_id := db.next_id + 1 }
        record := enrollment, status := .new, change_count := 0 }
  | some existing =>
      let roleDrift :=
        if existing.role ≠ role then
          ([("Enrollment " ++ toString enrollment_id ++ ": role " ++ existing.role
              ++ " -> " ++ role)],
           [_record_change .user_enrollment enrollment_id "role"
              (some existing.role) (some role) ingest_run_id now])
        else ([], [])
      let stateDrift :=
        if existing.enrollment_state ≠ enrollment_state then
          ([("Enrollment " ++ toString enrollment_id ++ ": state "
              ++ existing.enrollment_state ++ " -> " ++ enrollment_state)],
           [_record_change .user_enrollment enrollment_id "enrollment_state"
              (some existing.enrollment_state) (some enrollment_state)
              ingest_run_id now])
        else ([], [])
      let drift_list := roleDrift.1 ++ stateDrift.1
      let changes := roleDrift.2 ++ stateDrift.2
      let drift : Bool := changes.length != 0
      let updated : UserEnrollment :=
        { existing with
          role := role
          enrollment_state := enrollment_state
          last_seen_at := now
          observed_at := if drift then now else existing.observed_at }
      { db := { db with
          user_enrollments :=
            updByKey UserEnrollment.canvas_enrollment_id enrollment_id updated
              db.user_enrollments
          change_log := db.change_log ++ changes }
        record := updated
        status := if drift then .updated else .unchanged
        drift_list := drift_list
        change_count := if drift then changes.length else 0 }

/-- Embedding of `_upsert_section` (ingest.py). -/
def _upsert_section (db : DB) (section_data : SectionData) (offering_id : Nat)
    (ingest_run_id : Nat) (now : Int) : Upserted Section :=
  match db.sections.find?
      (fun s => s.canvas_section_id == section_data.canvas_section_id) with
  | none =>
      let s : Section :=
        { id := db.next_id
          canvas_section_id := section_data.canvas_section_id
          offering_id := offering_id
          name := section_data.name
          sis_section_id := section_data.sis_section_id
          observed_at := now
          last_seen_at := now }
      { db := { db with sections := db.sections ++ [s], next_id := db.next_id + 1 }
        record := s, status := .new, change_count := 0 }
  | some existing =>
      let sid := section_data.canvas_section_id
      let nameDrift :=
        if existing.name ≠ section_data.name then
          ([("Section " ++ toString sid ++ ": name " ++ existing.name ++ " -> "
              ++ section_data.name)],
           [_record_change .sec sid "name" (some existing.name)
              (some section_data.name) ingest_run_id now])
        else ([], [])
      let sisDrift :=
        if existing.sis_section_id ≠ section_data.sis_section_id then
          ([("Section " ++ toString sid ++ ": sis_section_id "
              ++ pyShowOpt existing.sis_section_id ++ " -> "
              ++ pyShowOpt section_data.sis_section_id)],
           [_record_change .sec sid "sis_section_id" existing.sis_section_id
              section_data.sis_section_id ingest_run_id now])
        else ([], [])
      let drift_list := nameDrift.1 ++ sisDrift.1
      let changes := nameDrift.2 ++ sisDrift.2
      let drift : Bool := changes.length != 0
      let updated : Section :=
        { existing with
          name := section_data.name
          sis_section_id := section_data.sis_section_id
          last_seen_at := now
          observed_at := if drift then now else existing.observed_at }
      { db := { db with
          sections := updByKey Section.canvas_section_id sid updated db.sections
          change_log := db.change_log ++ changes }
        record := updated
        status := if drift then .updated else .unchanged
        drift_list := drift_list
        change_count := if drift then changes.length else 0 }

/-- Embedding of `_upsert_person` (ingest.py).  Only the name field contributes
to the human-readable drift list in the source; the other three fields are
change-logged without a drift description. -/
def _upsert_person (db : DB) (canvas_user_id : Int) (name : String)
    (sortable_name sis_user_id login_id : Option String) (ingest_run_id : Nat)
    (now : Int) : Upserted Person :=
  match db.persons.find? (fun p => p.canvas_user_id == canvas_user_id) with
  | none =>
      let person : Person :=
        { id := db.next_id
          canvas_user_id := canvas_user_id
          name := name
          sortable_name := sortable_name
          sis_user_id := sis_user_id
          login_id := login_id
          observed_at := now
          last_seen_at := now }
      { db := { db with persons := db.persons ++ [person],
                        next_id := db.next_id + 1 }
        record := person, status := .new, change_count := 0 }
  | some existing =>
      let nameDrift :=
        if existing.name ≠ name then
          ([("Person " ++ toString canvas_user_id ++ ": name " ++ existing.name
              ++ " -> " ++ name)],
           [_record_change .person canvas_user_id "name" (some existing.name)
              (some name) ingest_run_id now])
        else ([], [])
      let sortDrift :=
        if existing.sortable_name ≠ sortable_name then
          [_record_change .person canvas_user_id "sortable_name"
             existing.sortable_name sortable_name ingest_run_id now]
        else []
      let sisDrift :=
        if existing.sis_user_id ≠ sis_user_id then
          [_record_change .person canvas_user_id "sis_user_id"
             existing.sis_user_id sis_user_id ingest_run_id now]
        else []
      let loginDrift :=
        if existing.login_id ≠ login_id then
          [_record_change .person canvas_user_id "login_id"
             existing.login_id login_id ingest_run_id now]
        else []
      let drift_list := nameDrift.1
      let changes := nameDrift.2 ++ sortDrift ++ sisDrift ++ loginDrift
      let drift : Bool := changes.length != 0
      let updated : Person :=
        { existing with
          name := name
          sortable_name := sortable_name
          sis_user_id := sis_user_id
          login_id := login_id
          last_seen_at := now
          observed_at := if drift then now else existing.observed_at }
      { db := { db with
          persons := updByKey Person.canvas_user_id canvas_user_id updated db.persons
          change_log := db.change_log ++ changes }
        record := updated
        status := if drift then .updated else .unchanged
        drift_list := drift_list
        change_count := if drift then changes.length else 0 }

/-- Embedding of `_upsert_enrollment` (ingest.py).  Only the role and
enrollment_state fields contribute to the human-readable drift list; grade
fields and section_id are change-logged without a drift description. -/
def _upsert_enrollment (db : DB) (enrollment_data : CourseEnrollmentData)
    (offering_id : Nat) (section_id : Option Nat) (person_id : Nat)
    (ingest_run_id : Nat) (now : Int) : Upserted Enrollment :=
  match db.enrollments.find?
      (fun e => e.canvas_enrollment_id == enrollment_data.canvas_enrollment_id) with
  | none =>
      let enrollment : Enrollment :=
        { id := db.next_id
          canvas_enrollment_id := enrollment_data.canvas_enrollment_id
          offering_id := offering_id
          section_id := section_id
          person_id := person_id
          role := enrollment_data.role
          enrollment_state := enrollment_data.enrollment_state
          current_grade := enrollment_data.current_grade
          current_score := enrollment_data.current_score
          final_grade := enrollment_data.final_grade
          final_score := enrollment_data.final_score
          observed_at := now
          last_seen_at := now }
      { db := { db with enrollments := db.enrollments ++ [enrollment],
                        next_id := db.next_id + 1 }
        record := enrollment, status := .new, change_count := 0 }
  | some existing =>
      let eid := enrollment_data.canvas_enrollment_id
      let roleDrift :=
        if existing.role ≠ enrollment_data.role then
          ([("Enrollment " ++ toString eid ++ ": role " ++ existing.role ++ " -> "
              ++ enrollment_data.role)],
           [_record_change .enrollment eid "role" (some existing.role)
              (some enrollment_data.role) ingest_run_id now])
        else ([], [])
      let stateDrift :=
        if existing.enrollment_state ≠ enrollment_data.enrollment_state then
          ([("Enrollment " ++ toString eid ++ ": state " ++ existing.enrollment_state
              ++ " -> " ++ enrollment_data.enrollment_state)],
           [_record_change .enrollment eid "enrollment_state"
              (some existing.enrollment_state)
              (some enrollment_data.enrollment_state) ingest_run_id now])
        else ([], [])
      let cgDrift :=
        if existing.current_grade ≠ enrollment_data.current_grade then
          [_record_change .enrollment eid "current_grade" existing.current_grade
             enrollment_data.current_grade ingest_run_id now]
        else []
      let csDrift :=
        if existing.current_score ≠ enrollment_data.current_score then
          [_record_change .enrollment eid "current_score" existing.current_score
             enrollment_data.current_score ingest_run_id now]
        else []
      let fgDrift :=
        if existing.final_grade ≠ enrollment_data.final_grade then
          [_record_change .enrollment eid "final_grade" existing.final_grade
             enrollment_data.final_grade ingest_run_id now]
        else []
      let fsDrift :=
        if existing.final_score ≠ enrollment_data.final_score then
          [_record_change .enrollment eid "final_score" existing.final_score
             enrollment_data.final_score ingest_run_id now]
        else []
      let secDrift :=
        if existing.section_id ≠ section_id then
          [_record_change .enrollment eid "section_id" existing.section_id
             section_id ingest_run_id now]
        else []
      let drift_list := roleDrift.1 ++ stateDrift.1
      let changes := roleDrift.2 ++ stateDrift.2 ++ cgDrift ++ csDrift ++ fgDrift
        ++ fsDrift ++ secDrift
      let drift : Bool := changes.length != 0
      let updated : Enrollment :=
        { existing with
          role := enrollment_data.role
          enrollment_state := enrollment_data.enrollment_state
          current_grade := enrollment_data.current_grade
          current_score := enrollment_data.current_score
          final_grade := enrollment_data.final_grade
          final_score := enrollment_data.final_score
          section_id := section_id
          last_seen_at := now
          observed_at := if drift then now else existing.observed_at }
      { db := { db with
          enrollments := updByKey Enrollment.canvas_enrollment_id eid updated
            db.enrollments
          change_log := db.change_log ++ changes }
        record := updated
        status := if drift then .updated else .unchanged
        drift_list := drift_list
        change_count := if drift then changes.length else 0 }

/-- Python dict assignment `m[k] = v`: any previous binding of `k` is replaced.
The maps are consumed only through `List.lookup`, for which this insert has
exactly the dict semantics. -/
def dictInsert (k : Int) (v : Nat) (m : List (Int × Nat)) : List (Int × Nat) :=
  (m.filter fun p => p.1 != k) ++ [(k, v)]

/-- State threaded through the course loop of `ingest_catalog`: the session
database, the terms_seen map, the run-level accumulators and the clock index.
`trace` is ghost instrumentation recording the (entity kind, status)
classification of every entity reconciled, in order; it feeds no computation. -/
structure CatState where
  db : DB
  terms_seen : List (Int × Nat)
  new_count : Nat
  updated_count : Nat
  unchanged_count : Nat
  drift_count : Nat
  all_drift : List String
  trace : List (EntityType × Status)
  tick : Nat
deriving Repr

/-- The term-handling head of one course iteration of `ingest_catalog`:
resolve or reconcile the term, yielding the internal term id to link (or a
raised client error).  `if course_data.term_id:` is Python truthiness: a
missing term id and the id 0 both skip term handling.  The source counts a new
or updated term but has no else branch: an unchanged term increments no status
counter. -/
def termStep (client : CanvasClient) (τ : Nat → Int) (run_id : Nat)
    (s : CatState) (course_data : CourseData) :
    (CatState × Option Nat) ⊕ (CatState × CanvasErr) :=
  match course_data.term_id with
  | none => Sum.inl (s, none)
  | some tid =>
    if tid = 0 then Sum.inl (s, none)
    else
      match s.terms_seen.lookup tid with
      | some internal => Sum.inl (s, some internal)
      | none =>
        match client.get_term_from_course course_data.canvas_course_id with
        | .error e => Sum.inr (s, e)
        | .ok none => Sum.inl (s, none)
        | .ok (some term_data) =>
          let now := τ s.tick
          let u := _upsert_term s.db term_data run_id now
          let s1 : CatState :=
            { s with
              db := u.db
              tick := s.tick + 1
              terms_seen := dictInsert tid u.record.id s.terms_seen
              drift_count := s.drift_count + u.change_count
              new_count := if u.status = .new then s.new_count + 1 else s.new_count
              updated_count :=
                if u.status = .updated then s.updated_count + 1 else s.updated_count
              trace := s.trace ++ [(.term, u.status)] }
          Sum.inl (s1, some u.record.id)

/-- The offering upsert of one course iteration, returning the new state and
the internal offering id used for the enrollment upserts. -/
def offeringStep (τ : Nat → Int) (run_id : Nat) (s1 : CatState)
    (course_data : CourseData) (term_id : Option Nat) : CatState × Nat :=
  let now := τ s1.tick
  let u := _upsert_offering s1.db course_data term_id run_id now
  ({ s1 with
      db := u.db
      tick := s1.tick + 1
      all_drift := s1.all_drift ++ u.drift_list
      drift_count := s1.drift_count + u.change_count
      new_count := if u.status = .new then s1.new_count + 1 else s1.new_count
      updated_count :=
        if u.status = .updated then s1.updated_count + 1 else s1.updated_count
      unchanged_count :=
        if u.status = .unchanged then s1.unchanged_count + 1 else s1.unchanged_count
      trace := s1.trace ++ [(.offering, u.status)] },
   u.record.id)

/-- One user-enrollment upsert of the inner loop of a course iteration. -/
def userEnrStep (τ : Nat → Int) (run_id offering_id : Nat) (acc : CatState)
    (ed : EnrollmentData) : CatState :=
  let nowE := τ acc.tick
  let ue := _upsert_user_enrollment acc.db ed.canvas_enrollment_id offering_id
    ed.role ed.enrollment_state run_id nowE
  { acc with
    db := ue.db
    tick := acc.tick + 1
    all_drift := acc.all_drift ++ ue.drift_list
    drift_count := acc.drift_count + ue.change_count
    new_count := if ue.status = .new then acc.new_count + 1 else acc.new_count
    updated_count :=
      if ue.status = .updated then acc.updated_count + 1 else acc.updated_count
    unchanged_count :=
      if ue.status = .unchanged then acc.unchanged_count + 1
      else acc.unchanged_count
    trace := acc.trace ++ [(.user_enrollment, ue.status)] }

/-- One iteration of the `for course_data in courses` loop of `ingest_catalog`.
A `Sum.inr` result carries the state at the point a client call raised together
with the exception (control transfers to the except clauses of the
orchestrator). -/
def processCourse (client : CanvasClient) (τ : Nat → Int) (run_id : Nat)
    (s : CatState) (course_data : CourseData) : CatState ⊕ (CatState × CanvasErr) :=
  match termStep client τ run_id s course_data with
  | Sum.inr r => Sum.inr r
  | Sum.inl (s1, term_id) =>
    let p := offeringStep τ run_id s1 course_data term_id
    Sum.inl (course_data.enrollments.foldl (userEnrStep τ run_id p.2) p.1)

/-- The course loop: processes courses in order, stopping at the first raised
exception. -/
def foldCourses (client : CanvasClient) (τ : Nat → Int) (run_id : Nat) :
    List CourseData → CatState → CatState × Option CanvasErr
  | [], s => (s, none)
  | c :: rest, s =>
    match processCourse client τ run_id s c with
    | Sum.inl s1 => foldCourses client τ run_id rest s1
    | Sum.inr (s1, e) => (s1, some e)

/-- Observable outcome of one orchestrator call: the final database state, the
snapshots taken at each `session.commit()` in order, the returned IngestResult
(none when an exception propagates to the caller) and the message of the
re-raised exception when one does.  `trace` carries the ghost classification
trace of the run (every (entity kind, status) the run computed, in order). -/
structure Outcome where
  db : DB
  commits : List DB
  result : Option IngestResult
  raised : Option String
  trace : List (EntityType × Status) := []
deriving Repr

/-- Mutating the session-attached `run` object updates the ingest_run row with
that id. -/
def updateRun (db : DB) (run_id : Nat) (f : IngestRun → IngestRun) : DB :=
  { db with ingest_runs := db.ingest_runs.map fun r => if r.id == run_id then f r else r }

/-- The three ways the try block of `ingest_catalog` ends: no exception
(finalize completed, commit, return the result), a CanvasClientError (finalize
failed, commit, return an error result), any other exception (finalize failed,
commit, re-raise).  `db0` is the snapshot taken by the first commit. -/
def catalogFinish (db0 : DB) (run_id : Nat) (τ : Nat → Int)
    (p : CatState × Option CanvasErr) : Outcome :=
  match p.2 with
  | none =>
    let s := p.1
    let dbf := updateRun s.db run_id fun r =>
      markCompleted r s.new_count s.updated_count s.unchanged_count s.drift_count
        (τ s.tick)
    { db := dbf
      commits := [db0, dbf]
      result := some
        { run_id := run_id, new_count := s.new_count
          updated_count := s.updated_count, unchanged_count := s.unchanged_count
          drift_detected := s.all_drift }
      raised := none
      trace := s.trace }
  | some e =>
    let s := p.1
    if e.isClientError then
      -- except CanvasClientError: finalize as failed, commit, return a result
      let dbf := updateRun s.db run_id fun r => markFailed r e.msg (τ s.tick)
      { db := dbf
        commits := [db0, dbf]
        result := some
          { run_id := run_id, new_count := 0, updated_count := 0
            unchanged_count := 0, drift_detected := [], error := some e.msg }
        raised := none
        trace := s.trace }
    else
      -- except Exception: finalize as failed, commit, re-raise
      let dbf := updateRun s.db run_id fun r =>
        markFailed r ("Unexpected error: " ++ e.msg) (τ s.tick)
      { db := dbf, commits := [db0, dbf], result := none, raised := some e.msg
        trace := s.trace }

/-- The db state right after the first commit of a run: the incoming db plus
the freshly inserted running run row. -/
def withRunRow (db : DB) (run : IngestRun) : DB :=
  { db with ingest_runs := db.ingest_runs ++ [run], next_id := db.next_id + 1 }

/-- The initial loop state of `ingest_catalog`. -/
def catStart (db0 : DB) : CatState :=
  { db := db0, terms_seen := [], new_count := 0, updated_count := 0
    unchanged_count := 0, drift_count := 0, all_drift := [], trace := [], tick := 1 }

/-- Embedding of `ingest_catalog` (ingest.py).  The run row is inserted and
committed first (its own commit, so that its id is assigned); entity work then
happens in the session and is committed together with the run finalization by
the single commit of the branch that ends the run. -/
def ingest_catalog (client : CanvasClient) (db : DB) (τ : Nat → Int) : Outcome :=
  let run : IngestRun := { id := db.next_id, started_at := τ 0, scope := .catalog }
  let run_id := run.id
  let db0 : DB := withRunRow db run
  match client.list_my_courses with
  | .error e => catalogFinish db0 run_id τ (catStart db0, some e)
  | .ok courses =>
      catalogFinish db0 run_id τ (foldCourses client τ run_id courses (catStart db0))

/-- State threaded through the two loops of `ingest_offering`; `trace` is the
same ghost instrumentation as in `CatState`. -/
structure OffState where
  db : DB
  section_map : List (Int × Nat)
  new_count : Nat
  updated_count : Nat
  unchanged_count : Nat
  drift_count : Nat
  all_drift : List String
  trace : List (EntityType × Status)
  tick : Nat
deriving Repr

/-- One iteration of the section loop of `ingest_offering`. -/
def processSection (τ : Nat → Int) (offering_id run_id : Nat) (s : OffState)
    (section_data : SectionData) : OffState :=
  let now := τ s.tick
  let u := _upsert_section s.db section_data offering_id run_id now
  { s with
    db := u.db
    tick := s.tick + 1
    section_map := dictInsert section_data.canvas_section_id u.record.id s.section_map
    all_drift := s.all_drift ++ u.drift_list
    drift_count := s.drift_count + u.change_count
    new_count := if u.status = .new then s.new_count + 1 else s.new_count
    updated_count := if u.status = .updated then s.updated_count + 1 else s.updated_count
    unchanged_count :=
      if u.status = .unchanged then s.unchanged_count + 1 else s.unchanged_count
    trace := s.trace ++ [(.sec, u.status)] }

/-- One iteration of the enrollment loop of `ingest_offering`: person upsert,
section-id resolution through the run map, then the enrollment upsert.
`if enrollment_data.course_section_id:` is Python truthiness (0 and None both
skip the map lookup), and an id absent from the map resolves to null. -/
def processEnrollment (τ : Nat → Int) (offering_id run_id : Nat) (s : OffState)
    (enrollment_data : CourseEnrollmentData) : OffState :=
  let now := τ s.tick
  let up := _upsert_person s.db enrollment_data.user_id enrollment_data.user_name
    enrollment_data.user_sortable_name enrollment_data.user_sis_id
    enrollment_data.user_login_id run_id now
  let s1 : OffState :=
    { s with
      db := up.db
      tick := s.tick + 1
      all_drift := s.all_drift ++ up.drift_list
      drift_count := s.drift_count + up.change_count
      -- the source counts a new or updated person but has no else branch:
      -- an unchanged person increments no status counter
      new_count := if up.status = .new then s.new_count + 1 else s.new_count
      updated_count :=
        if up.status = .updated then s.updated_count + 1 else s.updated_count
      trace := s.trace ++ [(.person, up.status)] }
  let section_id : Option Nat :=
    match enrollment_data.course_section_id with
    | none => none
    | some csid => if csid = 0 then none else s1.section_map.lookup csid
  let now2 := τ s1.tick
  let ue := _upsert_enrollment s1.db enrollment_data offering_id section_id
    up.record.id run_id now2
  { s1 with
    db := ue.db
    tick := s1.tick + 1
    all_drift := s1.all_drift ++ ue.drift_list
    drift_count := s1.drift_count + ue.change_count
    new_count := if ue.status = .new then s1.new_count + 1 else s1.new_count
    updated_count :=
      if ue.status = .updated then s1.updated_count + 1 else s1.updated_count
    unchanged_count :=
      if ue.status = .unchanged then s1.unchanged_count + 1 else s1.unchanged_count
    trace := s1.trace ++ [(.enrollment, ue.status)] }

/-- The initial loop state of `ingest_offering`. -/
def offStart (db0 : DB) : OffState :=
  { db := db0, section_map := [], new_count := 0, updated_count := 0
    unchanged_count := 0, drift_count := 0, all_drift := [], trace := [], tick := 1 }

/-- The except clauses of `ingest_offering`: CanvasNotFoundError and
CanvasClientError both finalize the run as failed, commit and return an error
result; any other exception finalizes as failed, commits and re-raises. -/
def offeringFail (db0 : DB) (run_id : Nat) (τ : Nat → Int) (s : OffState)
    (e : CanvasErr) : Outcome :=
  if e.isClientError then
    let dbf := updateRun s.db run_id fun r => markFailed r e.msg (τ s.tick)
    { db := dbf
      commits := [db0, dbf]
      result := some
        { run_id := run_id, new_count := 0, updated_count := 0
          unchanged_count := 0, drift_detected := [], error := some e.msg }
      raised := none
      trace := s.trace }
  else
    let dbf := updateRun s.db run_id fun r =>
      markFailed r ("Unexpected error: " ++ e.msg) (τ s.tick)
    { db := dbf, commits := [db0, dbf], result := none, raised := some e.msg
      trace := s.trace }

/-- The success terminal of `ingest_offering`: finalize the run as completed
with the accumulated counts, commit, return the result. -/
def offeringComplete (db0 : DB) (run_id : Nat) (τ : Nat → Int) (s : OffState) :
    Outcome :=
  let dbf := updateRun s.db run_id fun r =>
    markCompleted r s.new_count s.updated_count s.unchanged_count s.drift_count
      (τ s.tick)
  { db := dbf
    commits := [db0, dbf]
    result := some
      { run_id := run_id, new_count := s.new_count
        updated_count := s.updated_count, unchanged_count := s.unchanged_count
        drift_detected := s.all_drift }
    raised := none
    trace := s.trace }

/-- The run row inserted by `ingest_offering`. -/
def offRun (db : DB) (cid : Int) (τ : Nat → Int) : IngestRun :=
  { id := db.next_id, started_at := τ 0, scope := .offering
    scope_detail := some (toString cid) }

/-- Embedding of `ingest_offering` (ingest.py).  The local-offering
precondition is checked before any run row exists; its violation returns the
`run_id = 0` sentinel result with no database effect and no commit. -/
def ingest_offering (client : CanvasClient) (db : DB) (canvas_course_id : Int)
    (τ : Nat → Int) : Outcome :=
  match db.offerings.find? (fun o => o.canvas_course_id == canvas_course_id) with
  | none =>
    { db := db
      commits := []
      result := some
        { run_id := 0, new_count := 0, updated_count := 0, unchanged_count := 0
          drift_detected := []
          error := some ("Offering " ++ toString canvas_course_id
            ++ " not found locally. Run cl ingest catalog first to populate offerings.") }
      raised := none }
  | some offering =>
    let offering_id := offering.id
    let run : IngestRun := offRun db canvas_course_id τ
    let run_id := run.id
    let db0 : DB := withRunRow db run
    let s0 : OffState := offStart db0
    match client.list_sections canvas_course_id with
    | .error e => offeringFail db0 run_id τ s0 e
    | .ok sections =>
      let s1 := sections.foldl (processSection τ offering_id run_id) s0
      match client.list_enrollments canvas_course_id with
      | .error e => offeringFail db0 run_id τ s1 e
      | .ok enrollments =>
        offeringComplete db0 run_id τ
          (enrollments.foldl (processEnrollment τ offering_id run_id) s1)

/-- Number of trace entries with the given status. -/
def countStatus (tr : List (EntityType × Status)) (st : Status) : Nat :=
  (tr.filter fun p => p.2 == st).length

/-- Number of unchanged trace entries of the kinds whose unchanged branch the
source actually counts (all kinds except terms and persons). -/
def countedUnchanged (tr : List (EntityType × Status)) : Nat :=
  (tr.filter fun p =>
    p.2 == Status.unchanged && p.1 != EntityType.term && p.1 != EntityType.person).length

/-! Concrete fixtures for witnesses and counterexamples. -/

/-- The identity clock: tick n happens at time n. -/
def tickClock : Nat → Int := fun n => n

/-- A catalog observation: one course with one term and one caller enrollment. -/
def fixtureEnrollment : EnrollmentData :=
  { canvas_enrollment_id := 501, role := "teacher", enrollment_state := "active"
    course_id := 101 }

/-- Term data attached to the fixture course. -/
def fixtureTermData : TermData :=
  { canvas_term_id := 7, name := "Fall", start_date := none, end_date := none }

/-- The fixture course. -/
def fixtureCourse : CourseData :=
  { canvas_course_id := 101, name := "Original Name", code := some "CODE101"
    workflow_state := "available", term_id := some 7
    enrollments := [fixtureEnrollment] }

/-- A client observing the fixture course. -/
def fixtureClient : CanvasClient :=
  { list_my_courses := .ok [fixtureCourse]
    get_term_from_course := fun _ => .ok (some fixtureTermData)
    list_sections := fun _ => .ok []
    list_enrollments := fun _ => .ok [] }

/-- An offering row seeded by a previous catalog run. -/
def seededOffering : Offering :=
  { id := 1, canvas_course_id := 101, name := "Original Name"
    code := some "CODE101", term_id := none, workflow_state := "available"
    observed_at := 0, last_seen_at := 0 }

/-- A database holding just the seeded offering. -/
def seededDB : DB := { emptyDB with offerings := [seededOffering], next_id := 2 }

/-- The fixture course re-observed with name, code and workflow state changed. -/
def driftCourse : CourseData :=
  { canvas_course_id := 101, name := "Changed Name", code := some "NEW101"
    workflow_state := "completed", term_id := none, enrollments := [] }

/-- A client observing the changed course. -/
def driftClient : CanvasClient :=
  { list_my_courses := .ok [driftCourse]
    get_term_from_course := fun _ => .ok none
    list_sections := fun _ => .ok []
    list_enrollments := fun _ => .ok [] }

/-- A client whose course listing fails authentication. -/
def authFailClient : CanvasClient :=
  { list_my_courses := .error (.auth "Canvas API token is invalid or expired.")
    get_term_from_course := fun _ => .ok none
    list_sections := fun _ => .error (.auth "Canvas API token is invalid or expired.")
    list_enrollments := fun _ => .error (.auth "Canvas API token is invalid or expired.") }

/-- A client whose calls raise an unexpected (non-Canvas) exception. -/
def bombClient : CanvasClient :=
  { list_my_courses := .error (.unexpected "boom")
    get_term_from_course := fun _ => .error (.unexpected "boom")
    list_sections := fun _ => .error (.unexpected "boom")
    list_enrollments := fun _ => .error (.unexpected "boom") }


/-- A stored term row used by the C4 witness. -/
def fixtureTermRow : Term :=
  { id := 1, canvas_term_id := 7, name := "Fall", start_date := none
    end_date := none, observed_at := 0, last_seen_at := 0 }

/-- A database holding just the stored term row. -/
def fixtureTermDB : DB := { emptyDB with terms := [fixtureTermRow], next_id := 2 }

/-- The stored term re-observed under a different name. -/
def renamedTermData : TermData :=
  { canvas_term_id := 7, name := "Autumn", start_date := none, end_date := none }


/-- The run row inserted by `ingest_catalog`. -/
def catRun (db : DB) (τ : Nat → Int) : IngestRun :=
  { id := db.next_id, started_at := τ 0, scope := .catalog }

/-- The whole try body of `ingest_catalog` up to (but excluding) the terminal
branch: the course listing call followed by the course loop. -/
def catalogLoop (client : CanvasClient) (db : DB) (τ : Nat → Int) :
    CatState × Option CanvasErr :=
  match client.list_my_courses with
  | .error e => (catStart (withRunRow db (catRun db τ)), some e)
  | .ok courses =>
      foldCourses client τ db.next_id courses (catStart (withRunRow db (catRun db τ)))

/-- The terminal dispatch of `ingest_offering`, symmetric to `catalogFinish`. -/
def offeringFinish (db0 : DB) (run_id : Nat) (τ : Nat → Int)
    (p : OffState × Option CanvasErr) : Outcome :=
  match p.2 with
  | none => offeringComplete db0 run_id τ p.1
  | some e => offeringFail db0 run_id τ p.1 e

/-- The try body of `ingest_offering` up to the terminal branch: the sections
call and loop, then the enrollments call and loop. -/
def offeringLoop (client : CanvasClient) (τ : Nat → Int) (db0 : DB)
    (offering_id run_id : Nat) (cid : Int) : OffState × Option CanvasErr :=
  match client.list_sections cid with
  | .error e => (offStart db0, some e)
  | .ok sections =>
      let s1 := sections.foldl (processSection τ offering_id run_id) (offStart db0)
      match client.list_enrollments cid with
      | .error e => (s1, some e)
      | .ok enrollments =>
          (enrollments.foldl (processEnrollment τ offering_id run_id) s1, none)

/-- The run-level counters agree with the ghost classification trace: new and
updated count every entity so classified, while the unchanged counter counts
only the kinds whose unchanged branch the source counts. -/
def CountsOk (new_count updated_count unchanged_count : Nat)
    (tr : List (EntityType × Status)) : Prop :=
  new_count = countStatus tr .new ∧
  updated_count = countStatus tr .updated ∧
  unchanged_count = countedUnchanged tr


/-- One reconciliation of one observed entity, exactly as the orchestrators
invoke the upserts; used to state properties of arbitrary sequences of
reconciliations. -/
inductive ReconOp
  | term (td : TermData) (rid : Nat)
  | offering (cd : CourseData) (tid : Option Nat) (rid : Nat)
  | userEnr (eid : Int) (oid : Nat) (role st : String) (rid : Nat)
  | sectionOp (sd : SectionData) (oid rid : Nat)
  | person (uid : Int) (nm : String) (sn si li : Option String) (rid : Nat)
  | enrollment (ed : CourseEnrollmentData) (oid : Nat) (sid : Option Nat)
      (pid rid : Nat)

/-- Apply one reconciliation at one timestamp. -/
def applyOp (db : DB) (op : ReconOp) (now : Int) : DB :=
  match op with
  | .term td rid => (_upsert_term db td rid now).db
  | .offering cd tid rid => (_upsert_offering db cd tid rid now).db
  | .userEnr eid oid role st rid =>
      (_upsert_user_enrollment db eid oid role st rid now).db
  | .sectionOp sd oid rid => (_upsert_section db sd oid rid now).db
  | .person uid nm sn si li rid => (_upsert_person db uid nm sn si li rid now).db
  | .enrollment ed oid sid pid rid =>
      (_upsert_enrollment db ed oid sid pid rid now).db

/-- The timestamp invariant: observed_at ≤ last_seen_at for every record of
every kind. -/
def TimeInv (db : DB) : Prop :=
  (∀ x ∈ db.terms, x.observed_at ≤ x.last_seen_at) ∧
  (∀ x ∈ db.offerings, x.observed_at ≤ x.last_seen_at) ∧
  (∀ x ∈ db.user_enrollments, x.observed_at ≤ x.last_seen_at) ∧
  (∀ x ∈ db.sections, x.observed_at ≤ x.last_seen_at) ∧
  (∀ x ∈ db.persons, x.observed_at ≤ x.last_seen_at) ∧
  (∀ x ∈ db.enrollments, x.observed_at ≤ x.last_seen_at)

/-- Every record was last seen no later than t (the clock has not run
backwards relative to the store). -/
def SeenLE (db : DB) (t : Int) : Prop :=
  (∀ x ∈ db.terms, x.last_seen_at ≤ t) ∧
  (∀ x ∈ db.offerings, x.last_seen_at ≤ t) ∧
  (∀ x ∈ db.user_enrollments, x.last_seen_at ≤ t) ∧
  (∀ x ∈ db.sections, x.last_seen_at ≤ t) ∧
  (∀ x ∈ db.persons, x.last_seen_at ≤ t) ∧
  (∀ x ∈ db.enrollments, x.last_seen_at ≤ t)

/-- At least one tracked term field differs. -/
def termDrift (ex : Term) (td : TermData) : Prop :=
  ex.name ≠ td.name ∨ ex.start_date ≠ td.start_date ∨ ex.end_date ≠ td.end_date

/-- At least one tracked offering field differs. -/
def offeringDrift (ex : Offering) (cd : CourseData) (tid : Option Nat) : Prop :=
  ex.name ≠ cd.name ∨ ex.code ≠ cd.code ∨
    ex.workflow_state ≠ cd.workflow_state ∨ ex.term_id ≠ tid

/-- At least one tracked user-enrollment field differs. -/
def userEnrDrift (ex : UserEnrollment) (role st : String) : Prop :=
  ex.role ≠ role ∨ ex.enrollment_state ≠ st

/-- At least one tracked section field differs. -/
def sectionDrift (ex : Section) (sd : SectionData) : Prop :=
  ex.name ≠ sd.name ∨ ex.sis_section_id ≠ sd.sis_section_id

/-- At least one tracked person field differs. -/
def personDrift (ex : Person) (nm : String) (sn si li : Option String) : Prop :=
  ex.name ≠ nm ∨ ex.sortable_name ≠ sn ∨ ex.sis_user_id ≠ si ∨ ex.login_id ≠ li

/-- At least one tracked enrollment field differs. -/
def enrollmentDrift (ex : Enrollment) (ed : CourseEnrollmentData)
    (sid : Option Nat) : Prop :=
  ex.role ≠ ed.role ∨ ex.enrollment_state ≠ ed.enrollment_state ∨
    ex.current_grade ≠ ed.current_grade ∨ ex.current_score ≠ ed.current_score ∨
    ex.final_grade ≠ ed.final_grade ∨ ex.final_score ≠ ed.final_score ∨
    ex.section_id ≠ sid

instance (ex : Term) (td : TermData) : Decidable (termDrift ex td) := by
  unfold termDrift; infer_instance

instance (ex : Offering) (cd : CourseData) (tid : Option Nat) :
    Decidable (offeringDrift ex cd tid) := by
  unfold offeringDrift; infer_instance

instance (ex : UserEnrollment) (role st : String) :
    Decidable (userEnrDrift ex role st) := by
  unfold userEnrDrift; infer_instance

instance (ex : Section) (sd : SectionData) : Decidable (sectionDrift ex sd) := by
  unfold sectionDrift; infer_instance

instance (ex : Person) (nm : String) (sn si li : Option String) :
    Decidable (personDrift ex nm sn si li) := by
  unfold personDrift; infer_instance

instance (ex : Enrollment) (ed : CourseEnrollmentData) (sid : Option Nat) :
    Decidable (enrollmentDrift ex ed sid) := by
  unfold enrollmentDrift; infer_instance

/-- Apply a whole sequence of reconciliations, each at its own timestamp. -/
def applyOps (db : DB) (ops : List (ReconOp × Int)) : DB :=
  ops.foldl (fun d p => applyOp d p.1 p.2) db

/-- The stored offering term link a catalog run leaves for a course: null when
the course carries no truthy term id, otherwise the id of the stored term row
keyed by the course's Canvas term id. -/
def offLink (db : DB) (c : CourseData) (v : Option Nat) : Prop :=
  match c.term_id with
  | none => v = none
  | some tid =>
      if tid = 0 then v = none
      else ∃ t, db.terms.find? (fun x => x.canvas_term_id == tid) = some t ∧
        v = some t.id

/-- One catalog course is fully reconciled into the store: its offering row
holds the observed fields and the reference term link, its term row (when the
course's term resolves) holds the fetched fields, and each caller enrollment
row holds the observed role and state. -/
def CourseReady (client : CanvasClient) (db : DB) (c : CourseData) : Prop :=
  (∃ o, db.offerings.find? (fun x => x.canvas_course_id == c.canvas_course_id)
      = some o ∧
    o.name = c.name ∧ o.code = c.code ∧
    o.workflow_state = c.workflow_state ∧ offLink db c o.term_id) ∧
  (∀ tid, c.term_id = some tid → tid ≠ 0 →
    ∀ td, client.get_term_from_course c.canvas_course_id = Except.ok (some td) →
      ∃ t, db.terms.find? (fun x => x.canvas_term_id == tid) = some t ∧
        t.name = td.name ∧ t.start_date = td.start_date ∧
        t.end_date = td.end_date) ∧
  (∀ e ∈ c.enrollments,
    ∃ ue, db.user_enrollments.find?
        (fun x => x.canvas_enrollment_id == e.canvas_enrollment_id) = some ue ∧
      ue.role = e.role ∧ ue.enrollment_state = e.enrollment_state)

/-- Every course of the list is fully reconciled into the store. -/
def CatReady (client : CanvasClient) (db : DB) (cs : List CourseData) : Prop :=
  ∀ c ∈ cs, CourseReady client db c

/-- One caller enrollment is reconciled into the store. -/
def UeReady (db : DB) (e : EnrollmentData) : Prop :=
  ∃ ue, db.user_enrollments.find?
      (fun x => x.canvas_enrollment_id == e.canvas_enrollment_id) = some ue ∧
    ue.role = e.role ∧ ue.enrollment_state = e.enrollment_state

/-- Every binding of the terms_seen run map points at the stored term row with
that canvas id. -/
def SeenSound (db : DB) (m : List (Int × Nat)) : Prop :=
  ∀ tid v, m.lookup tid = some v →
    ∃ t, db.terms.find? (fun x => x.canvas_term_id == tid) = some t ∧ t.id = v

/-- Run-map soundness strengthened with the first run's data guarantee: the
bound term row also stores the fields any course of the snapshot with that term
id would fetch. -/
def SeenData (client : CanvasClient) (ALL : List CourseData) (db : DB)
    (m : List (Int × Nat)) : Prop :=
  ∀ tid v, m.lookup tid = some v →
    tid ≠ 0 ∧
    ∃ t, db.terms.find? (fun x => x.canvas_term_id == tid) = some t ∧ t.id = v ∧
      ∀ c ∈ ALL, c.term_id = some tid →
        ∀ td, client.get_term_from_course c.canvas_course_id
            = Except.ok (some td) →
          t.name = td.name ∧ t.start_date = td.start_date ∧
            t.end_date = td.end_date

/-- The loop invariant of the second catalog run: the change log has not grown,
every course is still fully reconciled, the run map is sound, and the counters
of new and updated classifications recorded in the trace are unchanged. -/
def CatInv (client : CanvasClient) (ALL : List CourseData)
    (log0 : List ChangeLog) (n0 u0 : Nat) (s : CatState) : Prop :=
  s.db.change_log = log0 ∧ CatReady client s.db ALL ∧
  SeenSound s.db s.terms_seen ∧
  countStatus s.trace .new = n0 ∧ countStatus s.trace .updated = u0

/-- One observed section is stored with its observed fields. -/
def SecReady1 (db : DB) (sd : SectionData) : Prop :=
  ∃ srow, db.sections.find?
      (fun x => x.canvas_section_id == sd.canvas_section_id) = some srow ∧
    srow.name = sd.name ∧ srow.sis_section_id = sd.sis_section_id

/-- Every observed section of the offering snapshot is stored with its
observed fields. -/
def SecReady (db : DB) (secs : List SectionData) : Prop :=
  ∀ sd ∈ secs, SecReady1 db sd

/-- The person of one observed enrollment is stored with the observed
fields. -/
def PersonReady1 (db : DB) (e : CourseEnrollmentData) : Prop :=
  ∃ p, db.persons.find? (fun x => x.canvas_user_id == e.user_id) = some p ∧
    p.name = e.user_name ∧ p.sortable_name = e.user_sortable_name ∧
    p.sis_user_id = e.user_sis_id ∧ p.login_id = e.user_login_id

/-- Every person observed through the offering snapshot is stored with the
observed fields. -/
def PersonReady (db : DB) (enrs : List CourseEnrollmentData) : Prop :=
  ∀ e ∈ enrs, PersonReady1 db e

/-- The section link an offering run resolves for an observed enrollment: null
for an untruthy course_section_id or one outside the observed sections,
otherwise the id of the stored section row with that canvas id. -/
def resolveSec (db : DB) (secs : List SectionData) (e : CourseEnrollmentData) :
    Option Nat :=
  match e.course_section_id with
  | none => none
  | some csid =>
      if csid = 0 then none
      else if (secs.map SectionData.canvas_section_id).contains csid then
        (db.sections.find? (fun x => x.canvas_section_id == csid)).map Section.id
      else none

/-- One observed enrollment is stored with its observed fields and the
reference section link. -/
def EnrReady1 (db : DB) (secs : List SectionData)
    (e : CourseEnrollmentData) : Prop :=
  ∃ row, db.enrollments.find?
      (fun x => x.canvas_enrollment_id == e.canvas_enrollment_id) = some row ∧
    row.role = e.role ∧ row.enrollment_state = e.enrollment_state ∧
    row.current_grade = e.current_grade ∧
    row.current_score = e.current_score ∧
    row.final_grade = e.final_grade ∧ row.final_score = e.final_score ∧
    row.section_id = resolveSec db secs e

/-- Every observed enrollment of the offering snapshot is stored with its
observed fields and the reference section link. -/
def EnrReady (db : DB) (secs : List SectionData)
    (enrs : List CourseEnrollmentData) : Prop :=
  ∀ e ∈ enrs, EnrReady1 db secs e

/-- The run section map holds exactly the observed section keys, each bound to
the stored row id. -/
def SecMapOk (db : DB) (secs : List SectionData) (m : List (Int × Nat)) : Prop :=
  ∀ csid, m.lookup csid =
    if (secs.map SectionData.canvas_section_id).contains csid then
      (db.sections.find? (fun x => x.canvas_section_id == csid)).map Section.id
    else none

/-- The loop invariant of the second offering run (after the section map is
rebuilt): the change log has not grown, sections, persons and enrollments are
still fully reconciled, and the counters of new and updated classifications in
the trace are unchanged. -/
def OffInv (secs : List SectionData) (enrs : List CourseEnrollmentData)
    (log0 : List ChangeLog) (n0 u0 : Nat) (s : OffState) : Prop :=
  s.db.change_log = log0 ∧ SecReady s.db secs ∧ PersonReady s.db enrs ∧
  EnrReady s.db secs enrs ∧
  countStatus s.trace .new = n0 ∧ countStatus s.trace .updated = u0

end CanvasLedger

namespace CanvasLedger

/-! Helper lemmas about the terminal branches of the orchestrators. -/

/-- Equation for `catalogFinish` when the try block raised nothing. -/
theorem catalogFinish_ok (db0 : DB) (rid : Nat) (τ : Nat → Int) (s : CatState) :
    catalogFinish db0 rid τ (s, none) =
      { db := updateRun s.db rid fun r =>
          markCompleted r s.new_count s.updated_count s.unchanged_count
            s.drift_count (τ s.tick)
        commits := [db0, updateRun s.db rid fun r =>
          markCompleted r s.new_count s.updated_count s.unchanged_count
            s.drift_count (τ s.tick)]
        result := some
          { run_id := rid, new_count := s.new_count
            updated_count := s.updated_count, unchanged_count := s.unchanged_count
            drift_detected := s.all_drift }
        raised := none
        trace := s.trace } := rfl

/-- Equation for `catalogFinish` when a CanvasClientError was caught. -/
theorem catalogFinish_client (db0 : DB) (rid : Nat) (τ : Nat → Int) (s : CatState)
    (e : CanvasErr) (he : e.isClientError = true) :
    catalogFinish db0 rid τ (s, some e) =
      { db := updateRun s.db rid fun r => markFailed r e.msg (τ s.tick)
        commits := [db0, updateRun s.db rid fun r => markFailed r e.msg (τ s.tick)]
        result := some
          { run_id := rid, new_count := 0, updated_count := 0
            unchanged_count := 0, drift_detected := [], error := some e.msg }
        raised := none
        trace := s.trace } := by
  simp only [catalogFinish, he, if_true]

/-- Equation for `catalogFinish` when an unexpected exception was caught. -/
theorem catalogFinish_unexpected (db0 : DB) (rid : Nat) (τ : Nat → Int)
    (s : CatState) (e : CanvasErr) (he : e.isClientError = false) :
    catalogFinish db0 rid τ (s, some e) =
      { db := updateRun s.db rid fun r =>
          markFailed r ("Unexpected error: " ++ e.msg) (τ s.tick)
        commits := [db0, updateRun s.db rid fun r =>
          markFailed r ("Unexpected error: " ++ e.msg) (τ s.tick)]
        result := none
        raised := some e.msg
        trace := s.trace } := by
  simp only [catalogFinish, he]
  rfl

/-- Equation for `offeringFail` on a CanvasClientError. -/
theorem offeringFail_client (db0 : DB) (rid : Nat) (τ : Nat → Int) (s : OffState)
    (e : CanvasErr) (he : e.isClientError = true) :
    offeringFail db0 rid τ s e =
      { db := updateRun s.db rid fun r => markFailed r e.msg (τ s.tick)
        commits := [db0, updateRun s.db rid fun r => markFailed r e.msg (τ s.tick)]
        result := some
          { run_id := rid, new_count := 0, updated_count := 0
            unchanged_count := 0, drift_detected := [], error := some e.msg }
        raised := none
        trace := s.trace } := by
  simp only [offeringFail, he, if_true]

/-- Equation for `offeringFail` on an unexpected exception. -/
theorem offeringFail_unexpected (db0 : DB) (rid : Nat) (τ : Nat → Int)
    (s : OffState) (e : CanvasErr) (he : e.isClientError = false) :
    offeringFail db0 rid τ s e =
      { db := updateRun s.db rid fun r =>
          markFailed r ("Unexpected error: " ++ e.msg) (τ s.tick)
        commits := [db0, updateRun s.db rid fun r =>
          markFailed r ("Unexpected error: " ++ e.msg) (τ s.tick)]
        result := none
        raised := some e.msg
        trace := s.trace } := by
  simp only [offeringFail, he]
  rfl

/-- C6: for every external course id with no matching local Offering,
offering-scope ingestion returns immediately an error result with run_id = 0,
writes no IngestRun row, commits nothing and leaves the database untouched. -/
theorem C6_deep_ingest_precondition (client : CanvasClient) (db : DB) (cid : Int)
    (τ : Nat → Int)
    (h : db.offerings.find? (fun o => o.canvas_course_id == cid) = none) :
    ingest_offering client db cid τ =
      { db := db, commits := [], raised := none, trace := []
        result := some
          { run_id := 0, new_count := 0, updated_count := 0, unchanged_count := 0
            drift_detected := []
            error := some ("Offering " ++ toString cid
              ++ " not found locally. Run cl ingest catalog first to populate offerings.") } } := by
  unfold ingest_offering
  rw [h]

/-- Witness for C6 at a concrete input: course id 999 is unknown to the empty
database. -/
theorem C6_witness :
    ingest_offering fixtureClient emptyDB 999 tickClock =
      { db := emptyDB, commits := [], raised := none, trace := []
        result := some
          { run_id := 0, new_count := 0, updated_count := 0, unchanged_count := 0
            drift_detected := []
            error := some ("Offering " ++ toString (999 : Int)
              ++ " not found locally. Run cl ingest catalog first to populate offerings.") } } :=
  C6_deep_ingest_precondition fixtureClient emptyDB 999 tickClock rfl

/-- C2 counterexample: this successful catalog ingestion performs two separate
commits; the first contains the freshly inserted IngestRun row (status running)
and none of the entity rows the run creates, so the IngestRun row alone is
committed before the run completes, refuting committed-together-or-not-at-all. -/
theorem C2_counterexample :
    ((ingest_catalog fixtureClient emptyDB tickClock).result.map IngestResult.error
        = some none)
    ∧ ((ingest_catalog fixtureClient emptyDB tickClock).commits.map
        (fun d => (d.ingest_runs.map IngestRun.status, d.terms.length,
          d.offerings.length, d.user_enrollments.length))
        = [([IngestStatus.running], 0, 0, 0), ([IngestStatus.completed], 1, 1, 1)]) := by
  constructor
  · rfl
  · rfl

/-- Every call of `ingest_catalog` is `catalogFinish` of the first-commit
snapshot and some loop outcome: the dispatch on the course listing and the
course loop both funnel into the same terminal branches. -/
theorem ingest_catalog_cases (client : CanvasClient) (db : DB) (τ : Nat → Int) :
    ∃ p : CatState × Option CanvasErr,
      ingest_catalog client db τ =
        catalogFinish
          (withRunRow db { id := db.next_id, started_at := τ 0, scope := .catalog })
          db.next_id τ p := by
  unfold ingest_catalog
  cases client.list_my_courses with
  | error e => exact ⟨_, rfl⟩
  | ok courses => exact ⟨_, rfl⟩

/-- C2 as amended: the IngestRun row (status running) is inserted and committed
on its own at run start; on success everything else — all entity changes, all
change-log rows and the run finalization — is committed together by the single
second commit, which is exactly the final database state. -/
theorem C2_amended (client : CanvasClient) (db : DB) (τ : Nat → Int)
    (r : IngestResult) (hres : (ingest_catalog client db τ).result = some r)
    (hok : r.error = none) :
    ∃ run : IngestRun, run.status = .running ∧
      (ingest_catalog client db τ).commits =
        [{ db with ingest_runs := db.ingest_runs ++ [run]
                   next_id := db.next_id + 1 },
         (ingest_catalog client db τ).db] := by
  refine ⟨{ id := db.next_id, started_at := τ 0, scope := .catalog }, rfl, ?_⟩
  obtain ⟨⟨s, err⟩, hP⟩ := ingest_catalog_cases client db τ
  rw [hP] at hres ⊢
  cases err with
  | none => rw [catalogFinish_ok]; rfl
  | some e =>
      cases he : e.isClientError with
      | true =>
          rw [catalogFinish_client _ _ _ _ _ he] at hres
          simp only [Option.some_inj] at hres
          rw [← hres] at hok
          simp at hok
      | false =>
          rw [catalogFinish_unexpected _ _ _ _ _ he] at hres
          simp at hres

/-- Witness for C2_amended at a concrete input. -/
theorem C2_amended_witness :
    ∃ run : IngestRun, run.status = .running ∧
      (ingest_catalog fixtureClient emptyDB tickClock).commits =
        [{ emptyDB with ingest_runs := emptyDB.ingest_runs ++ [run]
                        next_id := emptyDB.next_id + 1 },
         (ingest_catalog fixtureClient emptyDB tickClock).db] :=
  C2_amended fixtureClient emptyDB tickClock
    { run_id := 1, new_count := 3, updated_count := 0, unchanged_count := 0
      drift_detected := [] } rfl rfl

/-- When the local offering exists, `ingest_offering` ends in `offeringFail` or
in `offeringComplete`, both over the first-commit snapshot. -/
theorem ingest_offering_cases (client : CanvasClient) (db : DB) (cid : Int)
    (τ : Nat → Int) (off : Offering)
    (hfind : db.offerings.find? (fun o => o.canvas_course_id == cid) = some off) :
    (∃ s e, ingest_offering client db cid τ =
        offeringFail (withRunRow db (offRun db cid τ)) db.next_id τ s e)
    ∨ (∃ s, ingest_offering client db cid τ =
        offeringComplete (withRunRow db (offRun db cid τ)) db.next_id τ s) := by
  unfold ingest_offering
  rw [hfind]
  cases client.list_sections cid with
  | error e => exact Or.inl ⟨_, _, rfl⟩
  | ok sections =>
      cases client.list_enrollments cid with
      | error e => exact Or.inl ⟨_, _, rfl⟩
      | ok enrollments => exact Or.inr ⟨_, rfl⟩

/-- Mutating the run row in a table that ends with that row and whose other
rows have different ids rewrites exactly the last row. -/
theorem updateRun_append_fresh (l : List IngestRun) (run : IngestRun) (rid : Nat)
    (f : IngestRun → IngestRun) (hfresh : ∀ rr ∈ l, rr.id ≠ rid)
    (hid : run.id = rid) :
    (l ++ [run]).map (fun r => if r.id == rid then f r else r) = l ++ [f run] := by
  rw [List.map_append]
  congr 1
  · conv_rhs => rw [← List.map_id l]
    apply List.map_congr_left
    intro a ha
    simp [hfresh a ha]
  · simp [hid]

/-- C3: if a stored Offering exists and a catalog re-ingest observes the same
external course id with name, code and workflow state all changed (and nothing
else about the course changed), the owning IngestRun row is finalized with
drift counter equal to 3. -/
theorem C3_multi_field_drift (client : CanvasClient) (db : DB) (τ : Nat → Int)
    (cd : CourseData) (ex : Offering)
    (hc : client.list_my_courses = .ok [cd])
    (hterm : cd.term_id = none) (henr : cd.enrollments = [])
    (hfind : db.offerings.find?
      (fun o => o.canvas_course_id == cd.canvas_course_id) = some ex)
    (hname : ex.name ≠ cd.name) (hcode : ex.code ≠ cd.code)
    (hstate : ex.workflow_state ≠ cd.workflow_state) (htid : ex.term_id = none)
    (hfresh : ∀ rr ∈ db.ingest_runs, rr.id ≠ db.next_id) :
    ∃ run : IngestRun,
      (ingest_catalog client db τ).db.ingest_runs = db.ingest_runs ++ [run] ∧
      run.drift_count = 3 ∧ run.status = .completed := by
  unfold ingest_catalog
  rw [hc]
  dsimp only [foldCourses, processCourse, termStep, offeringStep, userEnrStep,
    withRunRow, catStart]
  rw [hterm]
  dsimp only
  unfold _upsert_offering
  rw [hfind]
  dsimp only
  rw [if_pos hname, if_pos hcode, if_pos hstate, htid]
  rw [if_neg (show ¬((none : Option Nat) ≠ none) from fun h => h rfl)]
  rw [henr]
  dsimp only [List.foldl]
  rw [catalogFinish_ok]
  refine ⟨markCompleted
    { id := db.next_id, started_at := τ 0, scope := IngestScope.catalog } 0 1 0 3
    (τ 2), ?_, rfl, rfl⟩
  dsimp only [updateRun]
  rw [updateRun_append_fresh _ _ _ _ hfresh rfl]
  simp

/-- Witness for C3 at a concrete input: the seeded offering re-ingested with
name, code and workflow state changed. -/
theorem C3_witness :
    ∃ run : IngestRun,
      (ingest_catalog driftClient seededDB tickClock).db.ingest_runs =
        seededDB.ingest_runs ++ [run] ∧
      run.drift_count = 3 ∧ run.status = .completed :=
  C3_multi_field_drift driftClient seededDB tickClock driftCourse seededOffering
    rfl rfl rfl rfl (by decide) (by decide) (by decide) rfl
    (by intro rr h; exact absurd h (List.not_mem_nil rr))

/-- C10: whenever ingest_catalog or ingest_offering returns a result carrying
an error message, that result has new_count = updated_count = unchanged_count
= 0 and an empty drift_detected list, regardless of how many entities were
reconciled before the failure. -/
theorem C10_failure_result_zeroes :
    (∀ (client : CanvasClient) (db : DB) (τ : Nat → Int) (r : IngestResult),
      (ingest_catalog client db τ).result = some r → r.error.isSome →
        r.new_count = 0 ∧ r.updated_count = 0 ∧ r.unchanged_count = 0 ∧
          r.drift_detected = [])
    ∧ (∀ (client : CanvasClient) (db : DB) (cid : Int) (τ : Nat → Int)
        (r : IngestResult),
      (ingest_offering client db cid τ).result = some r → r.error.isSome →
        r.new_count = 0 ∧ r.updated_count = 0 ∧ r.unchanged_count = 0 ∧
          r.drift_detected = []) := by
  constructor
  · intro client db τ r hres herr
    obtain ⟨⟨s, err⟩, hP⟩ := ingest_catalog_cases client db τ
    rw [hP] at hres
    cases err with
    | none =>
        rw [catalogFinish_ok] at hres
        simp only [Option.some_inj] at hres
        rw [← hres] at herr
        simp at herr
    | some e =>
        cases he : e.isClientError with
        | true =>
            rw [catalogFinish_client _ _ _ _ _ he] at hres
            simp only [Option.some_inj] at hres
            rw [← hres]
            exact ⟨rfl, rfl, rfl, rfl⟩
        | false =>
            rw [catalogFinish_unexpected _ _ _ _ _ he] at hres
            simp at hres
  · intro client db cid τ r hres herr
    cases hfind : db.offerings.find? (fun o => o.canvas_course_id == cid) with
    | none =>
        unfold ingest_offering at hres
        rw [hfind] at hres
        simp only [Option.some_inj] at hres
        rw [← hres]
        exact ⟨rfl, rfl, rfl, rfl⟩
    | some off =>
        rcases ingest_offering_cases client db cid τ off hfind with
          ⟨s, e, hP⟩ | ⟨s, hP⟩
        · rw [hP] at hres
          cases he : e.isClientError with
          | true =>
              rw [offeringFail_client _ _ _ _ _ he] at hres
              simp only [Option.some_inj] at hres
              rw [← hres]
              exact ⟨rfl, rfl, rfl, rfl⟩
          | false =>
              rw [offeringFail_unexpected _ _ _ _ _ he] at hres
              simp at hres
        · rw [hP] at hres
          simp only [offeringComplete, Option.some_inj] at hres
          rw [← hres] at herr
          simp at herr

/-- Witness for C10 at a concrete input: an authentication failure on the
course listing yields a zeroed result carrying the message. -/
theorem C10_witness :
    (ingest_catalog authFailClient emptyDB tickClock).result =
      some { run_id := 1, new_count := 0, updated_count := 0, unchanged_count := 0
             drift_detected := []
             error := some "Canvas API token is invalid or expired." } ∧
    ({ run_id := 1, new_count := 0, updated_count := 0, unchanged_count := 0
       drift_detected := []
       error := some "Canvas API token is invalid or expired." } : IngestResult).new_count = 0 ∧
    ({ run_id := 1, new_count := 0, updated_count := 0, unchanged_count := 0
       drift_detected := []
       error := some "Canvas API token is invalid or expired." } : IngestResult).drift_detected = [] := by
  refine ⟨rfl, ?_, ?_⟩
  · exact (C10_failure_result_zeroes.1 authFailClient emptyDB tickClock _ rfl rfl).1
  · exact (C10_failure_result_zeroes.1 authFailClient emptyDB tickClock _ rfl rfl).2.2.2


/-- C5: for every entity kind, when no stored record exists for the observed
external identifier, the upsert creates a record carrying all observed fields
with status new and observed_at = last_seen_at = now, and emits zero change-log
entries (the whole change_log table, like every other table, is untouched). -/
theorem C5_new_entity_no_diff :
    (∀ (db : DB) (td : TermData) (rid : Nat) (now : Int),
      db.terms.find? (fun t => t.canvas_term_id == td.canvas_term_id) = none →
      _upsert_term db td rid now =
        (let t : Term :=
           { id := db.next_id
             canvas_term_id := td.canvas_term_id
             name := td.name
             start_date := td.start_date
             end_date := td.end_date
             observed_at := now
             last_seen_at := now }
         { db := { db with terms := db.terms ++ [t], next_id := db.next_id + 1 }
           record := t, status := .new, change_count := 0 }))
    ∧ (∀ (db : DB) (cd : CourseData) (tid : Option Nat) (rid : Nat) (now : Int),
      db.offerings.find? (fun o => o.canvas_course_id == cd.canvas_course_id) = none →
      _upsert_offering db cd tid rid now =
        (let o : Offering :=
           { id := db.next_id
             canvas_course_id := cd.canvas_course_id
             name := cd.name
             code := cd.code
             term_id := tid
             workflow_state := cd.workflow_state
             observed_at := now
             last_seen_at := now }
         { db := { db with offerings := db.offerings ++ [o], next_id := db.next_id + 1 }
           record := o, status := .new, change_count := 0 }))
    ∧ (∀ (db : DB) (eid : Int) (oid : Nat) (role st : String) (rid : Nat) (now : Int),
      db.user_enrollments.find? (fun e => e.canvas_enrollment_id == eid) = none →
      _upsert_user_enrollment db eid oid role st rid now =
        (let u : UserEnrollment :=
           { id := db.next_id
             canvas_enrollment_id := eid
             offering_id := oid
             role := role
             enrollment_state := st
             observed_at := now
             last_seen_at := now }
         { db := { db with user_enrollments := db.user_enrollments ++ [u], next_id := db.next_id + 1 }
           record := u, status := .new, change_count := 0 }))
    ∧ (∀ (db : DB) (sd : SectionData) (oid : Nat) (rid : Nat) (now : Int),
      db.sections.find? (fun s => s.canvas_section_id == sd.canvas_section_id) = none →
      _upsert_section db sd oid rid now =
        (let s : Section :=
           { id := db.next_id
             canvas_section_id := sd.canvas_section_id
             offering_id := oid
             name := sd.name
             sis_section_id := sd.sis_section_id
             observed_at := now
             last_seen_at := now }
         { db := { db with sections := db.sections ++ [s], next_id := db.next_id + 1 }
           record := s, status := .new, change_count := 0 }))
    ∧ (∀ (db : DB) (uid : Int) (nm : String) (sn si li : Option String) (rid : Nat) (now : Int),
      db.persons.find? (fun p => p.canvas_user_id == uid) = none →
      _upsert_person db uid nm sn si li rid now =
        (let p : Person :=
           { id := db.next_id
             canvas_user_id := uid
             name := nm
             sortable_name := sn
             sis_user_id := si
             login_id := li
             observed_at := now
             last_seen_at := now }
         { db := { db with persons := db.persons ++ [p], next_id := db.next_id + 1 }
           record := p, status := .new, change_count := 0 }))
    ∧ (∀ (db : DB) (ed : CourseEnrollmentData) (oid : Nat) (sid : Option Nat) (pid : Nat) (rid : Nat) (now : Int),
      db.enrollments.find? (fun e => e.canvas_enrollment_id == ed.canvas_enrollment_id) = none →
      _upsert_enrollment db ed oid sid pid rid now =
        (let e : Enrollment :=
           { id := db.next_id
             canvas_enrollment_id := ed.canvas_enrollment_id
             offering_id := oid
             section_id := sid
             person_id := pid
             role := ed.role
             enrollment_state := ed.enrollment_state
             current_grade := ed.current_grade
             current_score := ed.current_score
             final_grade := ed.final_grade
             final_score := ed.final_score
             observed_at := now
             last_seen_at := now }
         { db := { db with enrollments := db.enrollments ++ [e], next_id := db.next_id + 1 }
           record := e, status := .new, change_count := 0 })) := by
  refine ⟨?_, ?_, ?_, ?_, ?_, ?_⟩
  · intro db td rid now hfind
    unfold _upsert_term
    rw [hfind]
  · intro db cd tid rid now hfind
    unfold _upsert_offering
    rw [hfind]
  · intro db eid oid role st rid now hfind
    unfold _upsert_user_enrollment
    rw [hfind]
  · intro db sd oid rid now hfind
    unfold _upsert_section
    rw [hfind]
  · intro db uid nm sn si li rid now hfind
    unfold _upsert_person
    rw [hfind]
  · intro db ed oid sid pid rid now hfind
    unfold _upsert_enrollment
    rw [hfind]

/-- Witness for C5 at a concrete input: a term never seen before. -/
theorem C5_witness :
    _upsert_term emptyDB fixtureTermData 1 5 =
      (let t : Term :=
         { id := emptyDB.next_id
           canvas_term_id := fixtureTermData.canvas_term_id
           name := fixtureTermData.name
           start_date := fixtureTermData.start_date
           end_date := fixtureTermData.end_date
           observed_at := 5
           last_seen_at := 5 }
       { db := { emptyDB with terms := emptyDB.terms ++ [t], next_id := emptyDB.next_id + 1 }
         record := t, status := .new, change_count := 0 }) :=
  C5_new_entity_no_diff.1 emptyDB fixtureTermData 1 5 rfl


/-- Frame: the term upsert leaves the offerings table unchanged. -/
theorem frame_term_offerings (db : DB) (td : TermData) (rid : Nat) (now : Int) :
    (_upsert_term db td rid now).db.offerings = db.offerings := by
  unfold _upsert_term
  cases h : db.terms.find? (fun t => t.canvas_term_id == td.canvas_term_id) <;> rfl

/-- Frame: the term upsert leaves the user_enrollments table unchanged. -/
theorem frame_term_user_enrollments (db : DB) (td : TermData) (rid : Nat) (now : Int) :
    (_upsert_term db td rid now).db.user_enrollments = db.user_enrollments := by
  unfold _upsert_term
  cases h : db.terms.find? (fun t => t.canvas_term_id == td.canvas_term_id) <;> rfl

/-- Frame: the term upsert leaves the sections table unchanged. -/
theorem frame_term_sections (db : DB) (td : TermData) (rid : Nat) (now : Int) :
    (_upsert_term db td rid now).db.sections = db.sections := by
  unfold _upsert_term
  cases h : db.terms.find? (fun t => t.canvas_term_id == td.canvas_term_id) <;> rfl

/-- Frame: the term upsert leaves the persons table unchanged. -/
theorem frame_term_persons (db : DB) (td : TermData) (rid : Nat) (now : Int) :
    (_upsert_term db td rid now).db.persons = db.persons := by
  unfold _upsert_term
  cases h : db.terms.find? (fun t => t.canvas_term_id == td.canvas_term_id) <;> rfl

/-- Frame: the term upsert leaves the enrollments table unchanged. -/
theorem frame_term_enrollments (db : DB) (td : TermData) (rid : Nat) (now : Int) :
    (_upsert_term db td rid now).db.enrollments = db.enrollments := by
  unfold _upsert_term
  cases h : db.terms.find? (fun t => t.canvas_term_id == td.canvas_term_id) <;> rfl

/-- Frame: the term upsert leaves the ingest_runs table unchanged. -/
theorem frame_term_ingest_runs (db : DB) (td : TermData) (rid : Nat) (now : Int) :
    (_upsert_term db td rid now).db.ingest_runs = db.ingest_runs := by
  unfold _upsert_term
  cases h : db.terms.find? (fun t => t.canvas_term_id == td.canvas_term_id) <;> rfl

/-- Frame: the offering upsert leaves the terms table unchanged. -/
theorem frame_offering_terms (db : DB) (cd : CourseData) (tid : Option Nat) (rid : Nat) (now : Int) :
    (_upsert_offering db cd tid rid now).db.terms = db.terms := by
  unfold _upsert_offering
  cases h : db.offerings.find? (fun o => o.canvas_course_id == cd.canvas_course_id) <;> rfl

/-- Frame: the offering upsert leaves the user_enrollments table unchanged. -/
theorem frame_offering_user_enrollments (db : DB) (cd : CourseData) (tid : Option Nat) (rid : Nat) (now : Int) :
    (_upsert_offering db cd tid rid now).db.user_enrollments = db.user_enrollments := by
  unfold _upsert_offering
  cases h : db.offerings.find? (fun o => o.canvas_course_id == cd.canvas_course_id) <;> rfl

/-- Frame: the offering upsert leaves the sections table unchanged. -/
theorem frame_offering_sections (db : DB) (cd : CourseData) (tid : Option Nat) (rid : Nat) (now : Int) :
    (_upsert_offering db cd tid rid now).db.sections = db.sections := by
  unfold _upsert_offering
  cases h : db.offerings.find? (fun o => o.canvas_course_id == cd.canvas_course_id) <;> rfl

/-- Frame: the offering upsert leaves the persons table unchanged. -/
theorem frame_offering_persons (db : DB) (cd : CourseData) (tid : Option Nat) (rid : Nat) (now : Int) :
    (_upsert_offering db cd tid rid now).db.persons = db.persons := by
  unfold _upsert_offering
  cases h : db.offerings.find? (fun o => o.canvas_course_id == cd.canvas_course_id) <;> rfl

/-- Frame: the offering upsert leaves the enrollments table unchanged. -/
theorem frame_offering_enrollments (db : DB) (cd : CourseData) (tid : Option Nat) (rid : Nat) (now : Int) :
    (_upsert_offering db cd tid rid now).db.enrollments = db.enrollments := by
  unfold _upsert_offering
  cases h : db.offerings.find? (fun o => o.canvas_course_id == cd.canvas_course_id) <;> rfl

/-- Frame: the offering upsert leaves the ingest_runs table unchanged. -/
theorem frame_offering_ingest_runs (db : DB) (cd : CourseData) (tid : Option Nat) (rid : Nat) (now : Int) :
    (_upsert_offering db cd tid rid now).db.ingest_runs = db.ingest_runs := by
  unfold _upsert_offering
  cases h : db.offerings.find? (fun o => o.canvas_course_id == cd.canvas_course_id) <;> rfl

/-- Frame: the userEnr upsert leaves the terms table unchanged. -/
theorem frame_userEnr_terms (db : DB) (eid : Int) (oid : Nat) (role st : String) (rid : Nat) (now : Int) :
    (_upsert_user_enrollment db eid oid role st rid now).db.terms = db.terms := by
  unfold _upsert_user_enrollment
  cases h : db.user_enrollments.find? (fun e => e.canvas_enrollment_id == eid) <;> rfl

/-- Frame: the userEnr upsert leaves the offerings table unchanged. -/
theorem frame_userEnr_offerings (db : DB) (eid : Int) (oid : Nat) (role st : String) (rid : Nat) (now : Int) :
    (_upsert_user_enrollment db eid oid role st rid now).db.offerings = db.offerings := by
  unfold _upsert_user_enrollment
  cases h : db.user_enrollments.find? (fun e => e.canvas_enrollment_id == eid) <;> rfl

/-- Frame: the userEnr upsert leaves the sections table unchanged. -/
theorem frame_userEnr_sections (db : DB) (eid : Int) (oid : Nat) (role st : String) (rid : Nat) (now : Int) :
    (_upsert_user_enrollment db eid oid role st rid now).db.sections = db.sections := by
  unfold _upsert_user_enrollment
  cases h : db.user_enrollments.find? (fun e => e.canvas_enrollment_id == eid) <;> rfl

/-- Frame: the userEnr upsert leaves the persons table unchanged. -/
theorem frame_userEnr_persons (db : DB) (eid : Int) (oid : Nat) (role st : String) (rid : Nat) (now : Int) :
    (_upsert_user_enrollment db eid oid role st rid now).db.persons = db.persons := by
  unfold _upsert_user_enrollment
  cases h : db.user_enrollments.find? (fun e => e.canvas_enrollment_id == eid) <;> rfl

/-- Frame: the userEnr upsert leaves the enrollments table unchanged. -/
theorem frame_userEnr_enrollments (db : DB) (eid : Int) (oid : Nat) (role st : String) (rid : Nat) (now : Int) :
    (_upsert_user_enrollment db eid oid role st rid now).db.enrollments = db.enrollments := by
  unfold _upsert_user_enrollment
  cases h : db.user_enrollments.find? (fun e => e.canvas_enrollment_id == eid) <;> rfl

/-- Frame: the userEnr upsert leaves the ingest_runs table unchanged. -/
theorem frame_userEnr_ingest_runs (db : DB) (eid : Int) (oid : Nat) (role st : String) (rid : Nat) (now : Int) :
    (_upsert_user_enrollment db eid oid role st rid now).db.ingest_runs = db.ingest_runs := by
  unfold _upsert_user_enrollment
  cases h : db.user_enrollments.find? (fun e => e.canvas_enrollment_id == eid) <;> rfl

/-- Frame: the section upsert leaves the terms table unchanged. -/
theorem frame_section_terms (db : DB) (sd : SectionData) (oid : Nat) (rid : Nat) (now : Int) :
    (_upsert_section db sd oid rid now).db.terms = db.terms := by
  unfold _upsert_section
  cases h : db.sections.find? (fun s => s.canvas_section_id == sd.canvas_section_id) <;> rfl

/-- Frame: the section upsert leaves the offerings table unchanged. -/
theorem frame_section_offerings (db : DB) (sd : SectionData) (oid : Nat) (rid : Nat) (now : Int) :
    (_upsert_section db sd oid rid now).db.offerings = db.offerings := by
  unfold _upsert_section
  cases h : db.sections.find? (fun s => s.canvas_section_id == sd.canvas_section_id) <;> rfl

/-- Frame: the section upsert leaves the user_enrollments table unchanged. -/
theorem frame_section_user_enrollments (db : DB) (sd : SectionData) (oid : Nat) (rid : Nat) (now : Int) :
    (_upsert_section db sd oid rid now).db.user_enrollments = db.user_enrollments := by
  unfold _upsert_section
  cases h : db.sections.find? (fun s => s.canvas_section_id == sd.canvas_section_id) <;> rfl

/-- Frame: the section upsert leaves the persons table unchanged. -/
theorem frame_section_persons (db : DB) (sd : SectionData) (oid : Nat) (rid : Nat) (now : Int) :
    (_upsert_section db sd oid rid now).db.persons = db.persons := by
  unfold _upsert_section
  cases h : db.sections.find? (fun s => s.canvas_section_id == sd.canvas_section_id) <;> rfl

/-- Frame: the section upsert leaves the enrollments table unchanged. -/
theorem frame_section_enrollments (db : DB) (sd : SectionData) (oid : Nat) (rid : Nat) (now : Int) :
    (_upsert_section db sd oid rid now).db.enrollments = db.enrollments := by
  unfold _upsert_section
  cases h : db.sections.find? (fun s => s.canvas_section_id == sd.canvas_section_id) <;> rfl

/-- Frame: the section upsert leaves the ingest_runs table unchanged. -/
theorem frame_section_ingest_runs (db : DB) (sd : SectionData) (oid : Nat) (rid : Nat) (now : Int) :
    (_upsert_section db sd oid rid now).db.ingest_runs = db.ingest_runs := by
  unfold _upsert_section
  cases h : db.sections.find? (fun s => s.canvas_section_id == sd.canvas_section_id) <;> rfl

/-- Frame: the person upsert leaves the terms table unchanged. -/
theorem frame_person_terms (db : DB) (uid : Int) (nm : String) (sn si li : Option String) (rid : Nat) (now : Int) :
    (_upsert_person db uid nm sn si li rid now).db.terms = db.terms := by
  unfold _upsert_person
  cases h : db.persons.find? (fun p => p.canvas_user_id == uid) <;> rfl

/-- Frame: the person upsert leaves the offerings table unchanged. -/
theorem frame_person_offerings (db : DB) (uid : Int) (nm : String) (sn si li : Option String) (rid : Nat) (now : Int) :
    (_upsert_person db uid nm sn si li rid now).db.offerings = db.offerings := by
  unfold _upsert_person
  cases h : db.persons.find? (fun p => p.canvas_user_id == uid) <;> rfl

/-- Frame: the person upsert leaves the user_enrollments table unchanged. -/
theorem frame_person_user_enrollments (db : DB) (uid : Int) (nm : String) (sn si li : Option String) (rid : Nat) (now : Int) :
    (_upsert_person db uid nm sn si li rid now).db.user_enrollments = db.user_enrollments := by
  unfold _upsert_person
  cases h : db.persons.find? (fun p => p.canvas_user_id == uid) <;> rfl

/-- Frame: the person upsert leaves the sections table unchanged. -/
theorem frame_person_sections (db : DB) (uid : Int) (nm : String) (sn si li : Option String) (rid : Nat) (now : Int) :
    (_upsert_person db uid nm sn si li rid now).db.sections = db.sections := by
  unfold _upsert_person
  cases h : db.persons.find? (fun p => p.canvas_user_id == uid) <;> rfl

/-- Frame: the person upsert leaves the enrollments table unchanged. -/
theorem frame_person_enrollments (db : DB) (uid : Int) (nm : String) (sn si li : Option String) (rid : Nat) (now : Int) :
    (_upsert_person db uid nm sn si li rid now).db.enrollments = db.enrollments := by
  unfold _upsert_person
  cases h : db.persons.find? (fun p => p.canvas_user_id == uid) <;> rfl

/-- Frame: the person upsert leaves the ingest_runs table unchanged. -/
theorem frame_person_ingest_runs (db : DB) (uid : Int) (nm : String) (sn si li : Option String) (rid : Nat) (now : Int) :
    (_upsert_person db uid nm sn si li rid now).db.ingest_runs = db.ingest_runs := by
  unfold _upsert_person
  cases h : db.persons.find? (fun p => p.canvas_user_id == uid) <;> rfl

/-- Frame: the enr upsert leaves the terms table unchanged. -/
theorem frame_enr_terms (db : DB) (ed : CourseEnrollmentData) (oid : Nat) (sid : Option Nat) (pid : Nat) (rid : Nat) (now : Int) :
    (_upsert_enrollment db ed oid sid pid rid now).db.terms = db.terms := by
  unfold _upsert_enrollment
  cases h : db.enrollments.find? (fun e => e.canvas_enrollment_id == ed.canvas_enrollment_id) <;> rfl

/-- Frame: the enr upsert leaves the offerings table unchanged. -/
theorem frame_enr_offerings (db : DB) (ed : CourseEnrollmentData) (oid : Nat) (sid : Option Nat) (pid : Nat) (rid : Nat) (now : Int) :
    (_upsert_enrollment db ed oid sid pid rid now).db.offerings = db.offerings := by
  unfold _upsert_enrollment
  cases h : db.enrollments.find? (fun e => e.canvas_enrollment_id == ed.canvas_enrollment_id) <;> rfl

/-- Frame: the enr upsert leaves the user_enrollments table unchanged. -/
theorem frame_enr_user_enrollments (db : DB) (ed : CourseEnrollmentData) (oid : Nat) (sid : Option Nat) (pid : Nat) (rid : Nat) (now : Int) :
    (_upsert_enrollment db ed oid sid pid rid now).db.user_enrollments = db.user_enrollments := by
  unfold _upsert_enrollment
  cases h : db.enrollments.find? (fun e => e.canvas_enrollment_id == ed.canvas_enrollment_id) <;> rfl

/-- Frame: the enr upsert leaves the sections table unchanged. -/
theorem frame_enr_sections (db : DB) (ed : CourseEnrollmentData) (oid : Nat) (sid : Option Nat) (pid : Nat) (rid : Nat) (now : Int) :
    (_upsert_enrollment db ed oid sid pid rid now).db.sections = db.sections := by
  unfold _upsert_enrollment
  cases h : db.enrollments.find? (fun e => e.canvas_enrollment_id == ed.canvas_enrollment_id) <;> rfl

/-- Frame: the enr upsert leaves the persons table unchanged. -/
theorem frame_enr_persons (db : DB) (ed : CourseEnrollmentData) (oid : Nat) (sid : Option Nat) (pid : Nat) (rid : Nat) (now : Int) :
    (_upsert_enrollment db ed oid sid pid rid now).db.persons = db.persons := by
  unfold _upsert_enrollment
  cases h : db.enrollments.find? (fun e => e.canvas_enrollment_id == ed.canvas_enrollment_id) <;> rfl

/-- Frame: the enr upsert leaves the ingest_runs table unchanged. -/
theorem frame_enr_ingest_runs (db : DB) (ed : CourseEnrollmentData) (oid : Nat) (sid : Option Nat) (pid : Nat) (rid : Nat) (now : Int) :
    (_upsert_enrollment db ed oid sid pid rid now).db.ingest_runs = db.ingest_runs := by
  unfold _upsert_enrollment
  cases h : db.enrollments.find? (fun e => e.canvas_enrollment_id == ed.canvas_enrollment_id) <;> rfl


/-- A raise inside the term step leaves the loop state exactly as it was and
can only originate in the get_term_from_course call. -/
theorem termStep_inr (client : CanvasClient) (τ : Nat → Int) (rid : Nat)
    (s : CatState) (c : CourseData) (s1 : CatState) (e : CanvasErr)
    (h : termStep client τ rid s c = Sum.inr (s1, e)) :
    s1 = s ∧ client.get_term_from_course c.canvas_course_id = .error e := by
  unfold termStep at h
  repeat' split at h
  all_goals simp_all

/-- The term step never touches the ingest_run table. -/
theorem termStep_inl_runs (client : CanvasClient) (τ : Nat → Int) (rid : Nat)
    (s : CatState) (c : CourseData) (s1 : CatState) (tid : Option Nat)
    (h : termStep client τ rid s c = Sum.inl (s1, tid)) :
    s1.db.ingest_runs = s.db.ingest_runs := by
  unfold termStep at h
  repeat' split at h
  all_goals simp_all [frame_term_ingest_runs]
  all_goals (rw [← h.1]; simp [frame_term_ingest_runs])

/-- The offering step never touches the ingest_run table. -/
theorem offeringStep_runs (τ : Nat → Int) (rid : Nat) (s1 : CatState)
    (c : CourseData) (tid : Option Nat) :
    (offeringStep τ rid s1 c tid).1.db.ingest_runs = s1.db.ingest_runs := by
  simp [offeringStep, frame_offering_ingest_runs]

/-- The user-enrollment inner loop never touches the ingest_run table. -/
theorem foldl_userEnrStep_runs (τ : Nat → Int) (rid oid : Nat)
    (l : List EnrollmentData) (acc : CatState) :
    (l.foldl (userEnrStep τ rid oid) acc).db.ingest_runs = acc.db.ingest_runs := by
  induction l generalizing acc with
  | nil => rfl
  | cons ed rest ih =>
      rw [List.foldl_cons, ih]
      simp [userEnrStep, frame_userEnr_ingest_runs]

/-- A completed course iteration never touches the ingest_run table. -/
theorem processCourse_inl_runs (client : CanvasClient) (τ : Nat → Int)
    (rid : Nat) (s : CatState) (c : CourseData) (s1 : CatState)
    (h : processCourse client τ rid s c = Sum.inl s1) :
    s1.db.ingest_runs = s.db.ingest_runs := by
  unfold processCourse at h
  cases ht : termStep client τ rid s c with
  | inr r => rw [ht] at h; simp at h
  | inl p =>
      obtain ⟨sA, tid⟩ := p
      rw [ht] at h
      simp only [Sum.inl.injEq] at h
      rw [← h, foldl_userEnrStep_runs, offeringStep_runs]
      exact termStep_inl_runs client τ rid s c sA tid ht

/-- A raised course iteration leaves the loop state as it was, and the raise
can only originate in the get_term_from_course call. -/
theorem processCourse_inr (client : CanvasClient) (τ : Nat → Int) (rid : Nat)
    (s : CatState) (c : CourseData) (s1 : CatState) (e : CanvasErr)
    (h : processCourse client τ rid s c = Sum.inr (s1, e)) :
    s1 = s ∧ client.get_term_from_course c.canvas_course_id = .error e := by
  unfold processCourse at h
  cases ht : termStep client τ rid s c with
  | inr r =>
      rw [ht] at h
      simp only [Sum.inr.injEq] at h
      obtain ⟨s', e'⟩ := r
      have := termStep_inr client τ rid s c s' e' ht
      cases h
      exact this
  | inl p =>
      obtain ⟨sA, tid⟩ := p
      rw [ht] at h
      simp at h

/-- The course loop never touches the ingest_run table. -/
theorem foldCourses_runs (client : CanvasClient) (τ : Nat → Int) (rid : Nat)
    (cs : List CourseData) (s : CatState) :
    (foldCourses client τ rid cs s).1.db.ingest_runs = s.db.ingest_runs := by
  induction cs generalizing s with
  | nil => rfl
  | cons c rest ih =>
      unfold foldCourses
      cases hp : processCourse client τ rid s c with
      | inl s1 => rw [ih]; exact processCourse_inl_runs client τ rid s c s1 hp
      | inr r =>
          obtain ⟨s1, e⟩ := r
          exact (processCourse_inr client τ rid s c s1 e hp).1 ▸ rfl

/-- A raise escaping the course loop originates in a get_term_from_course
call. -/
theorem foldCourses_err (client : CanvasClient) (τ : Nat → Int) (rid : Nat)
    (cs : List CourseData) (s : CatState) (s1 : CatState) (e : CanvasErr)
    (h : foldCourses client τ rid cs s = (s1, some e)) :
    ∃ cid, client.get_term_from_course cid = .error e := by
  induction cs generalizing s with
  | nil => unfold foldCourses at h; simp at h
  | cons c rest ih =>
      unfold foldCourses at h
      cases hp : processCourse client τ rid s c with
      | inl s' => rw [hp] at h; exact ih _ h
      | inr r =>
          obtain ⟨s', e'⟩ := r
          rw [hp] at h
          simp only [Prod.mk.injEq, Option.some_inj] at h
          exact ⟨c.canvas_course_id,
            h.2 ▸ (processCourse_inr client τ rid s c s' e' hp).2⟩

/-- `ingest_catalog` is the terminal dispatch applied to the loop outcome. -/
theorem ingest_catalog_eq (client : CanvasClient) (db : DB) (τ : Nat → Int) :
    ingest_catalog client db τ =
      catalogFinish (withRunRow db (catRun db τ)) db.next_id τ
        (catalogLoop client db τ) := by
  unfold ingest_catalog catalogLoop catRun
  cases client.list_my_courses <;> rfl

/-- After the loop the ingest_run table still holds exactly the incoming rows
plus the running run row. -/
theorem catalogLoop_runs (client : CanvasClient) (db : DB) (τ : Nat → Int) :
    (catalogLoop client db τ).1.db.ingest_runs =
      db.ingest_runs ++ [catRun db τ] := by
  unfold catalogLoop
  cases client.list_my_courses with
  | error e => rfl
  | ok courses => rw [foldCourses_runs]; rfl

/-- The section step never touches the ingest_run table. -/
theorem processSection_runs (τ : Nat → Int) (oid rid : Nat) (s : OffState)
    (sd : SectionData) :
    (processSection τ oid rid s sd).db.ingest_runs = s.db.ingest_runs := by
  simp [processSection, frame_section_ingest_runs]

/-- The enrollment step never touches the ingest_run table. -/
theorem processEnrollment_runs (τ : Nat → Int) (oid rid : Nat) (s : OffState)
    (ed : CourseEnrollmentData) :
    (processEnrollment τ oid rid s ed).db.ingest_runs = s.db.ingest_runs := by
  simp [processEnrollment, frame_enr_ingest_runs, frame_person_ingest_runs]

/-- The section loop never touches the ingest_run table. -/
theorem foldl_processSection_runs (τ : Nat → Int) (oid rid : Nat)
    (l : List SectionData) (acc : OffState) :
    (l.foldl (processSection τ oid rid) acc).db.ingest_runs =
      acc.db.ingest_runs := by
  induction l generalizing acc with
  | nil => rfl
  | cons sd rest ih => rw [List.foldl_cons, ih, processSection_runs]

/-- The enrollment loop never touches the ingest_run table. -/
theorem foldl_processEnrollment_runs (τ : Nat → Int) (oid rid : Nat)
    (l : List CourseEnrollmentData) (acc : OffState) :
    (l.foldl (processEnrollment τ oid rid) acc).db.ingest_runs =
      acc.db.ingest_runs := by
  induction l generalizing acc with
  | nil => rfl
  | cons ed rest ih => rw [List.foldl_cons, ih, processEnrollment_runs]

/-- When the local offering exists, `ingest_offering` is the terminal dispatch
applied to the loop outcome. -/
theorem ingest_offering_eq (client : CanvasClient) (db : DB) (cid : Int)
    (τ : Nat → Int) (off : Offering)
    (hfind : db.offerings.find? (fun o => o.canvas_course_id == cid) = some off) :
    ingest_offering client db cid τ =
      offeringFinish (withRunRow db (offRun db cid τ)) db.next_id τ
        (offeringLoop client τ (withRunRow db (offRun db cid τ)) off.id
          db.next_id cid) := by
  unfold ingest_offering offeringLoop offeringFinish
  rw [hfind]
  cases client.list_sections cid with
  | error e => rfl
  | ok sections =>
      cases client.list_enrollments cid with
      | error e => rfl
      | ok enrollments => rfl

/-- After the offering loop the ingest_run table still holds exactly the
incoming rows of the first-commit snapshot. -/
theorem offeringLoop_runs (client : CanvasClient) (τ : Nat → Int) (db0 : DB)
    (oid rid : Nat) (cid : Int) :
    (offeringLoop client τ db0 oid rid cid).1.db.ingest_runs =
      db0.ingest_runs := by
  unfold offeringLoop
  cases client.list_sections cid with
  | error e => rfl
  | ok sections =>
      cases client.list_enrollments cid with
      | error e => exact foldl_processSection_runs τ oid rid sections (offStart db0)
      | ok enrollments =>
          rw [foldl_processEnrollment_runs, foldl_processSection_runs]
          rfl

/-- A raise escaping the offering loop originates in the list_sections or the
list_enrollments call. -/
theorem offeringLoop_err (client : CanvasClient) (τ : Nat → Int) (db0 : DB)
    (oid rid : Nat) (cid : Int) (s1 : OffState) (e : CanvasErr)
    (h : offeringLoop client τ db0 oid rid cid = (s1, some e)) :
    client.list_sections cid = .error e ∨
      client.list_enrollments cid = .error e := by
  unfold offeringLoop at h
  cases hs : client.list_sections cid with
  | error e' =>
      rw [hs] at h
      simp only [Prod.mk.injEq, Option.some_inj] at h
      refine Or.inl ?_
      rw [← h.2]
  | ok sections =>
      rw [hs] at h
      cases he : client.list_enrollments cid with
      | error e' =>
          rw [he] at h
          simp only [Prod.mk.injEq, Option.some_inj] at h
          refine Or.inr ?_
          rw [← h.2]
      | ok enrollments =>
          rw [he] at h
          simp at h

/-- Equation for `offeringFinish` when the try block raised nothing. -/
theorem offeringFinish_none (db0 : DB) (rid : Nat) (τ : Nat → Int) (s : OffState) :
    offeringFinish db0 rid τ (s, none) = offeringComplete db0 rid τ s := rfl

/-- Equation for `offeringFinish` on a caught exception. -/
theorem offeringFinish_some (db0 : DB) (rid : Nat) (τ : Nat → Int) (s : OffState)
    (e : CanvasErr) :
    offeringFinish db0 rid τ (s, some e) = offeringFail db0 rid τ s e := rfl

/-- C7: expected failures (authentication, source, not-found, precondition)
are returned as an IngestResult carrying the error message and never raised
past the orchestrator; an unexpected exception is re-raised, and only after
the run has been finalized as failed (with the wrapped message) and that
finalization committed; a raise can only originate in an unexpected error of
one of the client calls. -/
theorem C7_error_propagation :
    (∀ (client : CanvasClient) (db : DB) (τ : Nat → Int),
      (ingest_catalog client db τ).result.isSome →
        (ingest_catalog client db τ).raised = none)
    ∧ (∀ (client : CanvasClient) (db : DB) (τ : Nat → Int) (m : String),
      (ingest_catalog client db τ).raised = some m →
        (ingest_catalog client db τ).result = none ∧
        (ingest_catalog client db τ).db ∈ (ingest_catalog client db τ).commits ∧
        ∃ row ∈ (ingest_catalog client db τ).db.ingest_runs,
          row.status = .failed ∧
          row.error_message = some ("Unexpected error: " ++ m))
    ∧ (∀ (client : CanvasClient) (db : DB) (τ : Nat → Int) (m : String),
      (ingest_catalog client db τ).raised = some m →
        ∃ e : CanvasErr, e.isClientError = false ∧ e.msg = m ∧
          (client.list_my_courses = .error e ∨
            ∃ cid, client.get_term_from_course cid = .error e))
    ∧ (∀ (client : CanvasClient) (db : DB) (cid : Int) (τ : Nat → Int),
      (ingest_offering client db cid τ).result.isSome →
        (ingest_offering client db cid τ).raised = none)
    ∧ (∀ (client : CanvasClient) (db : DB) (cid : Int) (τ : Nat → Int) (m : String),
      (ingest_offering client db cid τ).raised = some m →
        (ingest_offering client db cid τ).result = none ∧
        (ingest_offering client db cid τ).db ∈
          (ingest_offering client db cid τ).commits ∧
        ∃ row ∈ (ingest_offering client db cid τ).db.ingest_runs,
          row.status = .failed ∧
          row.error_message = some ("Unexpected error: " ++ m))
    ∧ (∀ (client : CanvasClient) (db : DB) (cid : Int) (τ : Nat → Int) (m : String),
      (ingest_offering client db cid τ).raised = some m →
        ∃ e : CanvasErr, e.isClientError = false ∧ e.msg = m ∧
          (client.list_sections cid = .error e ∨
            client.list_enrollments cid = .error e)) := by
  refine ⟨?_, ?_, ?_, ?_, ?_, ?_⟩
  · intro client db τ hres
    obtain ⟨⟨s, err⟩, hP⟩ := ingest_catalog_cases client db τ
    rw [hP] at hres ⊢
    cases err with
    | none => rw [catalogFinish_ok]
    | some e =>
        cases he : e.isClientError with
        | true => rw [catalogFinish_client _ _ _ _ _ he]
        | false =>
            rw [catalogFinish_unexpected _ _ _ _ _ he] at hres
            simp at hres
  · intro client db τ m hm
    rw [ingest_catalog_eq] at hm ⊢
    rcases hL : catalogLoop client db τ with ⟨s, err⟩
    rw [hL] at hm
    cases err with
    | none => rw [catalogFinish_ok] at hm; simp at hm
    | some e =>
        cases he : e.isClientError with
        | true => rw [catalogFinish_client _ _ _ _ _ he] at hm; simp at hm
        | false =>
            rw [catalogFinish_unexpected _ _ _ _ _ he] at hm ⊢
            simp only [Option.some_inj] at hm
            subst hm
            have hruns : s.db.ingest_runs = db.ingest_runs ++ [catRun db τ] := by
              have hcl := catalogLoop_runs client db τ
              rw [hL] at hcl
              simpa [withRunRow] using hcl
            refine ⟨rfl, by simp, ?_⟩
            refine ⟨markFailed (catRun db τ) ("Unexpected error: " ++ e.msg)
              (τ s.tick), ?_, rfl, rfl⟩
            dsimp only [updateRun]
            rw [hruns, List.map_append]
            refine List.mem_append_right _ ?_
            simp [catRun]
  · intro client db τ m hm
    rw [ingest_catalog_eq] at hm
    rcases hL : catalogLoop client db τ with ⟨s, err⟩
    rw [hL] at hm
    cases err with
    | none => rw [catalogFinish_ok] at hm; simp at hm
    | some e =>
        cases he : e.isClientError with
        | true => rw [catalogFinish_client _ _ _ _ _ he] at hm; simp at hm
        | false =>
            rw [catalogFinish_unexpected _ _ _ _ _ he] at hm
            simp only [Option.some_inj] at hm
            subst hm
            refine ⟨e, he, rfl, ?_⟩
            unfold catalogLoop at hL
            cases hc : client.list_my_courses with
            | error e0 =>
                rw [hc] at hL
                simp only [Prod.mk.injEq, Option.some_inj] at hL
                refine Or.inl ?_
                rw [← hL.2]
            | ok courses =>
                rw [hc] at hL
                exact Or.inr (foldCourses_err client τ db.next_id courses _ s e hL)
  · intro client db cid τ hres
    cases hfind : db.offerings.find? (fun o => o.canvas_course_id == cid) with
    | none =>
        unfold ingest_offering at hres ⊢
        rw [hfind] at hres ⊢
    | some off =>
        rw [ingest_offering_eq client db cid τ off hfind] at hres ⊢
        rcases hL : offeringLoop client τ (withRunRow db (offRun db cid τ))
          off.id db.next_id cid with ⟨s, err⟩
        rw [hL] at hres
        cases err with
        | none => rw [offeringFinish_none]; rfl
        | some e =>
            rw [offeringFinish_some] at hres ⊢
            cases he : e.isClientError with
            | true => rw [offeringFail_client _ _ _ _ _ he]
            | false =>
                rw [offeringFail_unexpected _ _ _ _ _ he] at hres
                simp at hres
  · intro client db cid τ m hm
    cases hfind : db.offerings.find? (fun o => o.canvas_course_id == cid) with
    | none =>
        unfold ingest_offering at hm
        rw [hfind] at hm
        simp at hm
    | some off =>
        rw [ingest_offering_eq client db cid τ off hfind] at hm ⊢
        rcases hL : offeringLoop client τ (withRunRow db (offRun db cid τ))
          off.id db.next_id cid with ⟨s, err⟩
        rw [hL] at hm
        cases err with
        | none => rw [offeringFinish_none] at hm; simp [offeringComplete] at hm
        | some e =>
            rw [offeringFinish_some] at hm ⊢
            cases he : e.isClientError with
            | true => rw [offeringFail_client _ _ _ _ _ he] at hm; simp at hm
            | false =>
                rw [offeringFail_unexpected _ _ _ _ _ he] at hm ⊢
                simp only [Option.some_inj] at hm
                subst hm
                have hruns : s.db.ingest_runs =
                    db.ingest_runs ++ [offRun db cid τ] := by
                  have hcl := offeringLoop_runs client τ
                    (withRunRow db (offRun db cid τ)) off.id db.next_id cid
                  rw [hL] at hcl
                  simpa [withRunRow] using hcl
                refine ⟨rfl, by simp, ?_⟩
                refine ⟨markFailed (offRun db cid τ)
                  ("Unexpected error: " ++ e.msg) (τ s.tick), ?_, rfl, rfl⟩
                dsimp only [updateRun]
                rw [hruns, List.map_append]
                refine List.mem_append_right _ ?_
                simp [offRun]
  · intro client db cid τ m hm
    cases hfind : db.offerings.find? (fun o => o.canvas_course_id == cid) with
    | none =>
        unfold ingest_offering at hm
        rw [hfind] at hm
        simp at hm
    | some off =>
        rw [ingest_offering_eq client db cid τ off hfind] at hm
        rcases hL : offeringLoop client τ (withRunRow db (offRun db cid τ))
          off.id db.next_id cid with ⟨s, err⟩
        rw [hL] at hm
        cases err with
        | none => rw [offeringFinish_none] at hm; simp [offeringComplete] at hm
        | some e =>
            rw [offeringFinish_some] at hm
            cases he : e.isClientError with
            | true => rw [offeringFail_client _ _ _ _ _ he] at hm; simp at hm
            | false =>
                rw [offeringFail_unexpected _ _ _ _ _ he] at hm
                simp only [Option.some_inj] at hm
                subst hm
                exact ⟨e, he, rfl, offeringLoop_err client τ
                  (withRunRow db (offRun db cid τ)) off.id db.next_id cid s e hL⟩

/-- Witness for C7 at a concrete input: a successful run returns a result and
raises nothing; an unexpected failure raises with the run finalized failed. -/
theorem C7_witness :
    (ingest_catalog fixtureClient emptyDB tickClock).raised = none ∧
    ((ingest_catalog bombClient emptyDB tickClock).result = none ∧
      (ingest_catalog bombClient emptyDB tickClock).db ∈
        (ingest_catalog bombClient emptyDB tickClock).commits ∧
      ∃ row ∈ (ingest_catalog bombClient emptyDB tickClock).db.ingest_runs,
        row.status = .failed ∧
        row.error_message = some ("Unexpected error: " ++ "boom")) :=
  ⟨C7_error_propagation.1 fixtureClient emptyDB tickClock rfl,
   C7_error_propagation.2.1 bombClient emptyDB tickClock "boom" rfl⟩

/-- Appending one classification to the trace bumps exactly the matching
status count. -/
theorem countStatus_append (tr : List (EntityType × Status))
    (p : EntityType × Status) (st : Status) :
    countStatus (tr ++ [p]) st =
      countStatus tr st + (if p.2 = st then 1 else 0) := by
  unfold countStatus
  rw [List.filter_append, List.length_append]
  congr 1
  by_cases h : p.2 = st
  · simp [List.filter, h]
  · have hb : (p.2 == st) = false := beq_eq_false_iff_ne.mpr h
    simp [List.filter, h, hb]

/-- Appending one classification bumps the counted-unchanged tally exactly
when the status is unchanged and the kind is one the source counts. -/
theorem countedUnchanged_append (tr : List (EntityType × Status))
    (p : EntityType × Status) :
    countedUnchanged (tr ++ [p]) =
      countedUnchanged tr +
        (if p.2 = .unchanged ∧ p.1 ≠ .term ∧ p.1 ≠ .person then 1 else 0) := by
  unfold countedUnchanged
  rw [List.filter_append, List.length_append]
  congr 1
  by_cases h1 : p.2 = Status.unchanged
  · by_cases h2 : p.1 = EntityType.term
    · simp [List.filter, h1, h2]
    · by_cases h3 : p.1 = EntityType.person
      · simp [List.filter, h1, h2, h3]
      · have b2 : (p.1 != EntityType.term) = true := bne_iff_ne.mpr h2
        have b3 : (p.1 != EntityType.person) = true := bne_iff_ne.mpr h3
        simp [List.filter, h1, h2, h3, b2, b3]
  · have b1 : (p.2 == Status.unchanged) = false := beq_eq_false_iff_ne.mpr h1
    simp [List.filter, h1, b1]

/-- Pushing a classification of a counted kind preserves the counter-trace
relation through the source counting pattern (if new / elif updated / else
unchanged). -/
theorem CountsOk_push (n u c : Nat) (tr : List (EntityType × Status))
    (k : EntityType) (st : Status) (h : CountsOk n u c tr)
    (hk : k ≠ .term ∧ k ≠ .person) :
    CountsOk (if st = .new then n + 1 else n)
      (if st = .updated then u + 1 else u)
      (if st = .unchanged then c + 1 else c) (tr ++ [(k, st)]) := by
  obtain ⟨h1, h2, h3⟩ := h
  refine ⟨?_, ?_, ?_⟩ <;>
    cases st <;>
      simp [countStatus_append, countedUnchanged_append, h1, h2, h3, hk.1, hk.2]

/-- Pushing a classification of an uncounted kind (term or person, whose
unchanged branch the source does not count) preserves the relation. -/
theorem CountsOk_push_uncounted (n u c : Nat) (tr : List (EntityType × Status))
    (k : EntityType) (st : Status) (h : CountsOk n u c tr)
    (hk : k = .term ∨ k = .person) :
    CountsOk (if st = .new then n + 1 else n)
      (if st = .updated then u + 1 else u) c (tr ++ [(k, st)]) := by
  obtain ⟨h1, h2, h3⟩ := h
  rcases hk with hk | hk <;> subst hk <;>
    refine ⟨?_, ?_, ?_⟩ <;>
      cases st <;>
        simp [countStatus_append, countedUnchanged_append, h1, h2, h3]

/-- The term step preserves the counter-trace relation. -/
theorem termStep_counts (client : CanvasClient) (τ : Nat → Int) (rid : Nat)
    (s : CatState) (c : CourseData) (s1 : CatState) (tid : Option Nat)
    (h : termStep client τ rid s c = Sum.inl (s1, tid))
    (hs : CountsOk s.new_count s.updated_count s.unchanged_count s.trace) :
    CountsOk s1.new_count s1.updated_count s1.unchanged_count s1.trace := by
  unfold termStep at h
  repeat' split at h
  all_goals (try exact Sum.noConfusion h)
  all_goals simp only [Sum.inl.injEq, Prod.mk.injEq] at h
  any_goals (rw [← h.1]; exact hs)
  rw [← h.1]
  exact CountsOk_push_uncounted _ _ _ _ _ _ hs (Or.inl rfl)

/-- The offering step preserves the counter-trace relation. -/
theorem offeringStep_counts (τ : Nat → Int) (rid : Nat) (s1 : CatState)
    (c : CourseData) (tid : Option Nat)
    (hs : CountsOk s1.new_count s1.updated_count s1.unchanged_count s1.trace) :
    CountsOk (offeringStep τ rid s1 c tid).1.new_count
      (offeringStep τ rid s1 c tid).1.updated_count
      (offeringStep τ rid s1 c tid).1.unchanged_count
      (offeringStep τ rid s1 c tid).1.trace :=
  CountsOk_push _ _ _ _ _ _ hs ⟨by simp, by simp⟩

/-- The user-enrollment step preserves the counter-trace relation. -/
theorem userEnrStep_counts (τ : Nat → Int) (rid oid : Nat) (acc : CatState)
    (ed : EnrollmentData)
    (hs : CountsOk acc.new_count acc.updated_count acc.unchanged_count acc.trace) :
    CountsOk (userEnrStep τ rid oid acc ed).new_count
      (userEnrStep τ rid oid acc ed).updated_count
      (userEnrStep τ rid oid acc ed).unchanged_count
      (userEnrStep τ rid oid acc ed).trace :=
  CountsOk_push _ _ _ _ _ _ hs ⟨by simp, by simp⟩

/-- The user-enrollment loop preserves the counter-trace relation. -/
theorem foldl_userEnrStep_counts (τ : Nat → Int) (rid oid : Nat)
    (l : List EnrollmentData) (acc : CatState)
    (hs : CountsOk acc.new_count acc.updated_count acc.unchanged_count acc.trace) :
    CountsOk (l.foldl (userEnrStep τ rid oid) acc).new_count
      (l.foldl (userEnrStep τ rid oid) acc).updated_count
      (l.foldl (userEnrStep τ rid oid) acc).unchanged_count
      (l.foldl (userEnrStep τ rid oid) acc).trace := by
  induction l generalizing acc with
  | nil => exact hs
  | cons ed rest ih =>
      rw [List.foldl_cons]
      exact ih _ (userEnrStep_counts τ rid oid acc ed hs)

/-- One course iteration preserves the counter-trace relation. -/
theorem processCourse_counts (client : CanvasClient) (τ : Nat → Int) (rid : Nat)
    (s : CatState) (c : CourseData) (s1 : CatState)
    (h : processCourse client τ rid s c = Sum.inl s1)
    (hs : CountsOk s.new_count s.updated_count s.unchanged_count s.trace) :
    CountsOk s1.new_count s1.updated_count s1.unchanged_count s1.trace := by
  unfold processCourse at h
  cases ht : termStep client τ rid s c with
  | inr r => rw [ht] at h; simp at h
  | inl p =>
      obtain ⟨sA, tid⟩ := p
      rw [ht] at h
      simp only [Sum.inl.injEq] at h
      rw [← h]
      exact foldl_userEnrStep_counts _ _ _ _ _
        (offeringStep_counts _ _ _ _ _
          (termStep_counts client τ rid s c sA tid ht hs))

/-- The course loop preserves the counter-trace relation, whatever outcome it
ends with. -/
theorem foldCourses_counts (client : CanvasClient) (τ : Nat → Int) (rid : Nat)
    (cs : List CourseData) (s : CatState)
    (hs : CountsOk s.new_count s.updated_count s.unchanged_count s.trace) :
    CountsOk (foldCourses client τ rid cs s).1.new_count
      (foldCourses client τ rid cs s).1.updated_count
      (foldCourses client τ rid cs s).1.unchanged_count
      (foldCourses client τ rid cs s).1.trace := by
  induction cs generalizing s with
  | nil => exact hs
  | cons c rest ih =>
      unfold foldCourses
      cases hp : processCourse client τ rid s c with
      | inl s1 => exact ih _ (processCourse_counts client τ rid s c s1 hp hs)
      | inr r =>
          obtain ⟨s1, e⟩ := r
          have := (processCourse_inr client τ rid s c s1 e hp).1
          subst this
          exact hs

/-- The section step preserves the counter-trace relation. -/
theorem processSection_counts (τ : Nat → Int) (oid rid : Nat) (s : OffState)
    (sd : SectionData)
    (hs : CountsOk s.new_count s.updated_count s.unchanged_count s.trace) :
    CountsOk (processSection τ oid rid s sd).new_count
      (processSection τ oid rid s sd).updated_count
      (processSection τ oid rid s sd).unchanged_count
      (processSection τ oid rid s sd).trace :=
  CountsOk_push _ _ _ _ _ _ hs ⟨by simp, by simp⟩

/-- The enrollment step (person upsert, then enrollment upsert) preserves the
counter-trace relation. -/
theorem processEnrollment_counts (τ : Nat → Int) (oid rid : Nat) (s : OffState)
    (ed : CourseEnrollmentData)
    (hs : CountsOk s.new_count s.updated_count s.unchanged_count s.trace) :
    CountsOk (processEnrollment τ oid rid s ed).new_count
      (processEnrollment τ oid rid s ed).updated_count
      (processEnrollment τ oid rid s ed).unchanged_count
      (processEnrollment τ oid rid s ed).trace := by
  unfold processEnrollment
  exact CountsOk_push _ _ _ _ _ _
    (CountsOk_push_uncounted _ _ _ _ _ _ hs (Or.inr rfl)) ⟨by simp, by simp⟩

/-- The offering-scope loops preserve the counter-trace relation. -/
theorem offeringLoop_counts (client : CanvasClient) (τ : Nat → Int) (db0 : DB)
    (oid rid : Nat) (cid : Int) :
    CountsOk (offeringLoop client τ db0 oid rid cid).1.new_count
      (offeringLoop client τ db0 oid rid cid).1.updated_count
      (offeringLoop client τ db0 oid rid cid).1.unchanged_count
      (offeringLoop client τ db0 oid rid cid).1.trace := by
  have hstart : CountsOk (offStart db0).new_count (offStart db0).updated_count
      (offStart db0).unchanged_count (offStart db0).trace := ⟨rfl, rfl, rfl⟩
  have hsec : ∀ (l : List SectionData) (acc : OffState),
      CountsOk acc.new_count acc.updated_count acc.unchanged_count acc.trace →
      CountsOk (l.foldl (processSection τ oid rid) acc).new_count
        (l.foldl (processSection τ oid rid) acc).updated_count
        (l.foldl (processSection τ oid rid) acc).unchanged_count
        (l.foldl (processSection τ oid rid) acc).trace := by
    intro l
    induction l with
    | nil => intro acc h; exact h
    | cons sd rest ih =>
        intro acc h
        rw [List.foldl_cons]
        exact ih _ (processSection_counts τ oid rid acc sd h)
  have henr : ∀ (l : List CourseEnrollmentData) (acc : OffState),
      CountsOk acc.new_count acc.updated_count acc.unchanged_count acc.trace →
      CountsOk (l.foldl (processEnrollment τ oid rid) acc).new_count
        (l.foldl (processEnrollment τ oid rid) acc).updated_count
        (l.foldl (processEnrollment τ oid rid) acc).unchanged_count
        (l.foldl (processEnrollment τ oid rid) acc).trace := by
    intro l
    induction l with
    | nil => intro acc h; exact h
    | cons ed rest ih =>
        intro acc h
        rw [List.foldl_cons]
        exact ih _ (processEnrollment_counts τ oid rid acc ed h)
  unfold offeringLoop
  cases client.list_sections cid with
  | error e => exact hstart
  | ok sections =>
      cases client.list_enrollments cid with
      | error e => exact hsec sections _ hstart
      | ok enrollments => exact henr enrollments _ (hsec sections _ hstart)

/-- C9 counterexample: a catalog re-ingest classifies three entities (a term,
an offering, a user enrollment), all unchanged, yet the run-level counters sum
to 2: the unchanged term contributed no increment to any counter, refuting
that every reconciled entity contributes exactly one increment. -/
theorem C9_counterexample :
    ((ingest_catalog fixtureClient
        (ingest_catalog fixtureClient emptyDB tickClock).db tickClock).trace.map
          Prod.snd = [Status.unchanged, Status.unchanged, Status.unchanged])
    ∧ ((ingest_catalog fixtureClient
        (ingest_catalog fixtureClient emptyDB tickClock).db tickClock).result.map
          (fun r => (r.new_count, r.updated_count, r.unchanged_count))
        = some (0, 0, 2)) :=
  ⟨rfl, rfl⟩

/-- C9 as amended: every entity classified new or updated increments the
matching counter; an entity classified unchanged increments the unchanged
counter exactly when it is an offering, user enrollment, section or
enrollment — unchanged terms and unchanged persons increment no counter. -/
theorem C9_amended :
    (∀ (client : CanvasClient) (db : DB) (τ : Nat → Int) (r : IngestResult),
      (ingest_catalog client db τ).result = some r → r.error = none →
        CountsOk r.new_count r.updated_count r.unchanged_count
          (ingest_catalog client db τ).trace)
    ∧ (∀ (client : CanvasClient) (db : DB) (cid : Int) (τ : Nat → Int)
        (r : IngestResult),
      (ingest_offering client db cid τ).result = some r → r.error = none →
        CountsOk r.new_count r.updated_count r.unchanged_count
          (ingest_offering client db cid τ).trace) := by
  constructor
  · intro client db τ r hres herr
    rw [ingest_catalog_eq] at hres ⊢
    rcases hL : catalogLoop client db τ with ⟨s, err⟩
    rw [hL] at hres
    have hcounts : CountsOk s.new_count s.updated_count s.unchanged_count
        s.trace := by
      have : CountsOk (catalogLoop client db τ).1.new_count
          (catalogLoop client db τ).1.updated_count
          (catalogLoop client db τ).1.unchanged_count
          (catalogLoop client db τ).1.trace := by
        unfold catalogLoop
        cases client.list_my_courses with
        | error e => exact ⟨rfl, rfl, rfl⟩
        | ok courses =>
            exact foldCourses_counts client τ db.next_id courses
              (catStart (withRunRow db (catRun db τ))) ⟨rfl, rfl, rfl⟩
      rw [hL] at this
      exact this
    cases err with
    | none =>
        rw [catalogFinish_ok] at hres ⊢
        simp only [Option.some_inj] at hres
        rw [← hres]
        exact hcounts
    | some e =>
        cases he : e.isClientError with
        | true =>
            rw [catalogFinish_client _ _ _ _ _ he] at hres
            simp only [Option.some_inj] at hres
            rw [← hres] at herr
            simp at herr
        | false =>
            rw [catalogFinish_unexpected _ _ _ _ _ he] at hres
            simp at hres
  · intro client db cid τ r hres herr
    cases hfind : db.offerings.find? (fun o => o.canvas_course_id == cid) with
    | none =>
        unfold ingest_offering at hres ⊢
        rw [hfind] at hres ⊢
        simp only [Option.some_inj] at hres
        rw [← hres]
        exact ⟨rfl, rfl, rfl⟩
    | some off =>
        rw [ingest_offering_eq client db cid τ off hfind] at hres ⊢
        rcases hL : offeringLoop client τ (withRunRow db (offRun db cid τ))
          off.id db.next_id cid with ⟨s, err⟩
        rw [hL] at hres
        have hcounts := offeringLoop_counts client τ
          (withRunRow db (offRun db cid τ)) off.id db.next_id cid
        rw [hL] at hcounts
        cases err with
        | none =>
            rw [offeringFinish_none] at hres ⊢
            simp only [offeringComplete, Option.some_inj] at hres
            rw [← hres]
            exact hcounts
        | some e =>
            rw [offeringFinish_some] at hres
            cases he : e.isClientError with
            | true =>
                rw [offeringFail_client _ _ _ _ _ he] at hres
                simp only [Option.some_inj] at hres
                rw [← hres] at herr
                simp at herr
            | false =>
                rw [offeringFail_unexpected _ _ _ _ _ he] at hres
                simp at hres

/-- Witness for C9_amended at a concrete input. -/
theorem C9_amended_witness :
    CountsOk 3 0 0 (ingest_catalog fixtureClient emptyDB tickClock).trace :=
  C9_amended.1 fixtureClient emptyDB tickClock
    { run_id := 1, new_count := 3, updated_count := 0, unchanged_count := 0
      drift_detected := [] } rfl rfl

/-- An if-then-else of two bounded values is bounded. -/
theorem ite_le_of_le (c : Prop) [Decidable c] (a b t : Int) (h1 : a ≤ t)
    (h2 : b ≤ t) : (if c then a else b) ≤ t := by
  split
  · exact h1
  · exact h2

/-- A pointwise property holding for every list member and for the replacement
holds for every member after the keyed replace. -/
theorem forall_mem_updByKey {α : Type} (key : α → Int) (k : Int) (new : α)
    (l : List α) (P : α → Prop) (hl : ∀ a ∈ l, P a) (hnew : P new) :
    ∀ a ∈ updByKey key k new l, P a := by
  intro a ha
  obtain ⟨b, hb, hba⟩ := List.mem_map.mp ha
  rw [← hba]
  split
  · exact hnew
  · exact hl b hb

/-- SeenLE is monotone in the bound. -/
theorem SeenLE_mono (db : DB) (t s : Int) (h : SeenLE db t) (hts : t ≤ s) :
    SeenLE db s := by
  obtain ⟨h1, h2, h3, h4, h5, h6⟩ := h
  exact ⟨fun x hx => le_trans (h1 x hx) hts, fun x hx => le_trans (h2 x hx) hts,
    fun x hx => le_trans (h3 x hx) hts, fun x hx => le_trans (h4 x hx) hts,
    fun x hx => le_trans (h5 x hx) hts, fun x hx => le_trans (h6 x hx) hts⟩

/-- The term upsert preserves the timestamp invariant and keeps every
last_seen_at bounded by now. -/
theorem upsert_term_time (db : DB) (td : TermData) (rid : Nat) (now : Int)
    (hInv : TimeInv db) (hSeen : SeenLE db now) :
    TimeInv (_upsert_term db td rid now).db ∧ SeenLE (_upsert_term db td rid now).db now := by
  obtain ⟨i1, i2, i3, i4, i5, i6⟩ := hInv
  obtain ⟨s1, s2, s3, s4, s5, s6⟩ := hSeen
  unfold _upsert_term
  cases hfind : db.terms.find? (fun t => t.canvas_term_id == td.canvas_term_id) with
  | none =>
      refine ⟨⟨?_, i2, i3, i4, i5, i6⟩, ⟨?_, s2, s3, s4, s5, s6⟩⟩
      · intro x hx
        rcases List.mem_append.mp hx with h | h
        · exact i1 x h
        · simp only [List.mem_singleton] at h
          subst h
          exact le_refl now
      · intro x hx
        rcases List.mem_append.mp hx with h | h
        · exact s1 x h
        · simp only [List.mem_singleton] at h
          subst h
          exact le_refl now
  | some ex =>
      have hmem : ex ∈ db.terms := List.mem_of_find?_eq_some hfind
      refine ⟨⟨?_, i2, i3, i4, i5, i6⟩, ⟨?_, s2, s3, s4, s5, s6⟩⟩
      · refine forall_mem_updByKey _ _ _ _ _ i1 ?_
        exact ite_le_of_le _ now ex.observed_at now (le_refl now)
          (le_trans (i1 ex hmem) (s1 ex hmem))
      · refine forall_mem_updByKey _ _ _ _ _ s1 ?_
        exact le_refl now

/-- The offering upsert preserves the timestamp invariant and keeps every
last_seen_at bounded by now. -/
theorem upsert_offering_time (db : DB) (cd : CourseData) (tid : Option Nat) (rid : Nat) (now : Int)
    (hInv : TimeInv db) (hSeen : SeenLE db now) :
    TimeInv (_upsert_offering db cd tid rid now).db ∧ SeenLE (_upsert_offering db cd tid rid now).db now := by
  obtain ⟨i1, i2, i3, i4, i5, i6⟩ := hInv
  obtain ⟨s1, s2, s3, s4, s5, s6⟩ := hSeen
  unfold _upsert_offering
  cases hfind : db.offerings.find? (fun o => o.canvas_course_id == cd.canvas_course_id) with
  | none =>
      refine ⟨⟨i1, ?_, i3, i4, i5, i6⟩, ⟨s1, ?_, s3, s4, s5, s6⟩⟩
      · intro x hx
        rcases List.mem_append.mp hx with h | h
        · exact i2 x h
        · simp only [List.mem_singleton] at h
          subst h
          exact le_refl now
      · intro x hx
        rcases List.mem_append.mp hx with h | h
        · exact s2 x h
        · simp only [List.mem_singleton] at h
          subst h
          exact le_refl now
  | some ex =>
      have hmem : ex ∈ db.offerings := List.mem_of_find?_eq_some hfind
      refine ⟨⟨i1, ?_, i3, i4, i5, i6⟩, ⟨s1, ?_, s3, s4, s5, s6⟩⟩
      · refine forall_mem_updByKey _ _ _ _ _ i2 ?_
        exact ite_le_of_le _ now ex.observed_at now (le_refl now)
          (le_trans (i2 ex hmem) (s2 ex hmem))
      · refine forall_mem_updByKey _ _ _ _ _ s2 ?_
        exact le_refl now

/-- The userEnr upsert preserves the timestamp invariant and keeps every
last_seen_at bounded by now. -/
theorem upsert_userEnr_time (db : DB) (eid : Int) (oid : Nat) (role st : String) (rid : Nat) (now : Int)
    (hInv : TimeInv db) (hSeen : SeenLE db now) :
    TimeInv (_upsert_user_enrollment db eid oid role st rid now).db ∧ SeenLE (_upsert_user_enrollment db eid oid role st rid now).db now := by
  obtain ⟨i1, i2, i3, i4, i5, i6⟩ := hInv
  obtain ⟨s1, s2, s3, s4, s5, s6⟩ := hSeen
  unfold _upsert_user_enrollment
  cases hfind : db.user_enrollments.find? (fun e => e.canvas_enrollment_id == eid) with
  | none =>
      refine ⟨⟨i1, i2, ?_, i4, i5, i6⟩, ⟨s1, s2, ?_, s4, s5, s6⟩⟩
      · intro x hx
        rcases List.mem_append.mp hx with h | h
        · exact i3 x h
        · simp only [List.mem_singleton] at h
          subst h
          exact le_refl now
      · intro x hx
        rcases List.mem_append.mp hx with h | h
        · exact s3 x h
        · simp only [List.mem_singleton] at h
          subst h
          exact le_refl now
  | some ex =>
      have hmem : ex ∈ db.user_enrollments := List.mem_of_find?_eq_some hfind
      refine ⟨⟨i1, i2, ?_, i4, i5, i6⟩, ⟨s1, s2, ?_, s4, s5, s6⟩⟩
      · refine forall_mem_updByKey _ _ _ _ _ i3 ?_
        exact ite_le_of_le _ now ex.observed_at now (le_refl now)
          (le_trans (i3 ex hmem) (s3 ex hmem))
      · refine forall_mem_updByKey _ _ _ _ _ s3 ?_
        exact le_refl now

/-- The section upsert preserves the timestamp invariant and keeps every
last_seen_at bounded by now. -/
theorem upsert_section_time (db : DB) (sd : SectionData) (oid : Nat) (rid : Nat) (now : Int)
    (hInv : TimeInv db) (hSeen : SeenLE db now) :
    TimeInv (_upsert_section db sd oid rid now).db ∧ SeenLE (_upsert_section db sd oid rid now).db now := by
  obtain ⟨i1, i2, i3, i4, i5, i6⟩ := hInv
  obtain ⟨s1, s2, s3, s4, s5, s6⟩ := hSeen
  unfold _upsert_section
  cases hfind : db.sections.find? (fun s => s.canvas_section_id == sd.canvas_section_id) with
  | none =>
      refine ⟨⟨i1, i2, i3, ?_, i5, i6⟩, ⟨s1, s2, s3, ?_, s5, s6⟩⟩
      · intro x hx
        rcases List.mem_append.mp hx with h | h
        · exact i4 x h
        · simp only [List.mem_singleton] at h
          subst h
          exact le_refl now
      · intro x hx
        rcases List.mem_append.mp hx with h | h
        · exact s4 x h
        · simp only [List.mem_singleton] at h
          subst h
          exact le_refl now
  | some ex =>
      have hmem : ex ∈ db.sections := List.mem_of_find?_eq_some hfind
      refine ⟨⟨i1, i2, i3, ?_, i5, i6⟩, ⟨s1, s2, s3, ?_, s5, s6⟩⟩
      · refine forall_mem_updByKey _ _ _ _ _ i4 ?_
        exact ite_le_of_le _ now ex.observed_at now (le_refl now)
          (le_trans (i4 ex hmem) (s4 ex hmem))
      · refine forall_mem_updByKey _ _ _ _ _ s4 ?_
        exact le_refl now

/-- The person upsert preserves the timestamp invariant and keeps every
last_seen_at bounded by now. -/
theorem upsert_person_time (db : DB) (uid : Int) (nm : String) (sn si li : Option String) (rid : Nat) (now : Int)
    (hInv : TimeInv db) (hSeen : SeenLE db now) :
    TimeInv (_upsert_person db uid nm sn si li rid now).db ∧ SeenLE (_upsert_person db uid nm sn si li rid now).db now := by
  obtain ⟨i1, i2, i3, i4, i5, i6⟩ := hInv
  obtain ⟨s1, s2, s3, s4, s5, s6⟩ := hSeen
  unfold _upsert_person
  cases hfind : db.persons.find? (fun p => p.canvas_user_id == uid) with
  | none =>
      refine ⟨⟨i1, i2, i3, i4, ?_, i6⟩, ⟨s1, s2, s3, s4, ?_, s6⟩⟩
      · intro x hx
        rcases List.mem_append.mp hx with h | h
        · exact i5 x h
        · simp only [List.mem_singleton] at h
          subst h
          exact le_refl now
      · intro x hx
        rcases List.mem_append.mp hx with h | h
        · exact s5 x h
        · simp only [List.mem_singleton] at h
          subst h
          exact le_refl now
  | some ex =>
      have hmem : ex ∈ db.persons := List.mem_of_find?_eq_some hfind
      refine ⟨⟨i1, i2, i3, i4, ?_, i6⟩, ⟨s1, s2, s3, s4, ?_, s6⟩⟩
      · refine forall_mem_updByKey _ _ _ _ _ i5 ?_
        exact ite_le_of_le _ now ex.observed_at now (le_refl now)
          (le_trans (i5 ex hmem) (s5 ex hmem))
      · refine forall_mem_updByKey _ _ _ _ _ s5 ?_
        exact le_refl now

/-- The enr upsert preserves the timestamp invariant and keeps every
last_seen_at bounded by now. -/
theorem upsert_enr_time (db : DB) (ed : CourseEnrollmentData) (oid : Nat) (sid : Option Nat) (pid : Nat) (rid : Nat) (now : Int)
    (hInv : TimeInv db) (hSeen : SeenLE db now) :
    TimeInv (_upsert_enrollment db ed oid sid pid rid now).db ∧ SeenLE (_upsert_enrollment db ed oid sid pid rid now).db now := by
  obtain ⟨i1, i2, i3, i4, i5, i6⟩ := hInv
  obtain ⟨s1, s2, s3, s4, s5, s6⟩ := hSeen
  unfold _upsert_enrollment
  cases hfind : db.enrollments.find? (fun e => e.canvas_enrollment_id == ed.canvas_enrollment_id) with
  | none =>
      refine ⟨⟨i1, i2, i3, i4, i5, ?_⟩, ⟨s1, s2, s3, s4, s5, ?_⟩⟩
      · intro x hx
        rcases List.mem_append.mp hx with h | h
        · exact i6 x h
        · simp only [List.mem_singleton] at h
          subst h
          exact le_refl now
      · intro x hx
        rcases List.mem_append.mp hx with h | h
        · exact s6 x h
        · simp only [List.mem_singleton] at h
          subst h
          exact le_refl now
  | some ex =>
      have hmem : ex ∈ db.enrollments := List.mem_of_find?_eq_some hfind
      refine ⟨⟨i1, i2, i3, i4, i5, ?_⟩, ⟨s1, s2, s3, s4, s5, ?_⟩⟩
      · refine forall_mem_updByKey _ _ _ _ _ i6 ?_
        exact ite_le_of_le _ now ex.observed_at now (le_refl now)
          (le_trans (i6 ex hmem) (s6 ex hmem))
      · refine forall_mem_updByKey _ _ _ _ _ s6 ?_
        exact le_refl now

/-- One reconciliation preserves the timestamp invariant and the bound. -/
theorem applyOp_time (db : DB) (op : ReconOp) (now : Int) (hInv : TimeInv db)
    (hSeen : SeenLE db now) :
    TimeInv (applyOp db op now) ∧ SeenLE (applyOp db op now) now := by
  cases op with
  | term td rid => exact upsert_term_time db td rid now hInv hSeen
  | offering cd tid rid => exact upsert_offering_time db cd tid rid now hInv hSeen
  | userEnr eid oid role st rid =>
      exact upsert_userEnr_time db eid oid role st rid now hInv hSeen
  | sectionOp sd oid rid => exact upsert_section_time db sd oid rid now hInv hSeen
  | person uid nm sn si li rid =>
      exact upsert_person_time db uid nm sn si li rid now hInv hSeen
  | enrollment ed oid sid pid rid =>
      exact upsert_enr_time db ed oid sid pid rid now hInv hSeen

/-- The drift flag of a leading field block is set exactly when that field
differs or a later block sets it. -/
theorem drift_block_iff (c : Prop) [Decidable c] (e : ChangeLog)
    (rest : List ChangeLog) :
    ((((if c then [e] else []) ++ rest).length != 0) = true) ↔
      (c ∨ ((rest.length != 0) = true)) := by
  by_cases h : c <;> simp [h]

/-- The drift flag of a single field block is set exactly when the field
differs. -/
theorem drift_single_iff (c : Prop) [Decidable c] (e : ChangeLog) :
    (((if c then [e] else []).length != 0) = true) ↔ c := by
  by_cases h : c <;> simp [h]

/-- On a found record, the term upsert sets last_seen_at to now
unconditionally, advances observed_at exactly when some tracked field differs,
and classifies updated exactly then. -/
theorem upsert_term_observed (db : DB) (td : TermData) (rid : Nat) (now : Int)
    (ex : Term) (hfind : db.terms.find? (fun t => t.canvas_term_id == td.canvas_term_id) = some ex) :
    (_upsert_term db td rid now).record.last_seen_at = now ∧
    (_upsert_term db td rid now).record.observed_at =
      (if termDrift ex td then now else ex.observed_at) ∧
    ((_upsert_term db td rid now).status = .updated ↔ termDrift ex td) := by
  have hb : ((((if ex.name ≠ td.name then
             [_record_change EntityType.term td.canvas_term_id "name" (some ex.name) (some td.name) rid now]
           else [])
        ++ (if ex.start_date ≠ td.start_date then
             [_record_change EntityType.term td.canvas_term_id "start_date" ex.start_date td.start_date rid now]
           else [])
        ++ (if ex.end_date ≠ td.end_date then
             [_record_change EntityType.term td.canvas_term_id "end_date" ex.end_date td.end_date rid now]
           else [])).length != 0) = true) ↔ termDrift ex td := by
    simp only [List.append_assoc]
    rw [drift_block_iff, drift_block_iff, drift_single_iff]
    rfl
  unfold _upsert_term
  rw [hfind]
  dsimp only
  refine ⟨rfl, ?_, ?_⟩
  · exact if_congr hb rfl rfl
  · rw [if_congr hb rfl rfl]
    by_cases hd : termDrift ex td
    · simp [hd]
    · simp [hd]

/-- On a found record, the offering upsert sets last_seen_at to now
unconditionally, advances observed_at exactly when some tracked field differs,
and classifies updated exactly then. -/
theorem upsert_offering_observed (db : DB) (cd : CourseData) (tid : Option Nat) (rid : Nat) (now : Int)
    (ex : Offering) (hfind : db.offerings.find? (fun o => o.canvas_course_id == cd.canvas_course_id) = some ex) :
    (_upsert_offering db cd tid rid now).record.last_seen_at = now ∧
    (_upsert_offering db cd tid rid now).record.observed_at =
      (if offeringDrift ex cd tid then now else ex.observed_at) ∧
    ((_upsert_offering db cd tid rid now).status = .updated ↔ offeringDrift ex cd tid) := by
  have hb : ((((if ex.name ≠ cd.name then
             (["Offering " ++ toString cd.canvas_course_id ++ ": name " ++ ex.name ++ " -> " ++ cd.name],
              [_record_change EntityType.offering cd.canvas_course_id "name" (some ex.name) (some cd.name) rid now])
           else ([], [])).2
        ++ (if ex.code ≠ cd.code then
             (["Offering " ++ toString cd.canvas_course_id ++ ": code " ++ pyShowOpt ex.code ++ " -> " ++ pyShowOpt cd.code],
              [_record_change EntityType.offering cd.canvas_course_id "code" ex.code cd.code rid now])
           else ([], [])).2
        ++ (if ex.workflow_state ≠ cd.workflow_state then
             (["Offering " ++ toString cd.canvas_course_id ++ ": state " ++ ex.workflow_state ++ " -> " ++ cd.workflow_state],
              [_record_change EntityType.offering cd.canvas_course_id "workflow_state" (some ex.workflow_state) (some cd.workflow_state) rid now])
           else ([], [])).2
        ++ (if ex.term_id ≠ tid then
             (["Offering " ++ toString cd.canvas_course_id ++ ": term_id " ++ pyShowOpt ex.term_id ++ " -> " ++ pyShowOpt tid],
              [_record_change EntityType.offering cd.canvas_course_id "term_id" ex.term_id tid rid now])
           else ([], [])).2).length != 0) = true) ↔ offeringDrift ex cd tid := by
    simp only [apply_ite Prod.snd, List.append_assoc]
    rw [drift_block_iff, drift_block_iff, drift_block_iff, drift_single_iff]
    rfl
  unfold _upsert_offering
  rw [hfind]
  dsimp only
  refine ⟨rfl, ?_, ?_⟩
  · exact if_congr hb rfl rfl
  · rw [if_congr hb rfl rfl]
    by_cases hd : offeringDrift ex cd tid
    · simp [hd]
    · simp [hd]

/-- On a found record, the userEnr upsert sets last_seen_at to now
unconditionally, advances observed_at exactly when some tracked field differs,
and classifies updated exactly then. -/
theorem upsert_userEnr_observed (db : DB) (eid : Int) (oid : Nat) (role st : String) (rid : Nat) (now : Int)
    (ex : UserEnrollment) (hfind : db.user_enrollments.find? (fun e => e.canvas_enrollment_id == eid) = some ex) :
    (_upsert_user_enrollment db eid oid role st rid now).record.last_seen_at = now ∧
    (_upsert_user_enrollment db eid oid role st rid now).record.observed_at =
      (if userEnrDrift ex role st then now else ex.observed_at) ∧
    ((_upsert_user_enrollment db eid oid role st rid now).status = .updated ↔ userEnrDrift ex role st) := by
  have hb : ((((if ex.role ≠ role then
             (["Enrollment " ++ toString eid ++ ": role " ++ ex.role ++ " -> " ++ role],
              [_record_change EntityType.user_enrollment eid "role" (some ex.role) (some role) rid now])
           else ([], [])).2
        ++ (if ex.enrollment_state ≠ st then
             (["Enrollment " ++ toString eid ++ ": state " ++ ex.enrollment_state ++ " -> " ++ st],
              [_record_change EntityType.user_enrollment eid "enrollment_state" (some ex.enrollment_state) (some st) rid now])
           else ([], [])).2).length != 0) = true) ↔ userEnrDrift ex role st := by
    simp only [apply_ite Prod.snd, List.append_assoc]
    rw [drift_block_iff, drift_single_iff]
    rfl
  unfold _upsert_user_enrollment
  rw [hfind]
  dsimp only
  refine ⟨rfl, ?_, ?_⟩
  · exact if_congr hb rfl rfl
  · rw [if_congr hb rfl rfl]
    by_cases hd : userEnrDrift ex role st
    · simp [hd]
    · simp [hd]

/-- On a found record, the section upsert sets last_seen_at to now
unconditionally, advances observed_at exactly when some tracked field differs,
and classifies updated exactly then. -/
theorem upsert_section_observed (db : DB) (sd : SectionData) (oid : Nat) (rid : Nat) (now : Int)
    (ex : Section) (hfind : db.sections.find? (fun s => s.canvas_section_id == sd.canvas_section_id) = some ex) :
    (_upsert_section db sd oid rid now).record.last_seen_at = now ∧
    (_upsert_section db sd oid rid now).record.observed_at =
      (if sectionDrift ex sd then now else ex.observed_at) ∧
    ((_upsert_section db sd oid rid now).status = .updated ↔ sectionDrift ex sd) := by
  have hb : ((((if ex.name ≠ sd.name then
             (["Section " ++ toString sd.canvas_section_id ++ ": name " ++ ex.name ++ " -> " ++ sd.name],
              [_record_change EntityType.sec sd.canvas_section_id "name" (some ex.name) (some sd.name) rid now])
           else ([], [])).2
        ++ (if ex.sis_section_id ≠ sd.sis_section_id then
             (["Section " ++ toString sd.canvas_section_id ++ ": sis_section_id " ++ pyShowOpt ex.sis_section_id ++ " -> " ++ pyShowOpt sd.sis_section_id],
              [_record_change EntityType.sec sd.canvas_section_id "sis_section_id" ex.sis_section_id sd.sis_section_id rid now])
           else ([], [])).2).length != 0) = true) ↔ sectionDrift ex sd := by
    simp only [apply_ite Prod.snd, List.append_assoc]
    rw [drift_block_iff, drift_single_iff]
    rfl
  unfold _upsert_section
  rw [hfind]
  dsimp only
  refine ⟨rfl, ?_, ?_⟩
  · exact if_congr hb rfl rfl
  · rw [if_congr hb rfl rfl]
    by_cases hd : sectionDrift ex sd
    · simp [hd]
    · simp [hd]

/-- On a found record, the person upsert sets last_seen_at to now
unconditionally, advances observed_at exactly when some tracked field differs,
and classifies updated exactly then. -/
theorem upsert_person_observed (db : DB) (uid : Int) (nm : String) (sn si li : Option String) (rid : Nat) (now : Int)
    (ex : Person) (hfind : db.persons.find? (fun p => p.canvas_user_id == uid) = some ex) :
    (_upsert_person db uid nm sn si li rid now).record.last_seen_at = now ∧
    (_upsert_person db uid nm sn si li rid now).record.observed_at =
      (if personDrift ex nm sn si li then now else ex.observed_at) ∧
    ((_upsert_person db uid nm sn si li rid now).status = .updated ↔ personDrift ex nm sn si li) := by
  have hb : ((((if ex.name ≠ nm then
             (["Person " ++ toString uid ++ ": name " ++ ex.name ++ " -> " ++ nm],
              [_record_change EntityType.person uid "name" (some ex.name) (some nm) rid now])
           else ([], [])).2
        ++ (if ex.sortable_name ≠ sn then
             [_record_change EntityType.person uid "sortable_name" ex.sortable_name sn rid now]
           else [])
        ++ (if ex.sis_user_id ≠ si then
             [_record_change EntityType.person uid "sis_user_id" ex.sis_user_id si rid now]
           else [])
        ++ (if ex.login_id ≠ li then
             [_record_change EntityType.person uid "login_id" ex.login_id li rid now]
           else [])).length != 0) = true) ↔ personDrift ex nm sn si li := by
    simp only [apply_ite Prod.snd, List.append_assoc]
    rw [drift_block_iff, drift_block_iff, drift_block_iff, drift_single_iff]
    rfl
  unfold _upsert_person
  rw [hfind]
  dsimp only
  refine ⟨rfl, ?_, ?_⟩
  · exact if_congr hb rfl rfl
  · rw [if_congr hb rfl rfl]
    by_cases hd : personDrift ex nm sn si li
    · simp [hd]
    · simp [hd]

/-- On a found record, the enr upsert sets last_seen_at to now
unconditionally, advances observed_at exactly when some tracked field differs,
and classifies updated exactly then. -/
theorem upsert_enr_observed (db : DB) (ed : CourseEnrollmentData) (oid : Nat) (sid : Option Nat) (pid : Nat) (rid : Nat) (now : Int)
    (ex : Enrollment) (hfind : db.enrollments.find? (fun e => e.canvas_enrollment_id == ed.canvas_enrollment_id) = some ex) :
    (_upsert_enrollment db ed oid sid pid rid now).record.last_seen_at = now ∧
    (_upsert_enrollment db ed oid sid pid rid now).record.observed_at =
      (if enrollmentDrift ex ed sid then now else ex.observed_at) ∧
    ((_upsert_enrollment db ed oid sid pid rid now).status = .updated ↔ enrollmentDrift ex ed sid) := by
  have hb : ((((if ex.role ≠ ed.role then
             (["Enrollment " ++ toString ed.canvas_enrollment_id ++ ": role " ++ ex.role ++ " -> " ++ ed.role],
              [_record_change EntityType.enrollment ed.canvas_enrollment_id "role" (some ex.role) (some ed.role) rid now])
           else ([], [])).2
        ++ (if ex.enrollment_state ≠ ed.enrollment_state then
             (["Enrollment " ++ toString ed.canvas_enrollment_id ++ ": state " ++ ex.enrollment_state ++ " -> " ++ ed.enrollment_state],
              [_record_change EntityType.enrollment ed.canvas_enrollment_id "enrollment_state" (some ex.enrollment_state) (some ed.enrollment_state) rid now])
           else ([], [])).2
        ++ (if ex.current_grade ≠ ed.current_grade then
             [_record_change EntityType.enrollment ed.canvas_enrollment_id "current_grade" ex.current_grade ed.current_grade rid now]
           else [])
        ++ (if ex.current_score ≠ ed.current_score then
             [_record_change EntityType.enrollment ed.canvas_enrollment_id "current_score" ex.current_score ed.current_score rid now]
           else [])
        ++ (if ex.final_grade ≠ ed.final_grade then
             [_record_change EntityType.enrollment ed.canvas_enrollment_id "final_grade" ex.final_grade ed.final_grade rid now]
           else [])
        ++ (if ex.final_score ≠ ed.final_score then
             [_record_change EntityType.enrollment ed.canvas_enrollment_id "final_score" ex.final_score ed.final_score rid now]
           else [])
        ++ (if ex.section_id ≠ sid then
             [_record_change EntityType.enrollment ed.canvas_enrollment_id "section_id" ex.section_id sid rid now]
           else [])).length != 0) = true) ↔ enrollmentDrift ex ed sid := by
    simp only [apply_ite Prod.snd, List.append_assoc]
    rw [drift_block_iff, drift_block_iff, drift_block_iff, drift_block_iff, drift_block_iff, drift_block_iff, drift_single_iff]
    rfl
  unfold _upsert_enrollment
  rw [hfind]
  dsimp only
  refine ⟨rfl, ?_, ?_⟩
  · exact if_congr hb rfl rfl
  · rw [if_congr hb rfl rfl]
    by_cases hd : enrollmentDrift ex ed sid
    · simp [hd]
    · simp [hd]

/-- C4: for every entity kind and every tracked field, if a stored record
exists and exactly that one tracked field differs between stored and observed
values, the upsert appends exactly one change-log entry for that field, whose
old_value is the stringified prior value and new_value the stringified observed
value; an absent (None) value is recorded as null (Option.map toString sends
none to none), never the string "None". -/
theorem C4_field_diff :
    (∀ (db : DB) (td : TermData) (rid : Nat) (now : Int) (ex : Term),
      db.terms.find? (fun t => t.canvas_term_id == td.canvas_term_id) = some ex →
      ex.name ≠ td.name →
      ex.start_date = td.start_date →
      ex.end_date = td.end_date →
      (_upsert_term db td rid now).db.change_log = db.change_log ++
          [{ entity_type := .term
             entity_canvas_id := td.canvas_term_id
             field_name := "name"
             old_value := some (toString ex.name)
             new_value := some (toString td.name)
             ingest_run_id := rid
             observed_at := now }] ∧
        (_upsert_term db td rid now).status = .updated)
    ∧ (∀ (db : DB) (td : TermData) (rid : Nat) (now : Int) (ex : Term),
      db.terms.find? (fun t => t.canvas_term_id == td.canvas_term_id) = some ex →
      ex.start_date ≠ td.start_date →
      ex.name = td.name →
      ex.end_date = td.end_date →
      (_upsert_term db td rid now).db.change_log = db.change_log ++
          [{ entity_type := .term
             entity_canvas_id := td.canvas_term_id
             field_name := "start_date"
             old_value := ex.start_date.map toString
             new_value := td.start_date.map toString
             ingest_run_id := rid
             observed_at := now }] ∧
        (_upsert_term db td rid now).status = .updated)
    ∧ (∀ (db : DB) (td : TermData) (rid : Nat) (now : Int) (ex : Term),
      db.terms.find? (fun t => t.canvas_term_id == td.canvas_term_id) = some ex →
      ex.end_date ≠ td.end_date →
      ex.name = td.name →
      ex.start_date = td.start_date →
      (_upsert_term db td rid now).db.change_log = db.change_log ++
          [{ entity_type := .term
             entity_canvas_id := td.canvas_term_id
             field_name := "end_date"
             old_value := ex.end_date.map toString
             new_value := td.end_date.map toString
             ingest_run_id := rid
             observed_at := now }] ∧
        (_upsert_term db td rid now).status = .updated)
    ∧ (∀ (db : DB) (cd : CourseData) (tid : Option Nat) (rid : Nat) (now : Int) (ex : Offering),
      db.offerings.find? (fun o => o.canvas_course_id == cd.canvas_course_id) = some ex →
      ex.name ≠ cd.name →
      ex.code = cd.code →
      ex.workflow_state = cd.workflow_state →
      ex.term_id = tid →
      (_upsert_offering db cd tid rid now).db.change_log = db.change_log ++
          [{ entity_type := .offering
             entity_canvas_id := cd.canvas_course_id
             field_name := "name"
             old_value := some (toString ex.name)
             new_value := some (toString cd.name)
             ingest_run_id := rid
             observed_at := now }] ∧
        (_upsert_offering db cd tid rid now).status = .updated)
    ∧ (∀ (db : DB) (cd : CourseData) (tid : Option Nat) (rid : Nat) (now : Int) (ex : Offering),
      db.offerings.find? (fun o => o.canvas_course_id == cd.canvas_course_id) = some ex →
      ex.code ≠ cd.code →
      ex.name = cd.name →
      ex.workflow_state = cd.workflow_state →
      ex.term_id = tid →
      (_upsert_offering db cd tid rid now).db.change_log = db.change_log ++
          [{ entity_type := .offering
             entity_canvas_id := cd.canvas_course_id
             field_name := "code"
             old_value := ex.code.map toString
             new_value := cd.code.map toString
             ingest_run_id := rid
             observed_at := now }] ∧
        (_upsert_offering db cd tid rid now).status = .updated)
    ∧ (∀ (db : DB) (cd : CourseData) (tid : Option Nat) (rid : Nat) (now : Int) (ex : Offering),
      db.offerings.find? (fun o => o.canvas_course_id == cd.canvas_course_id) = some ex →
      ex.workflow_state ≠ cd.workflow_state →
      ex.name = cd.name →
      ex.code = cd.code →
      ex.term_id = tid →
      (_upsert_offering db cd tid rid now).db.change_log = db.change_log ++
          [{ entity_type := .offering
             entity_canvas_id := cd.canvas_course_id
             field_name := "workflow_state"
             old_value := some (toString ex.workflow_state)
             new_value := some (toString cd.workflow_state)
             ingest_run_id := rid
             observed_at := now }] ∧
        (_upsert_offering db cd tid rid now).status = .updated)
    ∧ (∀ (db : DB) (cd : CourseData) (tid : Option Nat) (rid : Nat) (now : Int) (ex : Offering),
      db.offerings.find? (fun o => o.canvas_course_id == cd.canvas_course_id) = some ex →
      ex.term_id ≠ tid →
      ex.name = cd.name →
      ex.code = cd.code →
      ex.workflow_state = cd.workflow_state →
      (_upsert_offering db cd tid rid now).db.change_log = db.change_log ++
          [{ entity_type := .offering
             entity_canvas_id := cd.canvas_course_id
             field_name := "term_id"
             old_value := ex.term_id.map toString
             new_value := tid.map toString
             ingest_run_id := rid
             observed_at := now }] ∧
        (_upsert_offering db cd tid rid now).status = .updated)
    ∧ (∀ (db : DB) (eid : Int) (oid : Nat) (role st : String) (rid : Nat) (now : Int) (ex : UserEnrollment),
      db.user_enrollments.find? (fun e => e.canvas_enrollment_id == eid) = some ex →
      ex.role ≠ role →
      ex.enrollment_state = st →
      (_upsert_user_enrollment db eid oid role st rid now).db.change_log = db.change_log ++
          [{ entity_type := .user_enrollment
             entity_canvas_id := eid
             field_name := "role"
             old_value := some (toString ex.role)
             new_value := some (toString role)
             ingest_run_id := rid
             observed_at := now }] ∧
        (_upsert_user_enrollment db eid oid role st rid now).status = .updated)
    ∧ (∀ (db : DB) (eid : Int) (oid : Nat) (role st : String) (rid : Nat) (now : Int) (ex : UserEnrollment),
      db.user_enrollments.find? (fun e => e.canvas_enrollment_id == eid) = some ex →
      ex.enrollment_state ≠ st →
      ex.role = role →
      (_upsert_user_enrollment db eid oid role st rid now).db.change_log = db.change_log ++
          [{ entity_type := .user_enrollment
             entity_canvas_id := eid
             field_name := "enrollment_state"
             old_value := some (toString ex.enrollment_state)
             new_value := some (toString st)
             ingest_run_id := rid
             observed_at := now }] ∧
        (_upsert_user_enrollment db eid oid role st rid now).status = .updated)
    ∧ (∀ (db : DB) (sd : SectionData) (oid : Nat) (rid : Nat) (now : Int) (ex : Section),
      db.sections.find? (fun s => s.canvas_section_id == sd.canvas_section_id) = some ex →
      ex.name ≠ sd.name →
      ex.sis_section_id = sd.sis_section_id →
      (_upsert_section db sd oid rid now).db.change_log = db.change_log ++
          [{ entity_type := .sec
             entity_canvas_id := sd.canvas_section_id
             field_name := "name"
             old_value := some (toString ex.name)
             new_value := some (toString sd.name)
             ingest_run_id := rid
             observed_at := now }] ∧
        (_upsert_section db sd oid rid now).status = .updated)
    ∧ (∀ (db : DB) (sd : SectionData) (oid : Nat) (rid : Nat) (now : Int) (ex : Section),
      db.sections.find? (fun s => s.canvas_section_id == sd.canvas_section_id) = some ex →
      ex.sis_section_id ≠ sd.sis_section_id →
      ex.name = sd.name →
      (_upsert_section db sd oid rid now).db.change_log = db.change_log ++
          [{ entity_type := .sec
             entity_canvas_id := sd.canvas_section_id
             field_name := "sis_section_id"
             old_value := ex.sis_section_id.map toString
             new_value := sd.sis_section_id.map toString
             ingest_run_id := rid
             observed_at := now }] ∧
        (_upsert_section db sd oid rid now).status = .updated)
    ∧ (∀ (db : DB) (uid : Int) (nm : String) (sn si li : Option String) (rid : Nat) (now : Int) (ex : Person),
      db.persons.find? (fun p => p.canvas_user_id == uid) = some ex →
      ex.name ≠ nm →
      ex.sortable_name = sn →
      ex.sis_user_id = si →
      ex.login_id = li →
      (_upsert_person db uid nm sn si li rid now).db.change_log = db.change_log ++
          [{ entity_type := .person
             entity_canvas_id := uid
             field_name := "name"
             old_value := some (toString ex.name)
             new_value := some (toString nm)
             ingest_run_id := rid
             observed_at := now }] ∧
        (_upsert_person db uid nm sn si li rid now).status = .updated)
    ∧ (∀ (db : DB) (uid : Int) (nm : String) (sn si li : Option String) (rid : Nat) (now : Int) (ex : Person),
      db.persons.find? (fun p => p.canvas_user_id == uid) = some ex →
      ex.sortable_name ≠ sn →
      ex.name = nm →
      ex.sis_user_id = si →
      ex.login_id = li →
      (_upsert_person db uid nm sn si li rid now).db.change_log = db.change_log ++
          [{ entity_type := .person
             entity_canvas_id := uid
             field_name := "sortable_name"
             old_value := ex.sortable_name.map toString
             new_value := sn.map toString
             ingest_run_id := rid
             observed_at := now }] ∧
        (_upsert_person db uid nm sn si li rid now).status = .updated)
    ∧ (∀ (db : DB) (uid : Int) (nm : String) (sn si li : Option String) (rid : Nat) (now : Int) (ex : Person),
      db.persons.find? (fun p => p.canvas_user_id == uid) = some ex →
      ex.sis_user_id ≠ si →
      ex.name = nm →
      ex.sortable_name = sn →
      ex.login_id = li →
      (_upsert_person db uid nm sn si li rid now).db.change_log = db.change_log ++
          [{ entity_type := .person
             entity_canvas_id := uid
             field_name := "sis_user_id"
             old_value := ex.sis_user_id.map toString
             new_value := si.map toString
             ingest_run_id := rid
             observed_at := now }] ∧
        (_upsert_person db uid nm sn si li rid now).status = .updated)
    ∧ (∀ (db : DB) (uid : Int) (nm : String) (sn si li : Option String) (rid : Nat) (now : Int) (ex : Person),
      db.persons.find? (fun p => p.canvas_user_id == uid) = some ex →
      ex.login_id ≠ li →
      ex.name = nm →
      ex.sortable_name = sn →
      ex.sis_user_id = si →
      (_upsert_person db uid nm sn si li rid now).db.change_log = db.change_log ++
          [{ entity_type := .person
             entity_canvas_id := uid
             field_name := "login_id"
             old_value := ex.login_id.map toString
             new_value := li.map toString
             ingest_run_id := rid
             observed_at := now }] ∧
        (_upsert_person db uid nm sn si li rid now).status = .updated)
    ∧ (∀ (db : DB) (ed : CourseEnrollmentData) (oid : Nat) (sid : Option Nat) (pid : Nat) (rid : Nat) (now : Int) (ex : Enrollment),
      db.enrollments.find? (fun e => e.canvas_enrollment_id == ed.canvas_enrollment_id) = some ex →
      ex.role ≠ ed.role →
      ex.enrollment_state = ed.enrollment_state →
      ex.current_grade = ed.current_grade →
      ex.current_score = ed.current_score →
      ex.final_grade = ed.final_grade →
      ex.final_score = ed.final_score →
      ex.section_id = sid →
      (_upsert_enrollment db ed oid sid pid rid now).db.change_log = db.change_log ++
          [{ entity_type := .enrollment
             entity_canvas_id := ed.canvas_enrollment_id
             field_name := "role"
             old_value := some (toString ex.role)
             new_value := some (toString ed.role)
             ingest_run_id := rid
             observed_at := now }] ∧
        (_upsert_enrollment db ed oid sid pid rid now).status = .updated)
    ∧ (∀ (db : DB) (ed : CourseEnrollmentData) (oid : Nat) (sid : Option Nat) (pid : Nat) (rid : Nat) (now : Int) (ex : Enrollment),
      db.enrollments.find? (fun e => e.canvas_enrollment_id == ed.canvas_enrollment_id) = some ex →
      ex.enrollment_state ≠ ed.enrollment_state →
      ex.role = ed.role →
      ex.current_grade = ed.current_grade →
      ex.current_score = ed.current_score →
      ex.final_grade = ed.final_grade →
      ex.final_score = ed.final_score →
      ex.section_id = sid →
      (_upsert_enrollment db ed oid sid pid rid now).db.change_log = db.change_log ++
          [{ entity_type := .enrollment
             entity_canvas_id := ed.canvas_enrollment_id
             field_name := "enrollment_state"
             old_value := some (toString ex.enrollment_state)
             new_value := some (toString ed.enrollment_state)
             ingest_run_id := rid
             observed_at := now }] ∧
        (_upsert_enrollment db ed oid sid pid rid now).status = .updated)
    ∧ (∀ (db : DB) (ed : CourseEnrollmentData) (oid : Nat) (sid : Option Nat) (pid : Nat) (rid : Nat) (now : Int) (ex : Enrollment),
      db.enrollments.find? (fun e => e.canvas_enrollment_id == ed.canvas_enrollment_id) = some ex →
      ex.current_grade ≠ ed.current_grade →
      ex.role = ed.role →
      ex.enrollment_state = ed.enrollment_state →
      ex.current_score = ed.current_score →
      ex.final_grade = ed.final_grade →
      ex.final_score = ed.final_score →
      ex.section_id = sid →
      (_upsert_enrollment db ed oid sid pid rid now).db.change_log = db.change_log ++
          [{ entity_type := .enrollment
             entity_canvas_id := ed.canvas_enrollment_id
             field_name := "current_grade"
             old_value := ex.current_grade.map toString
             new_value := ed.current_grade.map toString
             ingest_run_id := rid
             observed_at := now }] ∧
        (_upsert_enrollment db ed oid sid pid rid now).status = .updated)
    ∧ (∀ (db : DB) (ed : CourseEnrollmentData) (oid : Nat) (sid : Option Nat) (pid : Nat) (rid : Nat) (now : Int) (ex : Enrollment),
      db.enrollments.find? (fun e => e.canvas_enrollment_id == ed.canvas_enrollment_id) = some ex →
      ex.current_score ≠ ed.current_score →
      ex.role = ed.role →
      ex.enrollment_state = ed.enrollment_state →
      ex.current_grade = ed.current_grade →
      ex.final_grade = ed.final_grade →
      ex.final_score = ed.final_score →
      ex.section_id = sid →
      (_upsert_enrollment db ed oid sid pid rid now).db.change_log = db.change_log ++
          [{ entity_type := .enrollment
             entity_canvas_id := ed.canvas_enrollment_id
             field_name := "current_score"
             old_value := ex.current_score.map toString
             new_value := ed.current_score.map toString
             ingest_run_id := rid
             observed_at := now }] ∧
        (_upsert_enrollment db ed oid sid pid rid now).status = .updated)
    ∧ (∀ (db : DB) (ed : CourseEnrollmentData) (oid : Nat) (sid : Option Nat) (pid : Nat) (rid : Nat) (now : Int) (ex : Enrollment),
      db.enrollments.find? (fun e => e.canvas_enrollment_id == ed.canvas_enrollment_id) = some ex →
      ex.final_grade ≠ ed.final_grade →
      ex.role = ed.role →
      ex.enrollment_state = ed.enrollment_state →
      ex.current_grade = ed.current_grade →
      ex.current_score = ed.current_score →
      ex.final_score = ed.final_score →
      ex.section_id = sid →
      (_upsert_enrollment db ed oid sid pid rid now).db.change_log = db.change_log ++
          [{ entity_type := .enrollment
             entity_canvas_id := ed.canvas_enrollment_id
             field_name := "final_grade"
             old_value := ex.final_grade.map toString
             new_value := ed.final_grade.map toString
             ingest_run_id := rid
             observed_at := now }] ∧
        (_upsert_enrollment db ed oid sid pid rid now).status = .updated)
    ∧ (∀ (db : DB) (ed : CourseEnrollmentData) (oid : Nat) (sid : Option Nat) (pid : Nat) (rid : Nat) (now : Int) (ex : Enrollment),
      db.enrollments.find? (fun e => e.canvas_enrollment_id == ed.canvas_enrollment_id) = some ex →
      ex.final_score ≠ ed.final_score →
      ex.role = ed.role →
      ex.enrollment_state = ed.enrollment_state →
      ex.current_grade = ed.current_grade →
      ex.current_score = ed.current_score →
      ex.final_grade = ed.final_grade →
      ex.section_id = sid →
      (_upsert_enrollment db ed oid sid pid rid now).db.change_log = db.change_log ++
          [{ entity_type := .enrollment
             entity_canvas_id := ed.canvas_enrollment_id
             field_name := "final_score"
             old_value := ex.final_score.map toString
             new_value := ed.final_score.map toString
             ingest_run_id := rid
             observed_at := now }] ∧
        (_upsert_enrollment db ed oid sid pid rid now).status = .updated)
    ∧ (∀ (db : DB) (ed : CourseEnrollmentData) (oid : Nat) (sid : Option Nat) (pid : Nat) (rid : Nat) (now : Int) (ex : Enrollment),
      db.enrollments.find? (fun e => e.canvas_enrollment_id == ed.canvas_enrollment_id) = some ex →
      ex.section_id ≠ sid →
      ex.role = ed.role →
      ex.enrollment_state = ed.enrollment_state →
      ex.current_grade = ed.current_grade →
      ex.current_score = ed.current_score →
      ex.final_grade = ed.final_grade →
      ex.final_score = ed.final_score →
      (_upsert_enrollment db ed oid sid pid rid now).db.change_log = db.change_log ++
          [{ entity_type := .enrollment
             entity_canvas_id := ed.canvas_enrollment_id
             field_name := "section_id"
             old_value := ex.section_id.map toString
             new_value := sid.map toString
             ingest_run_id := rid
             observed_at := now }] ∧
        (_upsert_enrollment db ed oid sid pid rid now).status = .updated) := by
  refine ⟨?_, ?_, ?_, ?_, ?_, ?_, ?_, ?_, ?_, ?_, ?_, ?_, ?_, ?_, ?_, ?_, ?_, ?_, ?_, ?_, ?_, ?_⟩
  · intro db td rid now ex hfind hdiff h1 h2
    unfold _upsert_term
    rw [hfind]
    dsimp only
    rw [if_pos hdiff,
      if_neg (show ¬(ex.start_date ≠ td.start_date) from fun hh => hh h1),
      if_neg (show ¬(ex.end_date ≠ td.end_date) from fun hh => hh h2)]
    exact ⟨by simp [_record_change], by simp⟩
  · intro db td rid now ex hfind hdiff h1 h2
    unfold _upsert_term
    rw [hfind]
    dsimp only
    rw [if_pos hdiff,
      if_neg (show ¬(ex.name ≠ td.name) from fun hh => hh h1),
      if_neg (show ¬(ex.end_date ≠ td.end_date) from fun hh => hh h2)]
    exact ⟨by simp [_record_change], by simp⟩
  · intro db td rid now ex hfind hdiff h1 h2
    unfold _upsert_term
    rw [hfind]
    dsimp only
    rw [if_pos hdiff,
      if_neg (show ¬(ex.name ≠ td.name) from fun hh => hh h1),
      if_neg (show ¬(ex.start_date ≠ td.start_date) from fun hh => hh h2)]
    exact ⟨by simp [_record_change], by simp⟩
  · intro db cd tid rid now ex hfind hdiff h1 h2 h3
    unfold _upsert_offering
    rw [hfind]
    dsimp only
    rw [if_pos hdiff,
      if_neg (show ¬(ex.code ≠ cd.code) from fun hh => hh h1),
      if_neg (show ¬(ex.workflow_state ≠ cd.workflow_state) from fun hh => hh h2),
      if_neg (show ¬(ex.term_id ≠ tid) from fun hh => hh h3)]
    exact ⟨by simp [_record_change], by simp⟩
  · intro db cd tid rid now ex hfind hdiff h1 h2 h3
    unfold _upsert_offering
    rw [hfind]
    dsimp only
    rw [if_pos hdiff,
      if_neg (show ¬(ex.name ≠ cd.name) from fun hh => hh h1),
      if_neg (show ¬(ex.workflow_state ≠ cd.workflow_state) from fun hh => hh h2),
      if_neg (show ¬(ex.term_id ≠ tid) from fun hh => hh h3)]
    exact ⟨by simp [_record_change], by simp⟩
  · intro db cd tid rid now ex hfind hdiff h1 h2 h3
    unfold _upsert_offering
    rw [hfind]
    dsimp only
    rw [if_pos hdiff,
      if_neg (show ¬(ex.name ≠ cd.name) from fun hh => hh h1),
      if_neg (show ¬(ex.code ≠ cd.code) from fun hh => hh h2),
      if_neg (show ¬(ex.term_id ≠ tid) from fun hh => hh h3)]
    exact ⟨by simp [_record_change], by simp⟩
  · intro db cd tid rid now ex hfind hdiff h1 h2 h3
    unfold _upsert_offering
    rw [hfind]
    dsimp only
    rw [if_pos hdiff,
      if_neg (show ¬(ex.name ≠ cd.name) from fun hh => hh h1),
      if_neg (show ¬(ex.code ≠ cd.code) from fun hh => hh h2),
      if_neg (show ¬(ex.workflow_state ≠ cd.workflow_state) from fun hh => hh h3)]
    exact ⟨by simp [_record_change], by simp⟩
  · intro db eid oid role st rid now ex hfind hdiff h1
    unfold _upsert_user_enrollment
    rw [hfind]
    dsimp only
    rw [if_pos hdiff,
      if_neg (show ¬(ex.enrollment_state ≠ st) from fun hh => hh h1)]
    exact ⟨by simp [_record_change], by simp⟩
  · intro db eid oid role st rid now ex hfind hdiff h1
    unfold _upsert_user_enrollment
    rw [hfind]
    dsimp only
    rw [if_pos hdiff,
      if_neg (show ¬(ex.role ≠ role) from fun hh => hh h1)]
    exact ⟨by simp [_record_change], by simp⟩
  · intro db sd oid rid now ex hfind hdiff h1
    unfold _upsert_section
    rw [hfind]
    dsimp only
    rw [if_pos hdiff,
      if_neg (show ¬(ex.sis_section_id ≠ sd.sis_section_id) from fun hh => hh h1)]
    exact ⟨by simp [_record_change], by simp⟩
  · intro db sd oid rid now ex hfind hdiff h1
    unfold _upsert_section
    rw [hfind]
    dsimp only
    rw [if_pos hdiff,
      if_neg (show ¬(ex.name ≠ sd.name) from fun hh => hh h1)]
    exact ⟨by simp [_record_change], by simp⟩
  · intro db uid nm sn si li rid now ex hfind hdiff h1 h2 h3
    unfold _upsert_person
    rw [hfind]
    dsimp only
    rw [if_pos hdiff,
      if_neg (show ¬(ex.sortable_name ≠ sn) from fun hh => hh h1),
      if_neg (show ¬(ex.sis_user_id ≠ si) from fun hh => hh h2),
      if_neg (show ¬(ex.login_id ≠ li) from fun hh => hh h3)]
    exact ⟨by simp [_record_change], by simp⟩
  · intro db uid nm sn si li rid now ex hfind hdiff h1 h2 h3
    unfold _upsert_person
    rw [hfind]
    dsimp only
    rw [if_pos hdiff,
      if_neg (show ¬(ex.name ≠ nm) from fun hh => hh h1),
      if_neg (show ¬(ex.sis_user_id ≠ si) from fun hh => hh h2),
      if_neg (show ¬(ex.login_id ≠ li) from fun hh => hh h3)]
    exact ⟨by simp [_record_change], by simp⟩
  · intro db uid nm sn si li rid now ex hfind hdiff h1 h2 h3
    unfold _upsert_person
    rw [hfind]
    dsimp only
    rw [if_pos hdiff,
      if_neg (show ¬(ex.name ≠ nm) from fun hh => hh h1),
      if_neg (show ¬(ex.sortable_name ≠ sn) from fun hh => hh h2),
      if_neg (show ¬(ex.login_id ≠ li) from fun hh => hh h3)]
    exact ⟨by simp [_record_change], by simp⟩
  · intro db uid nm sn si li rid now ex hfind hdiff h1 h2 h3
    unfold _upsert_person
    rw [hfind]
    dsimp only
    rw [if_pos hdiff,
      if_neg (show ¬(ex.name ≠ nm) from fun hh => hh h1),
      if_neg (show ¬(ex.sortable_name ≠ sn) from fun hh => hh h2),
      if_neg (show ¬(ex.sis_user_id ≠ si) from fun hh => hh h3)]
    exact ⟨by simp [_record_change], by simp⟩
  · intro db ed oid sid pid rid now ex hfind hdiff h1 h2 h3 h4 h5 h6
    unfold _upsert_enrollment
    rw [hfind]
    dsimp only
    rw [if_pos hdiff,
      if_neg (show ¬(ex.enrollment_state ≠ ed.enrollment_state) from fun hh => hh h1),
      if_neg (show ¬(ex.current_grade ≠ ed.current_grade) from fun hh => hh h2),
      if_neg (show ¬(ex.current_score ≠ ed.current_score) from fun hh => hh h3),
      if_neg (show ¬(ex.final_grade ≠ ed.final_grade) from fun hh => hh h4),
      if_neg (show ¬(ex.final_score ≠ ed.final_score) from fun hh => hh h5),
      if_neg (show ¬(ex.section_id ≠ sid) from fun hh => hh h6)]
    exact ⟨by simp [_record_change], by simp⟩
  · intro db ed oid sid pid rid now ex hfind hdiff h1 h2 h3 h4 h5 h6
    unfold _upsert_enrollment
    rw [hfind]
    dsimp only
    rw [if_pos hdiff,
      if_neg (show ¬(ex.role ≠ ed.role) from fun hh => hh h1),
      if_neg (show ¬(ex.current_grade ≠ ed.current_grade) from fun hh => hh h2),
      if_neg (show ¬(ex.current_score ≠ ed.current_score) from fun hh => hh h3),
      if_neg (show ¬(ex.final_grade ≠ ed.final_grade) from fun hh => hh h4),
      if_neg (show ¬(ex.final_score ≠ ed.final_score) from fun hh => hh h5),
      if_neg (show ¬(ex.section_id ≠ sid) from fun hh => hh h6)]
    exact ⟨by simp [_record_change], by simp⟩
  · intro db ed oid sid pid rid now ex hfind hdiff h1 h2 h3 h4 h5 h6
    unfold _upsert_enrollment
    rw [hfind]
    dsimp only
    rw [if_pos hdiff,
      if_neg (show ¬(ex.role ≠ ed.role) from fun hh => hh h1),
      if_neg (show ¬(ex.enrollment_state ≠ ed.enrollment_state) from fun hh => hh h2),
      if_neg (show ¬(ex.current_score ≠ ed.current_score) from fun hh => hh h3),
      if_neg (show ¬(ex.final_grade ≠ ed.final_grade) from fun hh => hh h4),
      if_neg (show ¬(ex.final_score ≠ ed.final_score) from fun hh => hh h5),
      if_neg (show ¬(ex.section_id ≠ sid) from fun hh => hh h6)]
    exact ⟨by simp [_record_change], by simp⟩
  · intro db ed oid sid pid rid now ex hfind hdiff h1 h2 h3 h4 h5 h6
    unfold _upsert_enrollment
    rw [hfind]
    dsimp only
    rw [if_pos hdiff,
      if_neg (show ¬(ex.role ≠ ed.role) from fun hh => hh h1),
      if_neg (show ¬(ex.enrollment_state ≠ ed.enrollment_state) from fun hh => hh h2),
      if_neg (show ¬(ex.current_grade ≠ ed.current_grade) from fun hh => hh h3),
      if_neg (show ¬(ex.final_grade ≠ ed.final_grade) from fun hh => hh h4),
      if_neg (show ¬(ex.final_score ≠ ed.final_score) from fun hh => hh h5),
      if_neg (show ¬(ex.section_id ≠ sid) from fun hh => hh h6)]
    exact ⟨by simp [_record_change], by simp⟩
  · intro db ed oid sid pid rid now ex hfind hdiff h1 h2 h3 h4 h5 h6
    unfold _upsert_enrollment
    rw [hfind]
    dsimp only
    rw [if_pos hdiff,
      if_neg (show ¬(ex.role ≠ ed.role) from fun hh => hh h1),
      if_neg (show ¬(ex.enrollment_state ≠ ed.enrollment_state) from fun hh => hh h2),
      if_neg (show ¬(ex.current_grade ≠ ed.current_grade) from fun hh => hh h3),
      if_neg (show ¬(ex.current_score ≠ ed.current_score) from fun hh => hh h4),
      if_neg (show ¬(ex.final_score ≠ ed.final_score) from fun hh => hh h5),
      if_neg (show ¬(ex.section_id ≠ sid) from fun hh => hh h6)]
    exact ⟨by simp [_record_change], by simp⟩
  · intro db ed oid sid pid rid now ex hfind hdiff h1 h2 h3 h4 h5 h6
    unfold _upsert_enrollment
    rw [hfind]
    dsimp only
    rw [if_pos hdiff,
      if_neg (show ¬(ex.role ≠ ed.role) from fun hh => hh h1),
      if_neg (show ¬(ex.enrollment_state ≠ ed.enrollment_state) from fun hh => hh h2),
      if_neg (show ¬(ex.current_grade ≠ ed.current_grade) from fun hh => hh h3),
      if_neg (show ¬(ex.current_score ≠ ed.current_score) from fun hh => hh h4),
      if_neg (show ¬(ex.final_grade ≠ ed.final_grade) from fun hh => hh h5),
      if_neg (show ¬(ex.section_id ≠ sid) from fun hh => hh h6)]
    exact ⟨by simp [_record_change], by simp⟩
  · intro db ed oid sid pid rid now ex hfind hdiff h1 h2 h3 h4 h5 h6
    unfold _upsert_enrollment
    rw [hfind]
    dsimp only
    rw [if_pos hdiff,
      if_neg (show ¬(ex.role ≠ ed.role) from fun hh => hh h1),
      if_neg (show ¬(ex.enrollment_state ≠ ed.enrollment_state) from fun hh => hh h2),
      if_neg (show ¬(ex.current_grade ≠ ed.current_grade) from fun hh => hh h3),
      if_neg (show ¬(ex.current_score ≠ ed.current_score) from fun hh => hh h4),
      if_neg (show ¬(ex.final_grade ≠ ed.final_grade) from fun hh => hh h5),
      if_neg (show ¬(ex.final_score ≠ ed.final_score) from fun hh => hh h6)]
    exact ⟨by simp [_record_change], by simp⟩

/-- Witness for C4 at a concrete input: a stored term whose name alone drifts. -/
theorem C4_witness :
    (_upsert_term fixtureTermDB renamedTermData 3 9).db.change_log =
        fixtureTermDB.change_log ++
          [{ entity_type := .term
             entity_canvas_id := renamedTermData.canvas_term_id
             field_name := "name"
             old_value := some (toString fixtureTermRow.name)
             new_value := some (toString renamedTermData.name)
             ingest_run_id := 3
             observed_at := 9 }] ∧
      (_upsert_term fixtureTermDB renamedTermData 3 9).status = .updated :=
  C4_field_diff.1 fixtureTermDB renamedTermData 3 9 fixtureTermRow rfl
    (by decide) rfl rfl

/-- The timestamp invariant is preserved by any sequence of reconciliations
whose timestamps are non-decreasing and start no earlier than the last-seen
horizon of the store. -/
theorem applyOps_time (db : DB) (t0 : Int) (ops : List (ReconOp × Int))
    (hInv : TimeInv db) (hSeen : SeenLE db t0)
    (hChain : List.Chain (fun a b => a ≤ b) t0 (ops.map Prod.snd)) :
    TimeInv (applyOps db ops) := by
  induction ops generalizing db t0 with
  | nil => exact hInv
  | cons p rest ih =>
      rw [List.map_cons, List.chain_cons] at hChain
      have h := applyOp_time db p.1 p.2 hInv (SeenLE_mono db t0 p.2 hSeen hChain.1)
      exact ih (applyOp db p.1 p.2) p.2 h.1 h.2 hChain.2

/-- C8: after any sequence of reconciliations applied at non-decreasing
timestamps to a store in which every record satisfies
observed_at ≤ last_seen_at and none was last seen in the future, every record
of every kind still satisfies observed_at ≤ last_seen_at; moreover each single
reconciliation of an existing record of any of the six kinds sets its
last_seen_at to the current time unconditionally, advances its observed_at to
the current time exactly when at least one tracked field differs from the
stored state (leaving it unchanged otherwise), and classifies the record as
updated exactly in that drift case. -/
theorem C8_timestamps :
    (∀ (db : DB) (t0 : Int) (ops : List (ReconOp × Int)),
        TimeInv db → SeenLE db t0 →
        List.Chain (fun a b => a ≤ b) t0 (ops.map Prod.snd) →
        TimeInv (applyOps db ops)) ∧
    (∀ (db : DB) (td : TermData) (rid : Nat) (now : Int) (ex : Term),
        db.terms.find? (fun t => t.canvas_term_id == td.canvas_term_id) = some ex →
        (_upsert_term db td rid now).record.last_seen_at = now ∧
        (_upsert_term db td rid now).record.observed_at =
          (if termDrift ex td then now else ex.observed_at) ∧
        ((_upsert_term db td rid now).status = .updated ↔ termDrift ex td)) ∧
    (∀ (db : DB) (cd : CourseData) (tid : Option Nat) (rid : Nat) (now : Int) (ex : Offering),
        db.offerings.find? (fun o => o.canvas_course_id == cd.canvas_course_id) = some ex →
        (_upsert_offering db cd tid rid now).record.last_seen_at = now ∧
        (_upsert_offering db cd tid rid now).record.observed_at =
          (if offeringDrift ex cd tid then now else ex.observed_at) ∧
        ((_upsert_offering db cd tid rid now).status = .updated ↔ offeringDrift ex cd tid)) ∧
    (∀ (db : DB) (eid : Int) (oid : Nat) (role st : String) (rid : Nat) (now : Int) (ex : UserEnrollment),
        db.user_enrollments.find? (fun e => e.canvas_enrollment_id == eid) = some ex →
        (_upsert_user_enrollment db eid oid role st rid now).record.last_seen_at = now ∧
        (_upsert_user_enrollment db eid oid role st rid now).record.observed_at =
          (if userEnrDrift ex role st then now else ex.observed_at) ∧
        ((_upsert_user_enrollment db eid oid role st rid now).status = .updated ↔ userEnrDrift ex role st)) ∧
    (∀ (db : DB) (sd : SectionData) (oid : Nat) (rid : Nat) (now : Int) (ex : Section),
        db.sections.find? (fun s => s.canvas_section_id == sd.canvas_section_id) = some ex →
        (_upsert_section db sd oid rid now).record.last_seen_at = now ∧
        (_upsert_section db sd oid rid now).record.observed_at =
          (if sectionDrift ex sd then now else ex.observed_at) ∧
        ((_upsert_section db sd oid rid now).status = .updated ↔ sectionDrift ex sd)) ∧
    (∀ (db : DB) (uid : Int) (nm : String) (sn si li : Option String) (rid : Nat) (now : Int) (ex : Person),
        db.persons.find? (fun p => p.canvas_user_id == uid) = some ex →
        (_upsert_person db uid nm sn si li rid now).record.last_seen_at = now ∧
        (_upsert_person db uid nm sn si li rid now).record.observed_at =
          (if personDrift ex nm sn si li then now else ex.observed_at) ∧
        ((_upsert_person db uid nm sn si li rid now).status = .updated ↔ personDrift ex nm sn si li)) ∧
    (∀ (db : DB) (ed : CourseEnrollmentData) (oid : Nat) (sid : Option Nat) (pid : Nat) (rid : Nat) (now : Int) (ex : Enrollment),
        db.enrollments.find? (fun e => e.canvas_enrollment_id == ed.canvas_enrollment_id) = some ex →
        (_upsert_enrollment db ed oid sid pid rid now).record.last_seen_at = now ∧
        (_upsert_enrollment db ed oid sid pid rid now).record.observed_at =
          (if enrollmentDrift ex ed sid then now else ex.observed_at) ∧
        ((_upsert_enrollment db ed oid sid pid rid now).status = .updated ↔ enrollmentDrift ex ed sid)) :=
  ⟨applyOps_time, upsert_term_observed, upsert_offering_observed,
    upsert_userEnr_observed, upsert_section_observed, upsert_person_observed,
    upsert_enr_observed⟩

/-- Witness for C8 at a concrete input: one stored term reconciled once, at a
later time, under a changed name. -/
theorem C8_witness :
    TimeInv (applyOps fixtureTermDB [(ReconOp.term renamedTermData 1, 5)]) ∧
    (_upsert_term fixtureTermDB renamedTermData 1 5).record.last_seen_at = 5 ∧
    (_upsert_term fixtureTermDB renamedTermData 1 5).record.observed_at =
      (if termDrift fixtureTermRow renamedTermData then 5
       else fixtureTermRow.observed_at) ∧
    ((_upsert_term fixtureTermDB renamedTermData 1 5).status = .updated ↔
      termDrift fixtureTermRow renamedTermData) := by
  have h := C8_timestamps
  refine ⟨?_, ?_⟩
  · exact h.1 fixtureTermDB 0 [(ReconOp.term renamedTermData 1, 5)]
      (by unfold TimeInv; decide) (by unfold SeenLE; decide)
      (List.Chain.cons (by decide) List.Chain.nil)
  · exact h.2.1 fixtureTermDB renamedTermData 1 5 fixtureTermRow rfl

/-- find? on a cons whose head satisfies the predicate, with the predicate
explicit. -/
theorem find_cons_pos {α : Type} (p : α → Bool) (a : α) (l : List α)
    (h : p a = true) : (a :: l).find? p = some a :=
  List.find?_cons_of_pos l h

/-- find? on a cons whose head fails the predicate, with the predicate
explicit. -/
theorem find_cons_neg {α : Type} (p : α → Bool) (a : α) (l : List α)
    (h : p a = false) : (a :: l).find? p = l.find? p :=
  List.find?_cons_of_neg l (by simp [h])

/-- find? over a one-element append. -/
theorem find_append_one {α : Type} (p : α → Bool) (l : List α) (x : α) :
    (l ++ [x]).find? p =
      match l.find? p with
      | some a => some a
      | none => if p x then some x else none := by
  induction l with
  | nil =>
      cases h : p x
      · simp [find_cons_neg p x [] h, h]
      · simp [find_cons_pos p x [] h, h]
  | cons a l ih =>
      cases h : p a
      · rw [List.cons_append, find_cons_neg p a (l ++ [x]) h, find_cons_neg p a l h]
        exact ih
      · rw [List.cons_append, find_cons_pos p a (l ++ [x]) h, find_cons_pos p a l h]

/-- Replacing the rows of one key leaves lookups of any other key unchanged. -/
theorem find_updByKey_other {α : Type} (key : α → Int) (k k2 : Int) (new : α)
    (l : List α) (hk : key new = k) (hne : k ≠ k2) :
    (updByKey key k new l).find? (fun a => key a == k2)
      = l.find? (fun a => key a == k2) := by
  induction l with
  | nil => rfl
  | cons a l ih =>
      simp only [updByKey, List.map_cons]
      by_cases h : (key a == k) = true
      · rw [if_pos h]
        have ha : key a = k := by simpa using h
        rw [find_cons_neg (fun a => key a == k2) new _ (by simp [hk, hne])]
        rw [find_cons_neg (fun a => key a == k2) a _ (by simp [ha, hne])]
        exact ih
      · rw [if_neg h]
        by_cases h2 : (key a == k2) = true
        · rw [find_cons_pos (fun a => key a == k2) a _ h2,
            find_cons_pos (fun a => key a == k2) a _ h2]
        · rw [find_cons_neg (fun a => key a == k2) a _ (by simpa using h2),
            find_cons_neg (fun a => key a == k2) a _ (by simpa using h2)]
          exact ih

/-- Replacing the rows of a found key makes its lookup return the replacement. -/
theorem find_updByKey_self {α : Type} (key : α → Int) (k : Int) (new : α)
    (l : List α) (ex : α) (hk : key new = k)
    (hfind : l.find? (fun a => key a == k) = some ex) :
    (updByKey key k new l).find? (fun a => key a == k) = some new := by
  induction l with
  | nil => simp [List.find?] at hfind
  | cons a l ih =>
      simp only [updByKey, List.map_cons]
      by_cases h : (key a == k) = true
      · rw [if_pos h]
        rw [find_cons_pos (fun a => key a == k) new _ (by simp [hk])]
      · rw [if_neg h]
        rw [find_cons_neg (fun a => key a == k) a _ (by simpa using h)]
        rw [find_cons_neg (fun a => key a == k) a _ (by simpa using h)] at hfind
        exact ih hfind

/-- Lookup through a Python dict insert. -/
theorem lookup_dictInsert (k : Int) (v : Nat) (m : List (Int × Nat)) (k2 : Int) :
    (dictInsert k v m).lookup k2 = if k2 = k then some v else m.lookup k2 := by
  induction m with
  | nil =>
      by_cases h : k2 = k
      · simp [dictInsert, List.lookup, h]
      · have hf : (k2 == k) = false := by simp [h]
        simp [dictInsert, List.lookup, hf, h]
  | cons p m ih =>
      simp only [dictInsert, List.filter_cons] at ih ⊢
      by_cases hp : p.1 = k
      · rw [if_neg (show ¬((p.1 != k) = true) by simp [hp])]
        rw [ih]
        by_cases h : k2 = k
        · simp [h]
        · have hf : (k2 == p.1) = false := by simp [hp, h]
          simp [List.lookup, hf, h]
      · rw [if_pos (show (p.1 != k) = true by simp [hp])]
        simp only [List.cons_append]
        by_cases h2 : k2 = p.1
        · have hkk : ¬(k2 = k) := by rw [h2]; exact hp
          have ht : (k2 == p.1) = true := by simp [h2]
          simp [List.lookup, ht, hkk]
        · have hf : (k2 == p.1) = false := by simp [h2]
          simp only [List.lookup, hf]
          exact ih

/-- Shape of a found-case term upsert: the table is a keyed replacement
by the returned record, which stores the observed fields and keeps the stored
row id. -/
theorem upsert_term_found (db : DB) (td : TermData) (rid : Nat) (now : Int)
    (ex : Term) (hfind : db.terms.find? (fun t => t.canvas_term_id == td.canvas_term_id) = some ex) :
    (_upsert_term db td rid now).db.terms
      = updByKey Term.canvas_term_id td.canvas_term_id
          (_upsert_term db td rid now).record db.terms ∧
    (_upsert_term db td rid now).record.canvas_term_id = td.canvas_term_id ∧
    (_upsert_term db td rid now).record.name = td.name ∧
    (_upsert_term db td rid now).record.start_date = td.start_date ∧
    (_upsert_term db td rid now).record.end_date = td.end_date ∧
    (_upsert_term db td rid now).record.id = ex.id := by
  have hkey : ex.canvas_term_id = td.canvas_term_id := by simpa using List.find?_some hfind
  unfold _upsert_term
  rw [hfind]
  dsimp only
  exact ⟨rfl, hkey, rfl, rfl, rfl, rfl⟩

/-- Shape of a create-case term upsert: the table gains the returned
record at the end, and the record stores the observed fields. -/
theorem upsert_term_created (db : DB) (td : TermData) (rid : Nat) (now : Int)
    (hfind : db.terms.find? (fun t => t.canvas_term_id == td.canvas_term_id) = none) :
    (_upsert_term db td rid now).db.terms = db.terms ++ [(_upsert_term db td rid now).record] ∧
    (_upsert_term db td rid now).record.canvas_term_id = td.canvas_term_id ∧
    (_upsert_term db td rid now).record.name = td.name ∧
    (_upsert_term db td rid now).record.start_date = td.start_date ∧
    (_upsert_term db td rid now).record.end_date = td.end_date := by
  unfold _upsert_term
  rw [hfind]
  dsimp only
  exact ⟨rfl, rfl, rfl, rfl, rfl⟩

/-- A found-case term upsert whose observed fields all equal the stored
ones is classified unchanged and appends nothing to the change log. -/
theorem upsert_term_unch (db : DB) (td : TermData) (rid : Nat) (now : Int)
    (ex : Term) (hfind : db.terms.find? (fun t => t.canvas_term_id == td.canvas_term_id) = some ex)
    (h1 : ex.name = td.name) (h2 : ex.start_date = td.start_date) (h3 : ex.end_date = td.end_date) :
    (_upsert_term db td rid now).status = .unchanged ∧
    (_upsert_term db td rid now).db.change_log = db.change_log := by
  unfold _upsert_term
  rw [hfind]
  dsimp only
  rw [if_neg (show ¬(ex.name ≠ td.name) from fun hh => hh h1),
    if_neg (show ¬(ex.start_date ≠ td.start_date) from fun hh => hh h2),
    if_neg (show ¬(ex.end_date ≠ td.end_date) from fun hh => hh h3)]
  exact ⟨by simp, by simp⟩

/-- Shape of a found-case offering upsert: the table is a keyed replacement
by the returned record, which stores the observed fields and keeps the stored
row id. -/
theorem upsert_offering_found (db : DB) (cd : CourseData) (tid : Option Nat) (rid : Nat) (now : Int)
    (ex : Offering) (hfind : db.offerings.find? (fun o => o.canvas_course_id == cd.canvas_course_id) = some ex) :
    (_upsert_offering db cd tid rid now).db.offerings
      = updByKey Offering.canvas_course_id cd.canvas_course_id
          (_upsert_offering db cd tid rid now).record db.offerings ∧
    (_upsert_offering db cd tid rid now).record.canvas_course_id = cd.canvas_course_id ∧
    (_upsert_offering db cd tid rid now).record.name = cd.name ∧
    (_upsert_offering db cd tid rid now).record.code = cd.code ∧
    (_upsert_offering db cd tid rid now).record.workflow_state = cd.workflow_state ∧
    (_upsert_offering db cd tid rid now).record.term_id = tid ∧
    (_upsert_offering db cd tid rid now).record.id = ex.id := by
  have hkey : ex.canvas_course_id = cd.canvas_course_id := by simpa using List.find?_some hfind
  unfold _upsert_offering
  rw [hfind]
  dsimp only
  exact ⟨rfl, hkey, rfl, rfl, rfl, rfl, rfl⟩

/-- Shape of a create-case offering upsert: the table gains the returned
record at the end, and the record stores the observed fields. -/
theorem upsert_offering_created (db : DB) (cd : CourseData) (tid : Option Nat) (rid : Nat) (now : Int)
    (hfind : db.offerings.find? (fun o => o.canvas_course_id == cd.canvas_course_id) = none) :
    (_upsert_offering db cd tid rid now).db.offerings = db.offerings ++ [(_upsert_offering db cd tid rid now).record] ∧
    (_upsert_offering db cd tid rid now).record.canvas_course_id = cd.canvas_course_id ∧
    (_upsert_offering db cd tid rid now).record.name = cd.name ∧
    (_upsert_offering db cd tid rid now).record.code = cd.code ∧
    (_upsert_offering db cd tid rid now).record.workflow_state = cd.workflow_state ∧
    (_upsert_offering db cd tid rid now).record.term_id = tid := by
  unfold _upsert_offering
  rw [hfind]
  dsimp only
  exact ⟨rfl, rfl, rfl, rfl, rfl, rfl⟩

/-- A found-case offering upsert whose observed fields all equal the stored
ones is classified unchanged and appends nothing to the change log. -/
theorem upsert_offering_unch (db : DB) (cd : CourseData) (tid : Option Nat) (rid : Nat) (now : Int)
    (ex : Offering) (hfind : db.offerings.find? (fun o => o.canvas_course_id == cd.canvas_course_id) = some ex)
    (h1 : ex.name = cd.name) (h2 : ex.code = cd.code) (h3 : ex.workflow_state = cd.workflow_state) (h4 : ex.term_id = tid) :
    (_upsert_offering db cd tid rid now).status = .unchanged ∧
    (_upsert_offering db cd tid rid now).db.change_log = db.change_log := by
  unfold _upsert_offering
  rw [hfind]
  dsimp only
  rw [if_neg (show ¬(ex.name ≠ cd.name) from fun hh => hh h1),
    if_neg (show ¬(ex.code ≠ cd.code) from fun hh => hh h2),
    if_neg (show ¬(ex.workflow_state ≠ cd.workflow_state) from fun hh => hh h3),
    if_neg (show ¬(ex.term_id ≠ tid) from fun hh => hh h4)]
  exact ⟨by simp, by simp⟩

/-- Shape of a found-case userEnr upsert: the table is a keyed replacement
by the returned record, which stores the observed fields and keeps the stored
row id. -/
theorem upsert_userEnr_found (db : DB) (eid : Int) (oid : Nat) (role st : String) (rid : Nat) (now : Int)
    (ex : UserEnrollment) (hfind : db.user_enrollments.find? (fun e => e.canvas_enrollment_id == eid) = some ex) :
    (_upsert_user_enrollment db eid oid role st rid now).db.user_enrollments
      = updByKey UserEnrollment.canvas_enrollment_id eid
          (_upsert_user_enrollment db eid oid role st rid now).record db.user_enrollments ∧
    (_upsert_user_enrollment db eid oid role st rid now).record.canvas_enrollment_id = eid ∧
    (_upsert_user_enrollment db eid oid role st rid now).record.role = role ∧
    (_upsert_user_enrollment db eid oid role st rid now).record.enrollment_state = st ∧
    (_upsert_user_enrollment db eid oid role st rid now).record.id = ex.id := by
  have hkey : ex.canvas_enrollment_id = eid := by simpa using List.find?_some hfind
  unfold _upsert_user_enrollment
  rw [hfind]
  dsimp only
  exact ⟨rfl, hkey, rfl, rfl, rfl⟩

/-- Shape of a create-case userEnr upsert: the table gains the returned
record at the end, and the record stores the observed fields. -/
theorem upsert_userEnr_created (db : DB) (eid : Int) (oid : Nat) (role st : String) (rid : Nat) (now : Int)
    (hfind : db.user_enrollments.find? (fun e => e.canvas_enrollment_id == eid) = none) :
    (_upsert_user_enrollment db eid oid role st rid now).db.user_enrollments = db.user_enrollments ++ [(_upsert_user_enrollment db eid oid role st rid now).record] ∧
    (_upsert_user_enrollment db eid oid role st rid now).record.canvas_enrollment_id = eid ∧
    (_upsert_user_enrollment db eid oid role st rid now).record.role = role ∧
    (_upsert_user_enrollment db eid oid role st rid now).record.enrollment_state = st := by
  unfold _upsert_user_enrollment
  rw [hfind]
  dsimp only
  exact ⟨rfl, rfl, rfl, rfl⟩

/-- A found-case userEnr upsert whose observed fields all equal the stored
ones is classified unchanged and appends nothing to the change log. -/
theorem upsert_userEnr_unch (db : DB) (eid : Int) (oid : Nat) (role st : String) (rid : Nat) (now : Int)
    (ex : UserEnrollment) (hfind : db.user_enrollments.find? (fun e => e.canvas_enrollment_id == eid) = some ex)
    (h1 : ex.role = role) (h2 : ex.enrollment_state = st) :
    (_upsert_user_enrollment db eid oid role st rid now).status = .unchanged ∧
    (_upsert_user_enrollment db eid oid role st rid now).db.change_log = db.change_log := by
  unfold _upsert_user_enrollment
  rw [hfind]
  dsimp only
  rw [if_neg (show ¬(ex.role ≠ role) from fun hh => hh h1),
    if_neg (show ¬(ex.enrollment_state ≠ st) from fun hh => hh h2)]
  exact ⟨by simp, by simp⟩

/-- Shape of a found-case section upsert: the table is a keyed replacement
by the returned record, which stores the observed fields and keeps the stored
row id. -/
theorem upsert_section_found (db : DB) (sd : SectionData) (oid : Nat) (rid : Nat) (now : Int)
    (ex : Section) (hfind : db.sections.find? (fun s => s.canvas_section_id == sd.canvas_section_id) = some ex) :
    (_upsert_section db sd oid rid now).db.sections
      = updByKey Section.canvas_section_id sd.canvas_section_id
          (_upsert_section db sd oid rid now).record db.sections ∧
    (_upsert_section db sd oid rid now).record.canvas_section_id = sd.canvas_section_id ∧
    (_upsert_section db sd oid rid now).record.name = sd.name ∧
    (_upsert_section db sd oid rid now).record.sis_section_id = sd.sis_section_id ∧
    (_upsert_section db sd oid rid now).record.id = ex.id := by
  have hkey : ex.canvas_section_id = sd.canvas_section_id := by simpa using List.find?_some hfind
  unfold _upsert_section
  rw [hfind]
  dsimp only
  exact ⟨rfl, hkey, rfl, rfl, rfl⟩

/-- Shape of a create-case section upsert: the table gains the returned
record at the end, and the record stores the observed fields. -/
theorem upsert_section_created (db : DB) (sd : SectionData) (oid : Nat) (rid : Nat) (now : Int)
    (hfind : db.sections.find? (fun s => s.canvas_section_id == sd.canvas_section_id) = none) :
    (_upsert_section db sd oid rid now).db.sections = db.sections ++ [(_upsert_section db sd oid rid now).record] ∧
    (_upsert_section db sd oid rid now).record.canvas_section_id = sd.canvas_section_id ∧
    (_upsert_section db sd oid rid now).record.name = sd.name ∧
    (_upsert_section db sd oid rid now).record.sis_section_id = sd.sis_section_id := by
  unfold _upsert_section
  rw [hfind]
  dsimp only
  exact ⟨rfl, rfl, rfl, rfl⟩

/-- A found-case section upsert whose observed fields all equal the stored
ones is classified unchanged and appends nothing to the change log. -/
theorem upsert_section_unch (db : DB) (sd : SectionData) (oid : Nat) (rid : Nat) (now : Int)
    (ex : Section) (hfind : db.sections.find? (fun s => s.canvas_section_id == sd.canvas_section_id) = some ex)
    (h1 : ex.name = sd.name) (h2 : ex.sis_section_id = sd.sis_section_id) :
    (_upsert_section db sd oid rid now).status = .unchanged ∧
    (_upsert_section db sd oid rid now).db.change_log = db.change_log := by
  unfold _upsert_section
  rw [hfind]
  dsimp only
  rw [if_neg (show ¬(ex.name ≠ sd.name) from fun hh => hh h1),
    if_neg (show ¬(ex.sis_section_id ≠ sd.sis_section_id) from fun hh => hh h2)]
  exact ⟨by simp, by simp⟩

/-- Shape of a found-case person upsert: the table is a keyed replacement
by the returned record, which stores the observed fields and keeps the stored
row id. -/
theorem upsert_person_found (db : DB) (uid : Int) (nm : String) (sn si li : Option String) (rid : Nat) (now : Int)
    (ex : Person) (hfind : db.persons.find? (fun p => p.canvas_user_id == uid) = some ex) :
    (_upsert_person db uid nm sn si li rid now).db.persons
      = updByKey Person.canvas_user_id uid
          (_upsert_person db uid nm sn si li rid now).record db.persons ∧
    (_upsert_person db uid nm sn si li rid now).record.canvas_user_id = uid ∧
    (_upsert_person db uid nm sn si li rid now).record.name = nm ∧
    (_upsert_person db uid nm sn si li rid now).record.sortable_name = sn ∧
    (_upsert_person db uid nm sn si li rid now).record.sis_user_id = si ∧
    (_upsert_person db uid nm sn si li rid now).record.login_id = li ∧
    (_upsert_person db uid nm sn si li rid now).record.id = ex.id := by
  have hkey : ex.canvas_user_id = uid := by simpa using List.find?_some hfind
  unfold _upsert_person
  rw [hfind]
  dsimp only
  exact ⟨rfl, hkey, rfl, rfl, rfl, rfl, rfl⟩

/-- Shape of a create-case person upsert: the table gains the returned
record at the end, and the record stores the observed fields. -/
theorem upsert_person_created (db : DB) (uid : Int) (nm : String) (sn si li : Option String) (rid : Nat) (now : Int)
    (hfind : db.persons.find? (fun p => p.canvas_user_id == uid) = none) :
    (_upsert_person db uid nm sn si li rid now).db.persons = db.persons ++ [(_upsert_person db uid nm sn si li rid now).record] ∧
    (_upsert_person db uid nm sn si li rid now).record.canvas_user_id = uid ∧
    (_upsert_person db uid nm sn si li rid now).record.name = nm ∧
    (_upsert_person db uid nm sn si li rid now).record.sortable_name = sn ∧
    (_upsert_person db uid nm sn si li rid now).record.sis_user_id = si ∧
    (_upsert_person db uid nm sn si li rid now).record.login_id = li := by
  unfold _upsert_person
  rw [hfind]
  dsimp only
  exact ⟨rfl, rfl, rfl, rfl, rfl, rfl⟩

/-- A found-case person upsert whose observed fields all equal the stored
ones is classified unchanged and appends nothing to the change log. -/
theorem upsert_person_unch (db : DB) (uid : Int) (nm : String) (sn si li : Option String) (rid : Nat) (now : Int)
    (ex : Person) (hfind : db.persons.find? (fun p => p.canvas_user_id == uid) = some ex)
    (h1 : ex.name = nm) (h2 : ex.sortable_name = sn) (h3 : ex.sis_user_id = si) (h4 : ex.login_id = li) :
    (_upsert_person db uid nm sn si li rid now).status = .unchanged ∧
    (_upsert_person db uid nm sn si li rid now).db.change_log = db.change_log := by
  unfold _upsert_person
  rw [hfind]
  dsimp only
  rw [if_neg (show ¬(ex.name ≠ nm) from fun hh => hh h1),
    if_neg (show ¬(ex.sortable_name ≠ sn) from fun hh => hh h2),
    if_neg (show ¬(ex.sis_user_id ≠ si) from fun hh => hh h3),
    if_neg (show ¬(ex.login_id ≠ li) from fun hh => hh h4)]
  exact ⟨by simp, by simp⟩

/-- Shape of a found-case enr upsert: the table is a keyed replacement
by the returned record, which stores the observed fields and keeps the stored
row id. -/
theorem upsert_enr_found (db : DB) (ed : CourseEnrollmentData) (oid : Nat) (sid : Option Nat) (pid : Nat) (rid : Nat) (now : Int)
    (ex : Enrollment) (hfind : db.enrollments.find? (fun e => e.canvas_enrollment_id == ed.canvas_enrollment_id) = some ex) :
    (_upsert_enrollment db ed oid sid pid rid now).db.enrollments
      = updByKey Enrollment.canvas_enrollment_id ed.canvas_enrollment_id
          (_upsert_enrollment db ed oid sid pid rid now).record db.enrollments ∧
    (_upsert_enrollment db ed oid sid pid rid now).record.canvas_enrollment_id = ed.canvas_enrollment_id ∧
    (_upsert_enrollment db ed oid sid pid rid now).record.role = ed.role ∧
    (_upsert_enrollment db ed oid sid pid rid now).record.enrollment_state = ed.enrollment_state ∧
    (_upsert_enrollment db ed oid sid pid rid now).record.current_grade = ed.current_grade ∧
    (_upsert_enrollment db ed oid sid pid rid now).record.current_score = ed.current_score ∧
    (_upsert_enrollment db ed oid sid pid rid now).record.final_grade = ed.final_grade ∧
    (_upsert_enrollment db ed oid sid pid rid now).record.final_score = ed.final_score ∧
    (_upsert_enrollment db ed oid sid pid rid now).record.section_id = sid ∧
    (_upsert_enrollment db ed oid sid pid rid now).record.id = ex.id := by
  have hkey : ex.canvas_enrollment_id = ed.canvas_enrollment_id := by simpa using List.find?_some hfind
  unfold _upsert_enrollment
  rw [hfind]
  dsimp only
  exact ⟨rfl, hkey, rfl, rfl, rfl, rfl, rfl, rfl, rfl, rfl⟩

/-- Shape of a create-case enr upsert: the table gains the returned
record at the end, and the record stores the observed fields. -/
theorem upsert_enr_created (db : DB) (ed : CourseEnrollmentData) (oid : Nat) (sid : Option Nat) (pid : Nat) (rid : Nat) (now : Int)
    (hfind : db.enrollments.find? (fun e => e.canvas_enrollment_id == ed.canvas_enrollment_id) = none) :
    (_upsert_enrollment db ed oid sid pid rid now).db.enrollments = db.enrollments ++ [(_upsert_enrollment db ed oid sid pid rid now).record] ∧
    (_upsert_enrollment db ed oid sid pid rid now).record.canvas_enrollment_id = ed.canvas_enrollment_id ∧
    (_upsert_enrollment db ed oid sid pid rid now).record.role = ed.role ∧
    (_upsert_enrollment db ed oid sid pid rid now).record.enrollment_state = ed.enrollment_state ∧
    (_upsert_enrollment db ed oid sid pid rid now).record.current_grade = ed.current_grade ∧
    (_upsert_enrollment db ed oid sid pid rid now).record.current_score = ed.current_score ∧
    (_upsert_enrollment db ed oid sid pid rid now).record.final_grade = ed.final_grade ∧
    (_upsert_enrollment db ed oid sid pid rid now).record.final_score = ed.final_score ∧
    (_upsert_enrollment db ed oid sid pid rid now).record.section_id = sid := by
  unfold _upsert_enrollment
  rw [hfind]
  dsimp only
  exact ⟨rfl, rfl, rfl, rfl, rfl, rfl, rfl, rfl, rfl⟩

/-- A found-case enr upsert whose observed fields all equal the stored
ones is classified unchanged and appends nothing to the change log. -/
theorem upsert_enr_unch (db : DB) (ed : CourseEnrollmentData) (oid : Nat) (sid : Option Nat) (pid : Nat) (rid : Nat) (now : Int)
    (ex : Enrollment) (hfind : db.enrollments.find? (fun e => e.canvas_enrollment_id == ed.canvas_enrollment_id) = some ex)
    (h1 : ex.role = ed.role) (h2 : ex.enrollment_state = ed.enrollment_state) (h3 : ex.current_grade = ed.current_grade) (h4 : ex.current_score = ed.current_score) (h5 : ex.final_grade = ed.final_grade) (h6 : ex.final_score = ed.final_score) (h7 : ex.section_id = sid) :
    (_upsert_enrollment db ed oid sid pid rid now).status = .unchanged ∧
    (_upsert_enrollment db ed oid sid pid rid now).db.change_log = db.change_log := by
  unfold _upsert_enrollment
  rw [hfind]
  dsimp only
  rw [if_neg (show ¬(ex.role ≠ ed.role) from fun hh => hh h1),
    if_neg (show ¬(ex.enrollment_state ≠ ed.enrollment_state) from fun hh => hh h2),
    if_neg (show ¬(ex.current_grade ≠ ed.current_grade) from fun hh => hh h3),
    if_neg (show ¬(ex.current_score ≠ ed.current_score) from fun hh => hh h4),
    if_neg (show ¬(ex.final_grade ≠ ed.final_grade) from fun hh => hh h5),
    if_neg (show ¬(ex.final_score ≠ ed.final_score) from fun hh => hh h6),
    if_neg (show ¬(ex.section_id ≠ sid) from fun hh => hh h7)]
  exact ⟨by simp, by simp⟩

/-- After a term upsert: the row keyed by the observed id stores the
observed fields and carries the returned record id, rows of other keys are
untouched, and a previously stored row keeps its id. -/
theorem upsert_term_run1 (db : DB) (td : TermData) (rid : Nat) (now : Int) :
    (∃ t, (_upsert_term db td rid now).db.terms.find?
        (fun x => x.canvas_term_id == td.canvas_term_id) = some t ∧
      t.name = td.name ∧
      t.start_date = td.start_date ∧
      t.end_date = td.end_date ∧
      t.id = (_upsert_term db td rid now).record.id) ∧
    (∀ k2, k2 ≠ td.canvas_term_id →
      (_upsert_term db td rid now).db.terms.find? (fun x => x.canvas_term_id == k2)
        = db.terms.find? (fun x => x.canvas_term_id == k2)) ∧
    (∀ t0, db.terms.find? (fun t => t.canvas_term_id == td.canvas_term_id) = some t0 →
      t0.id = (_upsert_term db td rid now).record.id) := by
  cases hfind : db.terms.find? (fun t => t.canvas_term_id == td.canvas_term_id) with
  | some ex =>
      obtain ⟨htab, hkey, hf1, hf2, hf3, hid⟩ :=
        upsert_term_found db td rid now ex hfind
      refine ⟨?_, ?_, ?_⟩
      · exact ⟨_, by
          rw [htab]
          exact find_updByKey_self Term.canvas_term_id td.canvas_term_id _
            db.terms ex hkey hfind, hf1, hf2, hf3, rfl⟩
      · intro k2 hk2
        rw [htab]
        exact find_updByKey_other Term.canvas_term_id td.canvas_term_id k2 _
          db.terms hkey (Ne.symm hk2)
      · intro t0 h0
        cases h0
        exact hid.symm
  | none =>
      obtain ⟨htab, hkey, hf1, hf2, hf3⟩ :=
        upsert_term_created db td rid now hfind
      refine ⟨?_, ?_, ?_⟩
      · refine ⟨_, ?_, hf1, hf2, hf3, rfl⟩
        rw [htab, find_append_one, hfind]
        dsimp only
        rw [if_pos (by simp [hkey])]
      · intro k2 hk2
        rw [htab, find_append_one]
        cases h2 : db.terms.find? (fun x => x.canvas_term_id == k2) with
        | some a => rfl
        | none =>
            dsimp only
            rw [if_neg (by simp [hkey, Ne.symm hk2])]
      · intro t0 h0
        exact Option.noConfusion h0

/-- After a offering upsert: the row keyed by the observed id stores the
observed fields and carries the returned record id, rows of other keys are
untouched, and a previously stored row keeps its id. -/
theorem upsert_offering_run1 (db : DB) (cd : CourseData) (tid : Option Nat) (rid : Nat) (now : Int) :
    (∃ t, (_upsert_offering db cd tid rid now).db.offerings.find?
        (fun x => x.canvas_course_id == cd.canvas_course_id) = some t ∧
      t.name = cd.name ∧
      t.code = cd.code ∧
      t.workflow_state = cd.workflow_state ∧
      t.term_id = tid ∧
      t.id = (_upsert_offering db cd tid rid now).record.id) ∧
    (∀ k2, k2 ≠ cd.canvas_course_id →
      (_upsert_offering db cd tid rid now).db.offerings.find? (fun x => x.canvas_course_id == k2)
        = db.offerings.find? (fun x => x.canvas_course_id == k2)) ∧
    (∀ t0, db.offerings.find? (fun o => o.canvas_course_id == cd.canvas_course_id) = some t0 →
      t0.id = (_upsert_offering db cd tid rid now).record.id) := by
  cases hfind : db.offerings.find? (fun o => o.canvas_course_id == cd.canvas_course_id) with
  | some ex =>
      obtain ⟨htab, hkey, hf1, hf2, hf3, hf4, hid⟩ :=
        upsert_offering_found db cd tid rid now ex hfind
      refine ⟨?_, ?_, ?_⟩
      · exact ⟨_, by
          rw [htab]
          exact find_updByKey_self Offering.canvas_course_id cd.canvas_course_id _
            db.offerings ex hkey hfind, hf1, hf2, hf3, hf4, rfl⟩
      · intro k2 hk2
        rw [htab]
        exact find_updByKey_other Offering.canvas_course_id cd.canvas_course_id k2 _
          db.offerings hkey (Ne.symm hk2)
      · intro t0 h0
        cases h0
        exact hid.symm
  | none =>
      obtain ⟨htab, hkey, hf1, hf2, hf3, hf4⟩ :=
        upsert_offering_created db cd tid rid now hfind
      refine ⟨?_, ?_, ?_⟩
      · refine ⟨_, ?_, hf1, hf2, hf3, hf4, rfl⟩
        rw [htab, find_append_one, hfind]
        dsimp only
        rw [if_pos (by simp [hkey])]
      · intro k2 hk2
        rw [htab, find_append_one]
        cases h2 : db.offerings.find? (fun x => x.canvas_course_id == k2) with
        | some a => rfl
        | none =>
            dsimp only
            rw [if_neg (by simp [hkey, Ne.symm hk2])]
      · intro t0 h0
        exact Option.noConfusion h0

/-- After a userEnr upsert: the row keyed by the observed id stores the
observed fields and carries the returned record id, rows of other keys are
untouched, and a previously stored row keeps its id. -/
theorem upsert_userEnr_run1 (db : DB) (eid : Int) (oid : Nat) (role st : String) (rid : Nat) (now : Int) :
    (∃ t, (_upsert_user_enrollment db eid oid role st rid now).db.user_enrollments.find?
        (fun x => x.canvas_enrollment_id == eid) = some t ∧
      t.role = role ∧
      t.enrollment_state = st ∧
      t.id = (_upsert_user_enrollment db eid oid role st rid now).record.id) ∧
    (∀ k2, k2 ≠ eid →
      (_upsert_user_enrollment db eid oid role st rid now).db.user_enrollments.find? (fun x => x.canvas_enrollment_id == k2)
        = db.user_enrollments.find? (fun x => x.canvas_enrollment_id == k2)) ∧
    (∀ t0, db.user_enrollments.find? (fun e => e.canvas_enrollment_id == eid) = some t0 →
      t0.id = (_upsert_user_enrollment db eid oid role st rid now).record.id) := by
  cases hfind : db.user_enrollments.find? (fun e => e.canvas_enrollment_id == eid) with
  | some ex =>
      obtain ⟨htab, hkey, hf1, hf2, hid⟩ :=
        upsert_userEnr_found db eid oid role st rid now ex hfind
      refine ⟨?_, ?_, ?_⟩
      · exact ⟨_, by
          rw [htab]
          exact find_updByKey_self UserEnrollment.canvas_enrollment_id eid _
            db.user_enrollments ex hkey hfind, hf1, hf2, rfl⟩
      · intro k2 hk2
        rw [htab]
        exact find_updByKey_other UserEnrollment.canvas_enrollment_id eid k2 _
          db.user_enrollments hkey (Ne.symm hk2)
      · intro t0 h0
        cases h0
        exact hid.symm
  | none =>
      obtain ⟨htab, hkey, hf1, hf2⟩ :=
        upsert_userEnr_created db eid oid role st rid now hfind
      refine ⟨?_, ?_, ?_⟩
      · refine ⟨_, ?_, hf1, hf2, rfl⟩
        rw [htab, find_append_one, hfind]
        dsimp only
        rw [if_pos (by simp [hkey])]
      · intro k2 hk2
        rw [htab, find_append_one]
        cases h2 : db.user_enrollments.find? (fun x => x.canvas_enrollment_id == k2) with
        | some a => rfl
        | none =>
            dsimp only
            rw [if_neg (by simp [hkey, Ne.symm hk2])]
      · intro t0 h0
        exact Option.noConfusion h0

/-- After a section upsert: the row keyed by the observed id stores the
observed fields and carries the returned record id, rows of other keys are
untouched, and a previously stored row keeps its id. -/
theorem upsert_section_run1 (db : DB) (sd : SectionData) (oid : Nat) (rid : Nat) (now : Int) :
    (∃ t, (_upsert_section db sd oid rid now).db.sections.find?
        (fun x => x.canvas_section_id == sd.canvas_section_id) = some t ∧
      t.name = sd.name ∧
      t.sis_section_id = sd.sis_section_id ∧
      t.id = (_upsert_section db sd oid rid now).record.id) ∧
    (∀ k2, k2 ≠ sd.canvas_section_id →
      (_upsert_section db sd oid rid now).db.sections.find? (fun x => x.canvas_section_id == k2)
        = db.sections.find? (fun x => x.canvas_section_id == k2)) ∧
    (∀ t0, db.sections.find? (fun s => s.canvas_section_id == sd.canvas_section_id) = some t0 →
      t0.id = (_upsert_section db sd oid rid now).record.id) := by
  cases hfind : db.sections.find? (fun s => s.canvas_section_id == sd.canvas_section_id) with
  | some ex =>
      obtain ⟨htab, hkey, hf1, hf2, hid⟩ :=
        upsert_section_found db sd oid rid now ex hfind
      refine ⟨?_, ?_, ?_⟩
      · exact ⟨_, by
          rw [htab]
          exact find_updByKey_self Section.canvas_section_id sd.canvas_section_id _
            db.sections ex hkey hfind, hf1, hf2, rfl⟩
      · intro k2 hk2
        rw [htab]
        exact find_updByKey_other Section.canvas_section_id sd.canvas_section_id k2 _
          db.sections hkey (Ne.symm hk2)
      · intro t0 h0
        cases h0
        exact hid.symm
  | none =>
      obtain ⟨htab, hkey, hf1, hf2⟩ :=
        upsert_section_created db sd oid rid now hfind
      refine ⟨?_, ?_, ?_⟩
      · refine ⟨_, ?_, hf1, hf2, rfl⟩
        rw [htab, find_append_one, hfind]
        dsimp only
        rw [if_pos (by simp [hkey])]
      · intro k2 hk2
        rw [htab, find_append_one]
        cases h2 : db.sections.find? (fun x => x.canvas_section_id == k2) with
        | some a => rfl
        | none =>
            dsimp only
            rw [if_neg (by simp [hkey, Ne.symm hk2])]
      · intro t0 h0
        exact Option.noConfusion h0

/-- After a person upsert: the row keyed by the observed id stores the
observed fields and carries the returned record id, rows of other keys are
untouched, and a previously stored row keeps its id. -/
theorem upsert_person_run1 (db : DB) (uid : Int) (nm : String) (sn si li : Option String) (rid : Nat) (now : Int) :
    (∃ t, (_upsert_person db uid nm sn si li rid now).db.persons.find?
        (fun x => x.canvas_user_id == uid) = some t ∧
      t.name = nm ∧
      t.sortable_name = sn ∧
      t.sis_user_id = si ∧
      t.login_id = li ∧
      t.id = (_upsert_person db uid nm sn si li rid now).record.id) ∧
    (∀ k2, k2 ≠ uid →
      (_upsert_person db uid nm sn si li rid now).db.persons.find? (fun x => x.canvas_user_id == k2)
        = db.persons.find? (fun x => x.canvas_user_id == k2)) ∧
    (∀ t0, db.persons.find? (fun p => p.canvas_user_id == uid) = some t0 →
      t0.id = (_upsert_person db uid nm sn si li rid now).record.id) := by
  cases hfind : db.persons.find? (fun p => p.canvas_user_id == uid) with
  | some ex =>
      obtain ⟨htab, hkey, hf1, hf2, hf3, hf4, hid⟩ :=
        upsert_person_found db uid nm sn si li rid now ex hfind
      refine ⟨?_, ?_, ?_⟩
      · exact ⟨_, by
          rw [htab]
          exact find_updByKey_self Person.canvas_user_id uid _
            db.persons ex hkey hfind, hf1, hf2, hf3, hf4, rfl⟩
      · intro k2 hk2
        rw [htab]
        exact find_updByKey_other Person.canvas_user_id uid k2 _
          db.persons hkey (Ne.symm hk2)
      · intro t0 h0
        cases h0
        exact hid.symm
  | none =>
      obtain ⟨htab, hkey, hf1, hf2, hf3, hf4⟩ :=
        upsert_person_created db uid nm sn si li rid now hfind
      refine ⟨?_, ?_, ?_⟩
      · refine ⟨_, ?_, hf1, hf2, hf3, hf4, rfl⟩
        rw [htab, find_append_one, hfind]
        dsimp only
        rw [if_pos (by simp [hkey])]
      · intro k2 hk2
        rw [htab, find_append_one]
        cases h2 : db.persons.find? (fun x => x.canvas_user_id == k2) with
        | some a => rfl
        | none =>
            dsimp only
            rw [if_neg (by simp [hkey, Ne.symm hk2])]
      · intro t0 h0
        exact Option.noConfusion h0

/-- After a enr upsert: the row keyed by the observed id stores the
observed fields and carries the returned record id, rows of other keys are
untouched, and a previously stored row keeps its id. -/
theorem upsert_enr_run1 (db : DB) (ed : CourseEnrollmentData) (oid : Nat) (sid : Option Nat) (pid : Nat) (rid : Nat) (now : Int) :
    (∃ t, (_upsert_enrollment db ed oid sid pid rid now).db.enrollments.find?
        (fun x => x.canvas_enrollment_id == ed.canvas_enrollment_id) = some t ∧
      t.role = ed.role ∧
      t.enrollment_state = ed.enrollment_state ∧
      t.current_grade = ed.current_grade ∧
      t.current_score = ed.current_score ∧
      t.final_grade = ed.final_grade ∧
      t.final_score = ed.final_score ∧
      t.section_id = sid ∧
      t.id = (_upsert_enrollment db ed oid sid pid rid now).record.id) ∧
    (∀ k2, k2 ≠ ed.canvas_enrollment_id →
      (_upsert_enrollment db ed oid sid pid rid now).db.enrollments.find? (fun x => x.canvas_enrollment_id == k2)
        = db.enrollments.find? (fun x => x.canvas_enrollment_id == k2)) ∧
    (∀ t0, db.enrollments.find? (fun e => e.canvas_enrollment_id == ed.canvas_enrollment_id) = some t0 →
      t0.id = (_upsert_enrollment db ed oid sid pid rid now).record.id) := by
  cases hfind : db.enrollments.find? (fun e => e.canvas_enrollment_id == ed.canvas_enrollment_id) with
  | some ex =>
      obtain ⟨htab, hkey, hf1, hf2, hf3, hf4, hf5, hf6, hf7, hid⟩ :=
        upsert_enr_found db ed oid sid pid rid now ex hfind
      refine ⟨?_, ?_, ?_⟩
      · exact ⟨_, by
          rw [htab]
          exact find_updByKey_self Enrollment.canvas_enrollment_id ed.canvas_enrollment_id _
            db.enrollments ex hkey hfind, hf1, hf2, hf3, hf4, hf5, hf6, hf7, rfl⟩
      · intro k2 hk2
        rw [htab]
        exact find_updByKey_other Enrollment.canvas_enrollment_id ed.canvas_enrollment_id k2 _
          db.enrollments hkey (Ne.symm hk2)
      · intro t0 h0
        cases h0
        exact hid.symm
  | none =>
      obtain ⟨htab, hkey, hf1, hf2, hf3, hf4, hf5, hf6, hf7⟩ :=
        upsert_enr_created db ed oid sid pid rid now hfind
      refine ⟨?_, ?_, ?_⟩
      · refine ⟨_, ?_, hf1, hf2, hf3, hf4, hf5, hf6, hf7, rfl⟩
        rw [htab, find_append_one, hfind]
        dsimp only
        rw [if_pos (by simp [hkey])]
      · intro k2 hk2
        rw [htab, find_append_one]
        cases h2 : db.enrollments.find? (fun x => x.canvas_enrollment_id == k2) with
        | some a => rfl
        | none =>
            dsimp only
            rw [if_neg (by simp [hkey, Ne.symm hk2])]
      · intro t0 h0
        exact Option.noConfusion h0

/-- The offering term link only inspects the stored terms. -/
theorem offLink_frame (db db2 : DB) (c : CourseData) (v : Option Nat)
    (ht : db2.terms = db.terms) (h : offLink db c v) : offLink db2 c v := by
  unfold offLink at h ⊢
  cases htid : c.term_id with
  | none =>
      rw [htid] at h
      exact h
  | some tid =>
      rw [htid] at h
      dsimp only at h ⊢
      by_cases h0 : tid = 0
      · rw [if_pos h0] at h ⊢
        exact h
      · rw [if_neg h0] at h ⊢
        rw [ht]
        exact h

/-- One user-enrollment step of the second catalog run preserves the
idempotence invariant: the stored record already matches the observed one, so
the upsert is classified unchanged and writes nothing new. -/
theorem userEnrStep_idem (client : CanvasClient) (ALL : List CourseData)
    (log0 : List ChangeLog) (n0 u0 : Nat) (τ : Nat → Int) (rid oid : Nat)
    (c : CourseData) (hc : c ∈ ALL) (e : EnrollmentData)
    (he : e ∈ c.enrollments) (s : CatState)
    (hInv : CatInv client ALL log0 n0 u0 s) :
    CatInv client ALL log0 n0 u0 (userEnrStep τ rid oid s e) := by
  obtain ⟨hlog, hReady, hSeen, hn, hu⟩ := hInv
  obtain ⟨ue, hfind, hrole, hstate⟩ := (hReady c hc).2.2 e he
  obtain ⟨hst, hlog2⟩ := upsert_userEnr_unch s.db e.canvas_enrollment_id oid
    e.role e.enrollment_state rid (τ s.tick) ue hfind hrole hstate
  obtain ⟨htab, hkey, hf1, hf2, hid⟩ := upsert_userEnr_found s.db
    e.canvas_enrollment_id oid e.role e.enrollment_state rid (τ s.tick) ue hfind
  have hterms := frame_userEnr_terms s.db e.canvas_enrollment_id oid e.role
    e.enrollment_state rid (τ s.tick)
  have hoffs := frame_userEnr_offerings s.db e.canvas_enrollment_id oid e.role
    e.enrollment_state rid (τ s.tick)
  unfold userEnrStep CatInv
  dsimp only
  refine ⟨?_, ?_, ?_, ?_, ?_⟩
  · rw [hlog2]
    exact hlog
  · intro c0 hc0
    obtain ⟨⟨o, ho, a1, a2, a3, a4⟩, hterm0, hue0⟩ := hReady c0 hc0
    refine ⟨⟨o, ?_, a1, a2, a3, ?_⟩, ?_, ?_⟩
    · rw [hoffs]
      exact ho
    · exact offLink_frame s.db _ c0 o.term_id hterms a4
    · intro tid h5 h6 td h7
      rw [hterms]
      exact hterm0 tid h5 h6 td h7
    · intro e0 he0
      obtain ⟨ue0, hfind0, b1, b2⟩ := hue0 e0 he0
      by_cases hk : e0.canvas_enrollment_id = e.canvas_enrollment_id
      · have hsame : ue0 = ue := by
          rw [hk] at hfind0
          rw [hfind0] at hfind
          exact Option.some.inj hfind
        rw [hsame] at b1 b2
        refine ⟨(_upsert_user_enrollment s.db e.canvas_enrollment_id oid e.role
            e.enrollment_state rid (τ s.tick)).record, ?_, ?_, ?_⟩
        · rw [htab, hk]
          exact find_updByKey_self UserEnrollment.canvas_enrollment_id
            e.canvas_enrollment_id _ s.db.user_enrollments ue hkey hfind
        · rw [hf1, ← hrole]
          exact b1
        · rw [hf2, ← hstate]
          exact b2
      · refine ⟨ue0, ?_, b1, b2⟩
        rw [htab, find_updByKey_other UserEnrollment.canvas_enrollment_id
          e.canvas_enrollment_id e0.canvas_enrollment_id _ s.db.user_enrollments
          hkey (Ne.symm hk)]
        exact hfind0
  · intro tid v hv
    obtain ⟨t, htf, hti⟩ := hSeen tid v hv
    refine ⟨t, ?_, hti⟩
    rw [hterms]
    exact htf
  · rw [countStatus_append, hst]
    simpa using hn
  · rw [countStatus_append, hst]
    simpa using hu

/-- The term link of a course is uniquely determined by the stored terms. -/
theorem offLink_unique (db : DB) (c : CourseData) (v1 v2 : Option Nat)
    (h1 : offLink db c v1) (h2 : offLink db c v2) : v1 = v2 := by
  unfold offLink at h1 h2
  cases htid : c.term_id with
  | none =>
      rw [htid] at h1 h2
      dsimp only at h1 h2
      rw [h1, h2]
  | some tid =>
      rw [htid] at h1 h2
      dsimp only at h1 h2
      by_cases h0 : tid = 0
      · rw [if_pos h0] at h1 h2
        rw [h1, h2]
      · rw [if_neg h0] at h1 h2
        obtain ⟨t1, hf1, hv1⟩ := h1
        obtain ⟨t2, hf2, hv2⟩ := h2
        rw [hf1] at hf2
        cases hf2
        rw [hv1, hv2]

/-- A keyed replacement of a found term row by one with the same id preserves
every term link. -/
theorem offLink_upd (db db2 : DB) (c0 : CourseData) (v : Option Nat) (k : Int)
    (rec ex : Term)
    (htab : db2.terms = updByKey Term.canvas_term_id k rec db.terms)
    (hfind : db.terms.find? (fun x => x.canvas_term_id == k) = some ex)
    (hkey : rec.canvas_term_id = k) (hid : rec.id = ex.id)
    (h : offLink db c0 v) : offLink db2 c0 v := by
  unfold offLink at h ⊢
  cases htid : c0.term_id with
  | none =>
      rw [htid] at h
      exact h
  | some tid =>
      rw [htid] at h
      dsimp only at h ⊢
      by_cases h0 : tid = 0
      · rw [if_pos h0] at h ⊢
        exact h
      · rw [if_neg h0] at h ⊢
        obtain ⟨t0, hf0, hv0⟩ := h
        by_cases hk : tid = k
        · have hte : t0 = ex := by
            rw [hk] at hf0
            rw [hf0] at hfind
            exact Option.some.inj hfind
          refine ⟨rec, ?_, ?_⟩
          · rw [htab, hk]
            exact find_updByKey_self Term.canvas_term_id k rec db.terms ex
              hkey hfind
          · rw [hv0, hte, ← hid]
        · refine ⟨t0, ?_, hv0⟩
          rw [htab, find_updByKey_other Term.canvas_term_id k tid rec db.terms
            hkey (fun hh => hk hh.symm)]
          exact hf0

/-- A keyed replacement of a found term row by one with the same id preserves
run-map soundness. -/
theorem SeenSound_upd (db db2 : DB) (m : List (Int × Nat)) (k : Int)
    (rec ex : Term)
    (htab : db2.terms = updByKey Term.canvas_term_id k rec db.terms)
    (hfind : db.terms.find? (fun x => x.canvas_term_id == k) = some ex)
    (hkey : rec.canvas_term_id = k) (hid : rec.id = ex.id)
    (h : SeenSound db m) : SeenSound db2 m := by
  intro tid v hv
  obtain ⟨t, htf, hti⟩ := h tid v hv
  by_cases hk : tid = k
  · have hte : t = ex := by
      rw [hk] at htf
      rw [htf] at hfind
      exact Option.some.inj hfind
    refine ⟨rec, ?_, ?_⟩
    · rw [htab, hk]
      exact find_updByKey_self Term.canvas_term_id k rec db.terms ex hkey hfind
    · rw [hid, ← hte]
      exact hti
  · refine ⟨t, ?_, hti⟩
    rw [htab, find_updByKey_other Term.canvas_term_id k tid rec db.terms hkey
      (fun hh => hk hh.symm)]
    exact htf

/-- A keyed replacement of a found term row by one with the same id and the
same data preserves course readiness. -/
theorem CourseReady_term_upd (client : CanvasClient) (db db2 : DB)
    (c0 : CourseData) (k : Int) (rec ex : Term)
    (htab : db2.terms = updByKey Term.canvas_term_id k rec db.terms)
    (hoff : db2.offerings = db.offerings)
    (hue : db2.user_enrollments = db.user_enrollments)
    (hfind : db.terms.find? (fun x => x.canvas_term_id == k) = some ex)
    (hkey : rec.canvas_term_id = k) (hid : rec.id = ex.id)
    (hname : rec.name = ex.name) (hsd : rec.start_date = ex.start_date)
    (hed : rec.end_date = ex.end_date)
    (h : CourseReady client db c0) : CourseReady client db2 c0 := by
  obtain ⟨⟨o, ho, a1, a2, a3, a4⟩, hterm, huec⟩ := h
  refine ⟨⟨o, ?_, a1, a2, a3,
    offLink_upd db db2 c0 o.term_id k rec ex htab hfind hkey hid a4⟩, ?_, ?_⟩
  · rw [hoff]
    exact ho
  · intro tid h5 h6 td h7
    obtain ⟨t, htf, d1, d2, d3⟩ := hterm tid h5 h6 td h7
    by_cases hk : tid = k
    · have hte : t = ex := by
        rw [hk] at htf
        rw [htf] at hfind
        exact Option.some.inj hfind
      refine ⟨rec, ?_, ?_, ?_, ?_⟩
      · rw [htab, hk]
        exact find_updByKey_self Term.canvas_term_id k rec db.terms ex hkey hfind
      · rw [hname, ← hte]
        exact d1
      · rw [hsd, ← hte]
        exact d2
      · rw [hed, ← hte]
        exact d3
    · refine ⟨t, ?_, d1, d2, d3⟩
      rw [htab, find_updByKey_other Term.canvas_term_id k tid rec db.terms hkey
        (fun hh => hk hh.symm)]
      exact htf
  · intro e he
    rw [hue]
    exact huec e he

/-- A keyed replacement of a found offering row by one with the same data
preserves course readiness. -/
theorem CourseReady_off_upd (client : CanvasClient) (db db2 : DB)
    (c0 : CourseData) (k : Int) (rec ex : Offering)
    (htab : db2.offerings = updByKey Offering.canvas_course_id k rec db.offerings)
    (hterms : db2.terms = db.terms)
    (hue : db2.user_enrollments = db.user_enrollments)
    (hfind : db.offerings.find? (fun x => x.canvas_course_id == k) = some ex)
    (hkey : rec.canvas_course_id = k)
    (hname : rec.name = ex.name) (hcode : rec.code = ex.code)
    (hstate : rec.workflow_state = ex.workflow_state)
    (htid : rec.term_id = ex.term_id)
    (h : CourseReady client db c0) : CourseReady client db2 c0 := by
  obtain ⟨⟨o, ho, a1, a2, a3, a4⟩, hterm, huec⟩ := h
  refine ⟨?_, ?_, ?_⟩
  · by_cases hk : c0.canvas_course_id = k
    · have hoe : o = ex := by
        rw [hk] at ho
        rw [ho] at hfind
        exact Option.some.inj hfind
      refine ⟨rec, ?_, ?_, ?_, ?_, ?_⟩
      · rw [htab, hk]
        exact find_updByKey_self Offering.canvas_course_id k rec db.offerings ex
          hkey hfind
      · rw [hname, ← hoe]
        exact a1
      · rw [hcode, ← hoe]
        exact a2
      · rw [hstate, ← hoe]
        exact a3
      · refine offLink_frame db db2 c0 rec.term_id hterms ?_
        rw [htid, ← hoe]
        exact a4
    · refine ⟨o, ?_, a1, a2, a3, offLink_frame db db2 c0 o.term_id hterms a4⟩
      rw [htab, find_updByKey_other Offering.canvas_course_id k
        c0.canvas_course_id rec db.offerings hkey (fun hh => hk hh.symm)]
      exact ho
  · intro tid h5 h6 td h7
    rw [hterms]
    exact hterm tid h5 h6 td h7
  · intro e he
    rw [hue]
    exact huec e he

/-- The offering step of the second catalog run preserves the idempotence
invariant when the passed term link matches the stored one: the upsert is
classified unchanged and writes nothing new. -/
theorem offeringStep_idem (client : CanvasClient) (ALL : List CourseData)
    (log0 : List ChangeLog) (n0 u0 : Nat) (τ : Nat → Int) (rid : Nat)
    (c : CourseData) (hc : c ∈ ALL) (s : CatState) (term_id : Option Nat)
    (hlink : offLink s.db c term_id)
    (hInv : CatInv client ALL log0 n0 u0 s) :
    CatInv client ALL log0 n0 u0 (offeringStep τ rid s c term_id).1 := by
  obtain ⟨hlog, hReady, hSeen, hn, hu⟩ := hInv
  obtain ⟨⟨o, hfind, a1, a2, a3, a4⟩, -, -⟩ := hReady c hc
  have hveq : term_id = o.term_id :=
    offLink_unique s.db c term_id o.term_id hlink a4
  obtain ⟨hst, hlog2⟩ := upsert_offering_unch s.db c term_id rid (τ s.tick) o
    hfind a1 a2 a3 hveq.symm
  obtain ⟨htab, hkey, hf1, hf2, hf3, hf4, hid⟩ := upsert_offering_found s.db c
    term_id rid (τ s.tick) o hfind
  have hterms := frame_offering_terms s.db c term_id rid (τ s.tick)
  have hues := frame_offering_user_enrollments s.db c term_id rid (τ s.tick)
  unfold offeringStep CatInv
  dsimp only
  refine ⟨?_, ?_, ?_, ?_, ?_⟩
  · rw [hlog2]
    exact hlog
  · intro c0 hc0
    refine CourseReady_off_upd client s.db _ c0 c.canvas_course_id
      ((_upsert_offering s.db c term_id rid (τ s.tick)).record) o htab hterms
      hues hfind hkey ?_ ?_ ?_ ?_ (hReady c0 hc0)
    · rw [hf1, ← a1]
    · rw [hf2, ← a2]
    · rw [hf3, ← a3]
    · rw [hf4, hveq]
  · intro tid v hv
    obtain ⟨t, htf, hti⟩ := hSeen tid v hv
    refine ⟨t, ?_, hti⟩
    rw [hterms]
    exact htf
  · rw [countStatus_append, hst]
    simpa using hn
  · rw [countStatus_append, hst]
    simpa using hu

/-- The term step of the second catalog run never raises, preserves the
idempotence invariant, and returns the stored term link of the course. -/
theorem termStep_idem (client : CanvasClient) (ALL : List CourseData)
    (log0 : List ChangeLog) (n0 u0 : Nat) (τ : Nat → Int) (rid : Nat)
    (c : CourseData) (hc : c ∈ ALL)
    (H3 : ∀ c2 ∈ ALL, ∀ tid, c2.term_id = some tid → tid ≠ 0 →
      ∃ td, client.get_term_from_course c2.canvas_course_id
          = Except.ok (some td) ∧ td.canvas_term_id = tid)
    (s : CatState) (hInv : CatInv client ALL log0 n0 u0 s) :
    ∃ s1 tlink, termStep client τ rid s c = Sum.inl (s1, tlink) ∧
      CatInv client ALL log0 n0 u0 s1 ∧ offLink s1.db c tlink := by
  obtain ⟨hlog, hReady, hSeen, hn, hu⟩ := hInv
  unfold termStep
  cases htid : c.term_id with
  | none =>
      refine ⟨s, none, rfl, ⟨hlog, hReady, hSeen, hn, hu⟩, ?_⟩
      unfold offLink
      rw [htid]
  | some tid =>
      dsimp only
      by_cases h0 : tid = 0
      · rw [if_pos h0]
        refine ⟨s, none, rfl, ⟨hlog, hReady, hSeen, hn, hu⟩, ?_⟩
        unfold offLink
        rw [htid]
        dsimp only
        rw [if_pos h0]
      · rw [if_neg h0]
        cases hlk : s.terms_seen.lookup tid with
        | some v =>
            refine ⟨s, some v, rfl, ⟨hlog, hReady, hSeen, hn, hu⟩, ?_⟩
            obtain ⟨t, htf, hti⟩ := hSeen tid v hlk
            unfold offLink
            rw [htid]
            dsimp only
            rw [if_neg h0]
            refine ⟨t, htf, ?_⟩
            rw [hti]
        | none =>
            obtain ⟨td, hfetch, htdid⟩ := H3 c hc tid htid h0
            rw [hfetch]
            dsimp only
            obtain ⟨t, htf, hd1, hd2, hd3⟩ :=
              (hReady c hc).2.1 tid htid h0 td hfetch
            have hfindt : s.db.terms.find?
                (fun x => x.canvas_term_id == td.canvas_term_id) = some t := by
              rw [htdid]
              exact htf
            obtain ⟨hst, hlog2⟩ := upsert_term_unch s.db td rid (τ s.tick) t
              hfindt hd1 hd2 hd3
            obtain ⟨htab, hkey, hg1, hg2, hg3, hgid⟩ :=
              upsert_term_found s.db td rid (τ s.tick) t hfindt
            have hoffs := frame_term_offerings s.db td rid (τ s.tick)
            have hues := frame_term_user_enrollments s.db td rid (τ s.tick)
            have hSS2 : SeenSound (_upsert_term s.db td rid (τ s.tick)).db
                s.terms_seen :=
              SeenSound_upd s.db _ s.terms_seen td.canvas_term_id _ t htab
                hfindt hkey hgid hSeen
            refine ⟨_, some ((_upsert_term s.db td rid (τ s.tick)).record.id),
              rfl, ?_, ?_⟩
            · refine ⟨?_, ?_, ?_, ?_, ?_⟩
              · dsimp only
                rw [hlog2]
                exact hlog
              · intro c0 hc0
                exact CourseReady_term_upd client s.db _ c0 td.canvas_term_id
                  _ t htab hoffs hues hfindt hkey hgid
                  (hg1.trans hd1.symm) (hg2.trans hd2.symm)
                  (hg3.trans hd3.symm) (hReady c0 hc0)
              · intro tid2 v2 hv2
                dsimp only at hv2
                rw [lookup_dictInsert] at hv2
                by_cases hk2 : tid2 = tid
                · rw [if_pos hk2] at hv2
                  refine ⟨(_upsert_term s.db td rid (τ s.tick)).record, ?_, ?_⟩
                  · rw [htab, hk2, ← htdid]
                    exact find_updByKey_self Term.canvas_term_id
                      td.canvas_term_id _ s.db.terms t hkey hfindt
                  · exact Option.some.inj hv2
                · rw [if_neg hk2] at hv2
                  exact hSS2 tid2 v2 hv2
              · dsimp only
                rw [countStatus_append, hst]
                simpa using hn
              · dsimp only
                rw [countStatus_append, hst]
                simpa using hu
            · unfold offLink
              rw [htid]
              dsimp only
              rw [if_neg h0]
              refine ⟨(_upsert_term s.db td rid (τ s.tick)).record, ?_, rfl⟩
              rw [htab, ← htdid]
              exact find_updByKey_self Term.canvas_term_id td.canvas_term_id _
                s.db.terms t hkey hfindt

/-- The inner enrollment loop of the second catalog run preserves the
idempotence invariant. -/
theorem foldl_userEnrStep_idem (client : CanvasClient) (ALL : List CourseData)
    (log0 : List ChangeLog) (n0 u0 : Nat) (τ : Nat → Int) (rid oid : Nat)
    (c : CourseData) (hc : c ∈ ALL) :
    ∀ (es : List EnrollmentData), (∀ e ∈ es, e ∈ c.enrollments) →
    ∀ s : CatState, CatInv client ALL log0 n0 u0 s →
      CatInv client ALL log0 n0 u0 (es.foldl (userEnrStep τ rid oid) s) := by
  intro es
  induction es with
  | nil =>
      intro _ s h
      exact h
  | cons e rest ih =>
      intro hsub s h
      exact ih (fun x hx => hsub x (List.mem_cons_of_mem e hx)) _
        (userEnrStep_idem client ALL log0 n0 u0 τ rid oid c hc e
          (hsub e (List.mem_cons_self e rest)) s h)

/-- One course iteration of the second catalog run never raises and preserves
the idempotence invariant. -/
theorem processCourse_idem (client : CanvasClient) (ALL : List CourseData)
    (log0 : List ChangeLog) (n0 u0 : Nat) (τ : Nat → Int) (rid : Nat)
    (c : CourseData) (hc : c ∈ ALL)
    (H3 : ∀ c2 ∈ ALL, ∀ tid, c2.term_id = some tid → tid ≠ 0 →
      ∃ td, client.get_term_from_course c2.canvas_course_id
          = Except.ok (some td) ∧ td.canvas_term_id = tid)
    (s : CatState) (hInv : CatInv client ALL log0 n0 u0 s) :
    ∃ s2, processCourse client τ rid s c = Sum.inl s2 ∧
      CatInv client ALL log0 n0 u0 s2 := by
  obtain ⟨s1, tlink, hts, hInv1, hlink⟩ :=
    termStep_idem client ALL log0 n0 u0 τ rid c hc H3 s hInv
  unfold processCourse
  rw [hts]
  dsimp only
  refine ⟨_, rfl, ?_⟩
  exact foldl_userEnrStep_idem client ALL log0 n0 u0 τ rid
    (offeringStep τ rid s1 c tlink).2 c hc c.enrollments (fun x hx => hx)
    (offeringStep τ rid s1 c tlink).1
    (offeringStep_idem client ALL log0 n0 u0 τ rid c hc s1 tlink hlink hInv1)

/-- The course loop of the second catalog run never raises and preserves the
idempotence invariant. -/
theorem foldCourses_idem (client : CanvasClient) (ALL : List CourseData)
    (log0 : List ChangeLog) (n0 u0 : Nat) (τ : Nat → Int) (rid : Nat)
    (H3 : ∀ c2 ∈ ALL, ∀ tid, c2.term_id = some tid → tid ≠ 0 →
      ∃ td, client.get_term_from_course c2.canvas_course_id
          = Except.ok (some td) ∧ td.canvas_term_id = tid) :
    ∀ (cs : List CourseData), (∀ x ∈ cs, x ∈ ALL) →
    ∀ s : CatState, CatInv client ALL log0 n0 u0 s →
      ∃ s2, foldCourses client τ rid cs s = (s2, none) ∧
        CatInv client ALL log0 n0 u0 s2 := by
  intro cs
  induction cs with
  | nil =>
      intro _ s h
      exact ⟨s, rfl, h⟩
  | cons c rest ih =>
      intro hsub s h
      obtain ⟨s2, hpc, h2⟩ := processCourse_idem client ALL log0 n0 u0 τ rid c
        (hsub c (List.mem_cons_self c rest)) H3 s h
      unfold foldCourses
      rw [hpc]
      exact ih (fun x hx => hsub x (List.mem_cons_of_mem c hx)) s2 h2

/-- The term link only depends on the course through its term id. -/
theorem offLink_tid_congr (db : DB) (c0 c : CourseData) (v : Option Nat)
    (h : c0.term_id = c.term_id) (hl : offLink db c v) : offLink db c0 v := by
  unfold offLink at hl ⊢
  rw [h]
  exact hl

/-- Any term upsert preserves every stored term link. -/
theorem offLink_term_run1 (db : DB) (c0 : CourseData) (v : Option Nat)
    (td : TermData) (rid : Nat) (now : Int)
    (h : offLink db c0 v) : offLink (_upsert_term db td rid now).db c0 v := by
  obtain ⟨⟨t1, hf1, -, -, -, hid1⟩, hother, hidp⟩ := upsert_term_run1 db td rid now
  unfold offLink at h ⊢
  cases htid : c0.term_id with
  | none =>
      rw [htid] at h
      exact h
  | some tid =>
      rw [htid] at h
      dsimp only at h ⊢
      by_cases h0 : tid = 0
      · rw [if_pos h0] at h ⊢
        exact h
      · rw [if_neg h0] at h ⊢
        obtain ⟨t2, hf2, hv2⟩ := h
        by_cases hk : tid = td.canvas_term_id
        · have hpe : t2.id = (_upsert_term db td rid now).record.id := by
            apply hidp
            rw [← hk]
            exact hf2
          refine ⟨t1, ?_, ?_⟩
          · rw [hk]
            exact hf1
          · rw [hv2, hpe, ← hid1]
        · refine ⟨t2, ?_, hv2⟩
          rw [hother tid hk]
          exact hf2

/-- A fetched term carries the canvas term id of the requesting course. -/
theorem fetch_cid (client : CanvasClient) (ALL : List CourseData)
    (H3 : ∀ c2 ∈ ALL, ∀ tid, c2.term_id = some tid → tid ≠ 0 →
      ∃ td, client.get_term_from_course c2.canvas_course_id
          = Except.ok (some td) ∧ td.canvas_term_id = tid)
    (c0 : CourseData) (hc0 : c0 ∈ ALL) (tid0 : Int)
    (h5 : c0.term_id = some tid0) (h6 : tid0 ≠ 0) (td0 : TermData)
    (h7 : client.get_term_from_course c0.canvas_course_id
      = Except.ok (some td0)) : td0.canvas_term_id = tid0 := by
  obtain ⟨td2, h7b, hcid⟩ := H3 c0 hc0 tid0 h5 h6
  rw [h7] at h7b
  cases h7b
  exact hcid

/-- The term step of the first catalog run never raises, preserves readiness of
already processed courses and run-map soundness, and leaves the course's term
reconciled and linked. -/
theorem termStep_run1 (client : CanvasClient) (τ : Nat → Int) (rid : Nat)
    (ALL done : List CourseData)
    (H3 : ∀ c2 ∈ ALL, ∀ tid, c2.term_id = some tid → tid ≠ 0 →
      ∃ td, client.get_term_from_course c2.canvas_course_id
          = Except.ok (some td) ∧ td.canvas_term_id = tid)
    (H4 : ∀ c1 ∈ ALL, ∀ c2 ∈ ALL, ∀ td1 td2,
      client.get_term_from_course c1.canvas_course_id = Except.ok (some td1) →
      client.get_term_from_course c2.canvas_course_id = Except.ok (some td2) →
      td1.canvas_term_id = td2.canvas_term_id → td1 = td2)
    (c : CourseData) (hc : c ∈ ALL) (hdone : ∀ x ∈ done, x ∈ ALL)
    (s : CatState) (hReady : CatReady client s.db done)
    (hSeen : SeenData client ALL s.db s.terms_seen) :
    ∃ s1 tlink, termStep client τ rid s c = Sum.inl (s1, tlink) ∧
      CatReady client s1.db done ∧
      SeenData client ALL s1.db s1.terms_seen ∧
      offLink s1.db c tlink ∧
      (∀ tid, c.term_id = some tid → tid ≠ 0 →
        ∀ td, client.get_term_from_course c.canvas_course_id
            = Except.ok (some td) →
          ∃ t, s1.db.terms.find? (fun x => x.canvas_term_id == tid) = some t ∧
            t.name = td.name ∧ t.start_date = td.start_date ∧
            t.end_date = td.end_date) := by
  unfold termStep
  cases htid : c.term_id with
  | none =>
      refine ⟨s, none, rfl, hReady, hSeen, ?_, ?_⟩
      · unfold offLink
        rw [htid]
      · intro tid h5 h6 td h7
        exact Option.noConfusion h5
  | some tid =>
      dsimp only
      by_cases h0 : tid = 0
      · rw [if_pos h0]
        refine ⟨s, none, rfl, hReady, hSeen, ?_, ?_⟩
        · unfold offLink
          rw [htid]
          dsimp only
          rw [if_pos h0]
        · intro tid2 h5 h6 td h7
          cases h5
          exact absurd h0 h6
      · rw [if_neg h0]
        cases hlk : s.terms_seen.lookup tid with
        | some v =>
            obtain ⟨hn0, t, htf, hti, hdata⟩ := hSeen tid v hlk
            refine ⟨s, some v, rfl, hReady, hSeen, ?_, ?_⟩
            · unfold offLink
              rw [htid]
              dsimp only
              rw [if_neg h0]
              refine ⟨t, htf, ?_⟩
              rw [hti]
            · intro tid2 h5 h6 td h7
              cases h5
              exact ⟨t, htf, hdata c hc htid td h7⟩
        | none =>
            obtain ⟨td, hfetch, htdid⟩ := H3 c hc tid htid h0
            rw [hfetch]
            dsimp only
            obtain ⟨⟨t1, hf1, hn1, hs1, he1, hid1⟩, hother, hidp⟩ :=
              upsert_term_run1 s.db td rid (τ s.tick)
            have hoffs := frame_term_offerings s.db td rid (τ s.tick)
            have hues := frame_term_user_enrollments s.db td rid (τ s.tick)
            have hf1t : (_upsert_term s.db td rid (τ s.tick)).db.terms.find?
                (fun x => x.canvas_term_id == tid) = some t1 := by
              rw [← htdid]
              exact hf1
            refine ⟨_, some ((_upsert_term s.db td rid (τ s.tick)).record.id),
              rfl, ?_, ?_, ?_, ?_⟩
            · intro c0 hc0
              obtain ⟨⟨o, ho, a1, a2, a3, a4⟩, htermp, huep⟩ := hReady c0 hc0
              refine ⟨⟨o, ?_, a1, a2, a3, ?_⟩, ?_, ?_⟩
              · dsimp only
                rw [hoffs]
                exact ho
              · exact offLink_term_run1 s.db c0 o.term_id td rid (τ s.tick) a4
              · intro tid0 h5 h6 td0 h7
                have hcid0 : td0.canvas_term_id = tid0 :=
                  fetch_cid client ALL H3 c0 (hdone c0 hc0) tid0 h5 h6 td0 h7
                by_cases hk : tid0 = td.canvas_term_id
                · have htd0 : td0 = td :=
                    H4 c0 (hdone c0 hc0) c hc td0 td h7 hfetch
                      (by rw [hcid0, hk])
                  refine ⟨t1, ?_, ?_, ?_, ?_⟩
                  · dsimp only
                    rw [hk]
                    exact hf1
                  · rw [htd0]
                    exact hn1
                  · rw [htd0]
                    exact hs1
                  · rw [htd0]
                    exact he1
                · obtain ⟨t0, hf0, e1, e2, e3⟩ := htermp tid0 h5 h6 td0 h7
                  refine ⟨t0, ?_, e1, e2, e3⟩
                  dsimp only
                  rw [hother tid0 hk]
                  exact hf0
              · intro e he
                dsimp only
                rw [hues]
                exact huep e he
            · intro tid2 v2 hv2
              dsimp only at hv2
              rw [lookup_dictInsert] at hv2
              by_cases hk2 : tid2 = tid
              · rw [if_pos hk2] at hv2
                subst hk2
                refine ⟨h0, t1, hf1t, ?_, ?_⟩
                · rw [hid1, Option.some.inj hv2]
                · intro c2 hc2 h5 td2 h7
                  have hcid2 : td2.canvas_term_id = tid2 :=
                    fetch_cid client ALL H3 c2 hc2 tid2 h5 h0 td2 h7
                  have htd2 : td2 = td :=
                    H4 c2 hc2 c hc td2 td h7 hfetch (by rw [hcid2, htdid])
                  rw [htd2]
                  exact ⟨hn1, hs1, he1⟩
              · rw [if_neg hk2] at hv2
                obtain ⟨hn02, t2, hf2, hti2, hdata2⟩ := hSeen tid2 v2 hv2
                by_cases hk3 : tid2 = td.canvas_term_id
                · have hpe : t2.id
                      = (_upsert_term s.db td rid (τ s.tick)).record.id := by
                    apply hidp
                    rw [← hk3]
                    exact hf2
                  refine ⟨hn02, t1, ?_, ?_, ?_⟩
                  · dsimp only
                    rw [hk3]
                    exact hf1
                  · rw [hid1, ← hpe]
                    exact hti2
                  · intro c2 hc2 h5 td2 h7
                    have hcid2 : td2.canvas_term_id = tid2 :=
                      fetch_cid client ALL H3 c2 hc2 tid2 h5 hn02 td2 h7
                    have htd2 : td2 = td :=
                      H4 c2 hc2 c hc td2 td h7 hfetch (by rw [hcid2, hk3])
                    rw [htd2]
                    exact ⟨hn1, hs1, he1⟩
                · refine ⟨hn02, t2, ?_, hti2, hdata2⟩
                  dsimp only
                  rw [hother tid2 hk3]
                  exact hf2
            · unfold offLink
              rw [htid]
              dsimp only
              rw [if_neg h0]
              refine ⟨t1, hf1t, ?_⟩
              rw [hid1]
            · intro tid2 h5 h6 td2 h7
              cases h5
              cases h7
              exact ⟨t1, hf1t, hn1, hs1, he1⟩

/-- Course readiness only inspects the term, offering and user-enrollment
tables. -/
theorem CourseReady_frame (client : CanvasClient) (db db2 : DB)
    (c : CourseData) (ht : db2.terms = db.terms)
    (ho : db2.offerings = db.offerings)
    (hu : db2.user_enrollments = db.user_enrollments)
    (h : CourseReady client db c) : CourseReady client db2 c := by
  obtain ⟨⟨o, hof, a1, a2, a3, a4⟩, hterm, huec⟩ := h
  refine ⟨⟨o, ?_, a1, a2, a3, offLink_frame db db2 c o.term_id ht a4⟩, ?_, ?_⟩
  · rw [ho]
    exact hof
  · intro tid h5 h6 td h7
    rw [ht]
    exact hterm tid h5 h6 td h7
  · intro e he
    rw [hu]
    exact huec e he

/-- Catalog readiness only inspects the term, offering and user-enrollment
tables. -/
theorem CatReady_frame (client : CanvasClient) (ALL : List CourseData)
    (db db2 : DB) (ht : db2.terms = db.terms)
    (ho : db2.offerings = db.offerings)
    (hu : db2.user_enrollments = db.user_enrollments)
    (h : CatReady client db ALL) : CatReady client db2 ALL :=
  fun c hc => CourseReady_frame client db db2 c ht ho hu (h c hc)

/-- The offering step of the first catalog run: the course's offering row is
reconciled with the passed term link, readiness of already processed courses
is preserved under the snapshot's course-data consistency, and run-map
soundness is preserved. -/
theorem offeringStep_run1 (client : CanvasClient) (ALL done : List CourseData)
    (H2c : ∀ c1 ∈ ALL, ∀ c2 ∈ ALL, c1.canvas_course_id = c2.canvas_course_id →
      c1.name = c2.name ∧ c1.code = c2.code ∧
      c1.workflow_state = c2.workflow_state ∧ c1.term_id = c2.term_id)
    (τ : Nat → Int) (rid : Nat) (c : CourseData) (hc : c ∈ ALL)
    (hdone : ∀ x ∈ done, x ∈ ALL)
    (s1 : CatState) (term_id : Option Nat) (hlink : offLink s1.db c term_id)
    (hReady : CatReady client s1.db done)
    (hSeen : SeenData client ALL s1.db s1.terms_seen) :
    CatReady client (offeringStep τ rid s1 c term_id).1.db done ∧
    SeenData client ALL (offeringStep τ rid s1 c term_id).1.db
      (offeringStep τ rid s1 c term_id).1.terms_seen ∧
    (∃ o, (offeringStep τ rid s1 c term_id).1.db.offerings.find?
        (fun x => x.canvas_course_id == c.canvas_course_id) = some o ∧
      o.name = c.name ∧ o.code = c.code ∧
      o.workflow_state = c.workflow_state ∧
      offLink (offeringStep τ rid s1 c term_id).1.db c o.term_id) ∧
    (offeringStep τ rid s1 c term_id).1.db.terms = s1.db.terms ∧
    (offeringStep τ rid s1 c term_id).1.db.user_enrollments
      = s1.db.user_enrollments := by
  obtain ⟨⟨o1, hfo, b1, b2, b3, b4, bid⟩, hother, hidp⟩ :=
    upsert_offering_run1 s1.db c term_id rid (τ s1.tick)
  have hterms := frame_offering_terms s1.db c term_id rid (τ s1.tick)
  have hues := frame_offering_user_enrollments s1.db c term_id rid (τ s1.tick)
  unfold offeringStep
  dsimp only
  refine ⟨?_, ?_, ?_, hterms, hues⟩
  · intro c0 hc0
    obtain ⟨⟨o0, ho0, a1, a2, a3, a4⟩, htermp, huep⟩ := hReady c0 hc0
    by_cases hk : c0.canvas_course_id = c.canvas_course_id
    · obtain ⟨q1, q2, q3, q4⟩ := H2c c0 (hdone c0 hc0) c hc hk
      refine ⟨⟨o1, ?_, ?_, ?_, ?_, ?_⟩, ?_, ?_⟩
      · rw [hk]
        exact hfo
      · rw [b1, q1]
      · rw [b2, q2]
      · rw [b3, q3]
      · rw [b4]
        exact offLink_frame s1.db _ c0 term_id hterms
          (offLink_tid_congr s1.db c0 c term_id q4 hlink)
      · intro tid h5 h6 td h7
        rw [hterms]
        exact htermp tid h5 h6 td h7
      · intro e he
        rw [hues]
        exact huep e he
    · refine ⟨⟨o0, ?_, a1, a2, a3,
        offLink_frame s1.db _ c0 o0.term_id hterms a4⟩, ?_, ?_⟩
      · rw [hother c0.canvas_course_id hk]
        exact ho0
      · intro tid h5 h6 td h7
        rw [hterms]
        exact htermp tid h5 h6 td h7
      · intro e he
        rw [hues]
        exact huep e he
  · intro tid v hv
    obtain ⟨hn0, t, htf, hti, hdata⟩ := hSeen tid v hv
    refine ⟨hn0, t, ?_, hti, hdata⟩
    rw [hterms]
    exact htf
  · refine ⟨o1, hfo, b1, b2, b3, ?_⟩
    rw [b4]
    exact offLink_frame s1.db _ c term_id hterms hlink

/-- The inner enrollment loop of the first catalog run: every processed caller
enrollment ends up reconciled (under consistency of duplicate enrollment ids),
already reconciled enrollments consistent with the processed ones stay
reconciled, and the other tables and the run map are untouched. -/
theorem foldl_userEnrStep_run1 (τ : Nat → Int) (rid oid : Nat) :
    ∀ (es : List EnrollmentData) (s : CatState),
      (es.foldl (userEnrStep τ rid oid) s).db.terms = s.db.terms ∧
      (es.foldl (userEnrStep τ rid oid) s).db.offerings = s.db.offerings ∧
      (es.foldl (userEnrStep τ rid oid) s).terms_seen = s.terms_seen ∧
      (∀ e0 : EnrollmentData,
        (∀ e2 ∈ es, e2.canvas_enrollment_id = e0.canvas_enrollment_id →
          e2.role = e0.role ∧ e2.enrollment_state = e0.enrollment_state) →
        UeReady s.db e0 → UeReady (es.foldl (userEnrStep τ rid oid) s).db e0) ∧
      (∀ e ∈ es,
        (∀ e2 ∈ es, e2.canvas_enrollment_id = e.canvas_enrollment_id →
          e2.role = e.role ∧ e2.enrollment_state = e.enrollment_state) →
        UeReady (es.foldl (userEnrStep τ rid oid) s).db e) := by
  intro es
  induction es with
  | nil =>
      intro s
      exact ⟨rfl, rfl, rfl, fun e0 _ h => h,
        fun e he _ => absurd he (List.not_mem_nil e)⟩
  | cons e rest ih =>
      intro s
      obtain ⟨⟨ue1, hfe, r1, r2, rid1⟩, hother, hidp⟩ :=
        upsert_userEnr_run1 s.db e.canvas_enrollment_id oid e.role
          e.enrollment_state rid (τ s.tick)
      have hterms := frame_userEnr_terms s.db e.canvas_enrollment_id oid e.role
        e.enrollment_state rid (τ s.tick)
      have hoffs := frame_userEnr_offerings s.db e.canvas_enrollment_id oid
        e.role e.enrollment_state rid (τ s.tick)
      obtain ⟨iht, iho, ihm, ihp, ihe⟩ := ih (userEnrStep τ rid oid s e)
      have hheadReady : UeReady (userEnrStep τ rid oid s e).db e :=
        ⟨ue1, hfe, r1, r2⟩
      have hpres : ∀ e0 : EnrollmentData,
          (e.canvas_enrollment_id = e0.canvas_enrollment_id →
            e.role = e0.role ∧ e.enrollment_state = e0.enrollment_state) →
          UeReady s.db e0 → UeReady (userEnrStep τ rid oid s e).db e0 := by
        intro e0 hcons h0
        show UeReady (_upsert_user_enrollment s.db e.canvas_enrollment_id oid
          e.role e.enrollment_state rid (τ s.tick)).db e0
        obtain ⟨ue0, hf0, c1, c2⟩ := h0
        by_cases hk : e0.canvas_enrollment_id = e.canvas_enrollment_id
        · obtain ⟨d1, d2⟩ := hcons hk.symm
          refine ⟨ue1, ?_, ?_, ?_⟩
          · rw [hk]
            exact hfe
          · rw [r1, ← d1]
          · rw [r2, ← d2]
        · refine ⟨ue0, ?_, c1, c2⟩
          rw [hother e0.canvas_enrollment_id hk]
          exact hf0
      simp only [List.foldl_cons]
      refine ⟨?_, ?_, ?_, ?_, ?_⟩
      · rw [iht]
        exact hterms
      · rw [iho]
        exact hoffs
      · rw [ihm]
        rfl
      · intro e0 hcons h0
        exact ihp e0 (fun e2 he2 => hcons e2 (List.mem_cons_of_mem e he2))
          (hpres e0 (fun hkk => hcons e (List.mem_cons_self e rest) hkk) h0)
      · intro e3 he3 hcons
        cases List.mem_cons.mp he3 with
        | inl heq =>
            subst heq
            exact ihp e3
              (fun e2 he2 hk2 => hcons e2 (List.mem_cons_of_mem e3 he2) hk2)
              hheadReady
        | inr hin =>
            exact ihe e3 hin
              (fun e2 he2 hk2 => hcons e2 (List.mem_cons_of_mem e he2) hk2)

/-- One course iteration of the first catalog run never raises, extends
readiness to the processed course and preserves run-map soundness, under the
snapshot well-formedness hypotheses. -/
theorem processCourse_run1 (client : CanvasClient) (τ : Nat → Int) (rid : Nat)
    (ALL done : List CourseData)
    (H3 : ∀ c2 ∈ ALL, ∀ tid, c2.term_id = some tid → tid ≠ 0 →
      ∃ td, client.get_term_from_course c2.canvas_course_id
          = Except.ok (some td) ∧ td.canvas_term_id = tid)
    (H4 : ∀ c1 ∈ ALL, ∀ c2 ∈ ALL, ∀ td1 td2,
      client.get_term_from_course c1.canvas_course_id = Except.ok (some td1) →
      client.get_term_from_course c2.canvas_course_id = Except.ok (some td2) →
      td1.canvas_term_id = td2.canvas_term_id → td1 = td2)
    (H2c : ∀ c1 ∈ ALL, ∀ c2 ∈ ALL, c1.canvas_course_id = c2.canvas_course_id →
      c1.name = c2.name ∧ c1.code = c2.code ∧
      c1.workflow_state = c2.workflow_state ∧ c1.term_id = c2.term_id)
    (H5c : ∀ c1 ∈ ALL, ∀ e1 ∈ c1.enrollments, ∀ c2 ∈ ALL, ∀ e2 ∈ c2.enrollments,
      e1.canvas_enrollment_id = e2.canvas_enrollment_id →
      e1.role = e2.role ∧ e1.enrollment_state = e2.enrollment_state)
    (c : CourseData) (hc : c ∈ ALL) (hdone : ∀ x ∈ done, x ∈ ALL)
    (s : CatState) (hReady : CatReady client s.db done)
    (hSeen : SeenData client ALL s.db s.terms_seen) :
    ∃ s2, processCourse client τ rid s c = Sum.inl s2 ∧
      CatReady client s2.db (done ++ [c]) ∧
      SeenData client ALL s2.db s2.terms_seen := by
  obtain ⟨s1, tlink, hts, hReady1, hSeen1, hlink, htermc⟩ :=
    termStep_run1 client τ rid ALL done H3 H4 c hc hdone s hReady hSeen
  unfold processCourse
  rw [hts]
  dsimp only
  obtain ⟨hR2, hS2, ⟨o2, hfo2, b1, b2, b3, b4⟩, hT2, hU2⟩ :=
    offeringStep_run1 client ALL done H2c τ rid c hc hdone s1 tlink hlink
      hReady1 hSeen1
  obtain ⟨ft, fo, fm, fp, fe⟩ := foldl_userEnrStep_run1 τ rid
    (offeringStep τ rid s1 c tlink).2 c.enrollments
    (offeringStep τ rid s1 c tlink).1
  refine ⟨_, rfl, ?_, ?_⟩
  · intro c0 hc0
    cases List.mem_append.mp hc0 with
    | inl hin =>
        obtain ⟨⟨o0, ho0, a1, a2, a3, a4⟩, htermp, huep⟩ := hR2 c0 hin
        refine ⟨⟨o0, ?_, a1, a2, a3,
          offLink_frame _ _ c0 o0.term_id ft a4⟩, ?_, ?_⟩
        · rw [fo]
          exact ho0
        · intro tid h5 h6 td h7
          rw [ft]
          exact htermp tid h5 h6 td h7
        · intro e0 he0
          exact fp e0
            (fun e2 he2 hk2 => H5c c hc e2 he2 c0 (hdone c0 hin) e0 he0 hk2)
            (huep e0 he0)
    | inr hin =>
        have hceq : c0 = c := by simpa using hin
        subst hceq
        refine ⟨⟨o2, ?_, b1, b2, b3,
          offLink_frame _ _ c0 o2.term_id ft b4⟩, ?_, ?_⟩
        · rw [fo]
          exact hfo2
        · intro tid h5 h6 td h7
          obtain ⟨t, htf, d1, d2, d3⟩ := htermc tid h5 h6 td h7
          refine ⟨t, ?_, d1, d2, d3⟩
          rw [ft, hT2]
          exact htf
        · intro e0 he0
          exact fe e0 he0
            (fun e2 he2 hk2 => H5c c0 hc e2 he2 c0 hc e0 he0 hk2)
  · intro tid v hv
    rw [fm] at hv
    obtain ⟨hn0, t, htf, hti, hdata⟩ := hS2 tid v hv
    refine ⟨hn0, t, ?_, hti, hdata⟩
    rw [ft]
    exact htf

/-- The course loop of the first catalog run never raises and leaves every
course of the snapshot reconciled, under the snapshot well-formedness
hypotheses. -/
theorem foldCourses_run1 (client : CanvasClient) (τ : Nat → Int) (rid : Nat)
    (ALL : List CourseData)
    (H3 : ∀ c2 ∈ ALL, ∀ tid, c2.term_id = some tid → tid ≠ 0 →
      ∃ td, client.get_term_from_course c2.canvas_course_id
          = Except.ok (some td) ∧ td.canvas_term_id = tid)
    (H4 : ∀ c1 ∈ ALL, ∀ c2 ∈ ALL, ∀ td1 td2,
      client.get_term_from_course c1.canvas_course_id = Except.ok (some td1) →
      client.get_term_from_course c2.canvas_course_id = Except.ok (some td2) →
      td1.canvas_term_id = td2.canvas_term_id → td1 = td2)
    (H2c : ∀ c1 ∈ ALL, ∀ c2 ∈ ALL, c1.canvas_course_id = c2.canvas_course_id →
      c1.name = c2.name ∧ c1.code = c2.code ∧
      c1.workflow_state = c2.workflow_state ∧ c1.term_id = c2.term_id)
    (H5c : ∀ c1 ∈ ALL, ∀ e1 ∈ c1.enrollments, ∀ c2 ∈ ALL, ∀ e2 ∈ c2.enrollments,
      e1.canvas_enrollment_id = e2.canvas_enrollment_id →
      e1.role = e2.role ∧ e1.enrollment_state = e2.enrollment_state) :
    ∀ (cs done : List CourseData), done ++ cs = ALL →
    ∀ s : CatState, CatReady client s.db done →
      SeenData client ALL s.db s.terms_seen →
      ∃ s2, foldCourses client τ rid cs s = (s2, none) ∧
        CatReady client s2.db ALL ∧
        SeenData client ALL s2.db s2.terms_seen := by
  intro cs
  induction cs with
  | nil =>
      intro done hsplit s hReady hSeen
      rw [List.append_nil] at hsplit
      subst hsplit
      exact ⟨s, rfl, hReady, hSeen⟩
  | cons c rest ih =>
      intro done hsplit s hReady hSeen
      have hc : c ∈ ALL := by
        rw [← hsplit]
        exact List.mem_append.mpr (Or.inr (List.mem_cons_self c rest))
      have hdone : ∀ x ∈ done, x ∈ ALL := by
        intro x hx
        rw [← hsplit]
        exact List.mem_append.mpr (Or.inl hx)
      obtain ⟨s2, hpc, hR2, hS2⟩ := processCourse_run1 client τ rid ALL done
        H3 H4 H2c H5c c hc hdone s hReady hSeen
      unfold foldCourses
      rw [hpc]
      have hsplit2 : (done ++ [c]) ++ rest = ALL := by
        rw [List.append_assoc]
        simpa using hsplit
      exact ih (done ++ [c]) hsplit2 s2 hR2 hS2

/-- After a first catalog run over a well-formed snapshot, every course of the
snapshot is reconciled into the returned store. -/
theorem catalog_run1 (client : CanvasClient) (db : DB) (τ : Nat → Int)
    (courses : List CourseData)
    (Hc : client.list_my_courses = Except.ok courses)
    (H3 : ∀ c2 ∈ courses, ∀ tid, c2.term_id = some tid → tid ≠ 0 →
      ∃ td, client.get_term_from_course c2.canvas_course_id
          = Except.ok (some td) ∧ td.canvas_term_id = tid)
    (H4 : ∀ c1 ∈ courses, ∀ c2 ∈ courses, ∀ td1 td2,
      client.get_term_from_course c1.canvas_course_id = Except.ok (some td1) →
      client.get_term_from_course c2.canvas_course_id = Except.ok (some td2) →
      td1.canvas_term_id = td2.canvas_term_id → td1 = td2)
    (H2c : ∀ c1 ∈ courses, ∀ c2 ∈ courses,
      c1.canvas_course_id = c2.canvas_course_id →
      c1.name = c2.name ∧ c1.code = c2.code ∧
      c1.workflow_state = c2.workflow_state ∧ c1.term_id = c2.term_id)
    (H5c : ∀ c1 ∈ courses, ∀ e1 ∈ c1.enrollments,
      ∀ c2 ∈ courses, ∀ e2 ∈ c2.enrollments,
      e1.canvas_enrollment_id = e2.canvas_enrollment_id →
      e1.role = e2.role ∧ e1.enrollment_state = e2.enrollment_state) :
    CatReady client (ingest_catalog client db τ).db courses := by
  unfold ingest_catalog
  rw [Hc]
  dsimp only
  have hR0 : CatReady client (catStart (withRunRow db
      { id := db.next_id, started_at := τ 0, scope := IngestScope.catalog })).db
      ([] : List CourseData) :=
    fun c hc => absurd hc (List.not_mem_nil c)
  have hS0 : SeenData client courses (catStart (withRunRow db
      { id := db.next_id, started_at := τ 0, scope := IngestScope.catalog })).db
      (catStart (withRunRow db
      { id := db.next_id, started_at := τ 0,
        scope := IngestScope.catalog })).terms_seen :=
    fun tid v hv => Option.noConfusion hv
  obtain ⟨s2, hfc, hR, hS⟩ := foldCourses_run1 client τ db.next_id courses
    H3 H4 H2c H5c courses [] rfl
    (catStart (withRunRow db
      { id := db.next_id, started_at := τ 0, scope := IngestScope.catalog }))
    hR0 hS0
  rw [hfc, catalogFinish_ok]
  dsimp only
  exact CatReady_frame client courses s2.db _ rfl rfl rfl hR

/-- A catalog run over a snapshot whose courses are all already reconciled
appends nothing to the change log and classifies nothing as new or updated. -/
theorem catalog_second (client : CanvasClient) (dbF : DB) (τ2 : Nat → Int)
    (courses : List CourseData)
    (Hc : client.list_my_courses = Except.ok courses)
    (H3 : ∀ c2 ∈ courses, ∀ tid, c2.term_id = some tid → tid ≠ 0 →
      ∃ td, client.get_term_from_course c2.canvas_course_id
          = Except.ok (some td) ∧ td.canvas_term_id = tid)
    (hReady : CatReady client dbF courses) :
    (ingest_catalog client dbF τ2).db.change_log = dbF.change_log ∧
    countStatus (ingest_catalog client dbF τ2).trace .new = 0 ∧
    countStatus (ingest_catalog client dbF τ2).trace .updated = 0 := by
  unfold ingest_catalog
  rw [Hc]
  dsimp only
  have hInv0 : CatInv client courses dbF.change_log 0 0
      (catStart (withRunRow dbF
        { id := dbF.next_id, started_at := τ2 0,
          scope := IngestScope.catalog })) :=
    ⟨rfl, CatReady_frame client courses dbF _ rfl rfl rfl hReady,
      fun tid v hv => Option.noConfusion hv, rfl, rfl⟩
  obtain ⟨s2, hfc, hInv2⟩ := foldCourses_idem client courses dbF.change_log 0 0
    τ2 dbF.next_id H3 courses (fun x hx => hx)
    (catStart (withRunRow dbF
      { id := dbF.next_id, started_at := τ2 0, scope := IngestScope.catalog }))
    hInv0
  rw [hfc, catalogFinish_ok]
  obtain ⟨hlog2, hR2, hS2, hcn, hcu⟩ := hInv2
  exact ⟨hlog2, hcn, hcu⟩

/-- The truthiness-guarded run-map resolution equals the reference section
link whenever the map is fully built. -/
theorem resolveSec_of_map (db : DB) (secs : List SectionData)
    (m : List (Int × Nat)) (e : CourseEnrollmentData)
    (hm : ∀ csid, m.lookup csid =
      if (secs.map SectionData.canvas_section_id).contains csid then
        (db.sections.find? (fun x => x.canvas_section_id == csid)).map
          Section.id
      else none) :
    (match e.course_section_id with
     | none => none
     | some csid => if csid = 0 then none else m.lookup csid)
      = resolveSec db secs e := by
  unfold resolveSec
  cases e.course_section_id with
  | none => rfl
  | some csid =>
      dsimp only
      by_cases h0 : csid = 0
      · rw [if_pos h0, if_pos h0]
      · rw [if_neg h0, if_neg h0]
        exact hm csid

/-- The reference section link only inspects the stored sections. -/
theorem resolveSec_congr (db db2 : DB) (secs : List SectionData)
    (e : CourseEnrollmentData) (h : db2.sections = db.sections) :
    resolveSec db2 secs e = resolveSec db secs e := by
  unfold resolveSec
  cases e.course_section_id with
  | none => rfl
  | some csid =>
      dsimp only
      by_cases h0 : csid = 0
      · rw [if_pos h0, if_pos h0]
      · rw [if_neg h0, if_neg h0]
        by_cases hc : (secs.map SectionData.canvas_section_id).contains csid
          = true
        · rw [if_pos hc, if_pos hc, h]
        · rw [if_neg hc, if_neg hc]

/-- The section loop of the first offering run: every observed section ends up
reconciled (under consistency of duplicate section ids), the run map binds
exactly the observed keys to the stored row ids, lookups of unobserved keys
are untouched, and the other tables are untouched. -/
theorem foldl_processSection_run1 (τ : Nat → Int) (oid rid : Nat) :
    ∀ (secs : List SectionData) (s : OffState),
      (secs.foldl (processSection τ oid rid) s).db.persons = s.db.persons ∧
      (secs.foldl (processSection τ oid rid) s).db.enrollments
        = s.db.enrollments ∧
      (secs.foldl (processSection τ oid rid) s).db.offerings
        = s.db.offerings ∧
      (∀ k2, ¬((secs.map SectionData.canvas_section_id).contains k2 = true) →
        (secs.foldl (processSection τ oid rid) s).db.sections.find?
            (fun x => x.canvas_section_id == k2)
          = s.db.sections.find? (fun x => x.canvas_section_id == k2)) ∧
      (∀ csid, (secs.foldl (processSection τ oid rid) s).section_map.lookup csid
        = if (secs.map SectionData.canvas_section_id).contains csid then
            ((secs.foldl (processSection τ oid rid) s).db.sections.find?
              (fun x => x.canvas_section_id == csid)).map Section.id
          else s.section_map.lookup csid) ∧
      (∀ sd0 : SectionData,
        (∀ sd2 ∈ secs, sd2.canvas_section_id = sd0.canvas_section_id →
          sd2.name = sd0.name ∧ sd2.sis_section_id = sd0.sis_section_id) →
        SecReady1 s.db sd0 →
        SecReady1 (secs.foldl (processSection τ oid rid) s).db sd0) ∧
      (∀ sd ∈ secs,
        (∀ sd2 ∈ secs, sd2.canvas_section_id = sd.canvas_section_id →
          sd2.name = sd.name ∧ sd2.sis_section_id = sd.sis_section_id) →
        SecReady1 (secs.foldl (processSection τ oid rid) s).db sd) := by
  intro secs
  induction secs with
  | nil =>
      intro s
      refine ⟨rfl, rfl, rfl, fun k2 _ => rfl, ?_, fun sd0 _ h => h,
        fun sd hsd _ => absurd hsd (List.not_mem_nil sd)⟩
      intro csid
      rw [if_neg (by simp)]
      rfl
  | cons sd rest ih =>
      intro s
      obtain ⟨⟨t1, hf1, hn1, hs1, hid1⟩, hother, hidp⟩ :=
        upsert_section_run1 s.db sd oid rid (τ s.tick)
      have hpers := frame_section_persons s.db sd oid rid (τ s.tick)
      have henr := frame_section_enrollments s.db sd oid rid (τ s.tick)
      have hoffs := frame_section_offerings s.db sd oid rid (τ s.tick)
      have hdb : (processSection τ oid rid s sd).db
          = (_upsert_section s.db sd oid rid (τ s.tick)).db := rfl
      have hmap : (processSection τ oid rid s sd).section_map
          = dictInsert sd.canvas_section_id
              (_upsert_section s.db sd oid rid (τ s.tick)).record.id
              s.section_map := rfl
      obtain ⟨ihp, ihe, iho, ihk, ihm, ihpres, ihest⟩ :=
        ih (processSection τ oid rid s sd)
      have hpres1 : ∀ sd0 : SectionData,
          (sd.canvas_section_id = sd0.canvas_section_id →
            sd.name = sd0.name ∧ sd.sis_section_id = sd0.sis_section_id) →
          SecReady1 s.db sd0 →
          SecReady1 (processSection τ oid rid s sd).db sd0 := by
        intro sd0 hcons h0
        obtain ⟨r0, hf0, c1, c2⟩ := h0
        rw [SecReady1, hdb]
        by_cases hk : sd0.canvas_section_id = sd.canvas_section_id
        · obtain ⟨d1, d2⟩ := hcons hk.symm
          refine ⟨t1, ?_, ?_, ?_⟩
          · rw [hk]
            exact hf1
          · rw [hn1, ← d1]
          · rw [hs1, ← d2]
        · refine ⟨r0, ?_, c1, c2⟩
          rw [hother sd0.canvas_section_id hk]
          exact hf0
      simp only [List.foldl_cons]
      refine ⟨?_, ?_, ?_, ?_, ?_, ?_, ?_⟩
      · rw [ihp, hdb]
        exact hpers
      · rw [ihe, hdb]
        exact henr
      · rw [iho, hdb]
        exact hoffs
      · intro k2 hk2
        have hk2a : ¬(k2 = sd.canvas_section_id) ∧
            ¬((rest.map SectionData.canvas_section_id).contains k2 = true) := by
          simpa using hk2
        rw [ihk k2 hk2a.2, hdb]
        exact hother k2 hk2a.1
      · intro csid
        by_cases hcr : (rest.map SectionData.canvas_section_id).contains csid
            = true
        · rw [ihm csid, if_pos hcr,
            if_pos (show ((sd :: rest).map
              SectionData.canvas_section_id).contains csid = true by
                rw [List.map_cons, List.contains_cons, hcr, Bool.or_true])]
        · by_cases hce : csid = sd.canvas_section_id
          · rw [ihm csid, if_neg hcr, hmap, lookup_dictInsert, if_pos hce,
              if_pos (show ((sd :: rest).map
                SectionData.canvas_section_id).contains csid = true by
                  rw [List.map_cons, List.contains_cons,
                    show (csid == sd.canvas_section_id) = true by simp [hce],
                    Bool.true_or])]
            rw [ihk csid hcr, hdb, hce, hf1]
            simp [hid1]
          · rw [ihm csid, if_neg hcr, hmap, lookup_dictInsert, if_neg hce,
              if_neg (show ¬(((sd :: rest).map
                SectionData.canvas_section_id).contains csid = true) by
                  rw [List.map_cons, List.contains_cons]
                  intro hh
                  cases (Bool.or_eq_true _ _).mp hh with
                  | inl h => exact hce (by simpa using h)
                  | inr h => exact hcr h)]
      · intro sd0 hcons h0
        exact ihpres sd0
          (fun sd2 hsd2 => hcons sd2 (List.mem_cons_of_mem sd hsd2))
          (hpres1 sd0 (fun hkk => hcons sd (List.mem_cons_self sd rest) hkk) h0)
      · intro sd3 hsd3 hcons
        cases List.mem_cons.mp hsd3 with
        | inl heq =>
            subst heq
            refine ihpres sd3
              (fun sd2 hsd2 hk2 => hcons sd2 (List.mem_cons_of_mem sd3 hsd2)
                hk2) ?_
            rw [SecReady1, hdb]
            exact ⟨t1, hf1, hn1, hs1⟩
        | inr hin =>
            exact ihest sd3 hin
              (fun sd2 hsd2 hk2 => hcons sd2 (List.mem_cons_of_mem sd hsd2)
                hk2)

/-- The reference section link only depends on the enrollment through its
course_section_id. -/
theorem resolveSec_csid_congr (db : DB) (secs : List SectionData)
    (e1 e2 : CourseEnrollmentData)
    (h : e1.course_section_id = e2.course_section_id) :
    resolveSec db secs e1 = resolveSec db secs e2 := by
  unfold resolveSec
  rw [h]

/-- One enrollment iteration of the first offering run: the person and the
enrollment end up reconciled (the enrollment with the reference section link,
given a fully built run map), consistent already reconciled persons and
enrollments stay reconciled, and the sections and the run map are
untouched. -/
theorem processEnrollment_run1 (τ : Nat → Int) (oid rid : Nat)
    (secs : List SectionData) (s : OffState) (e : CourseEnrollmentData)
    (hm : ∀ csid, s.section_map.lookup csid =
      if (secs.map SectionData.canvas_section_id).contains csid then
        (s.db.sections.find? (fun x => x.canvas_section_id == csid)).map
          Section.id
      else none) :
    (processEnrollment τ oid rid s e).db.sections = s.db.sections ∧
    (processEnrollment τ oid rid s e).db.offerings = s.db.offerings ∧
    (processEnrollment τ oid rid s e).section_map = s.section_map ∧
    PersonReady1 (processEnrollment τ oid rid s e).db e ∧
    EnrReady1 (processEnrollment τ oid rid s e).db secs e ∧
    (∀ e0 : CourseEnrollmentData,
      (e.user_id = e0.user_id → e.user_name = e0.user_name ∧
        e.user_sortable_name = e0.user_sortable_name ∧
        e.user_sis_id = e0.user_sis_id ∧ e.user_login_id = e0.user_login_id) →
      PersonReady1 s.db e0 →
      PersonReady1 (processEnrollment τ oid rid s e).db e0) ∧
    (∀ e0 : CourseEnrollmentData,
      (e.canvas_enrollment_id = e0.canvas_enrollment_id →
        e.role = e0.role ∧ e.enrollment_state = e0.enrollment_state ∧
        e.current_grade = e0.current_grade ∧
        e.current_score = e0.current_score ∧
        e.final_grade = e0.final_grade ∧ e.final_score = e0.final_score ∧
        e.course_section_id = e0.course_section_id) →
      EnrReady1 s.db secs e0 →
      EnrReady1 (processEnrollment τ oid rid s e).db secs e0) := by
  have hsid : (match e.course_section_id with
      | none => none
      | some csid => if csid = 0 then none else s.section_map.lookup csid)
      = resolveSec s.db secs e := resolveSec_of_map s.db secs s.section_map e hm
  obtain ⟨⟨p1, hfp, pn, psn, psi, pli, pid1⟩, hpother, hpidp⟩ :=
    upsert_person_run1 s.db e.user_id e.user_name e.user_sortable_name
      e.user_sis_id e.user_login_id rid (τ s.tick)
  unfold processEnrollment
  dsimp only
  rw [hsid]
  obtain ⟨⟨r1, hfr, f1, f2, f3, f4, f5, f6, f7, rid1⟩, heother, heidp⟩ :=
    upsert_enr_run1 (_upsert_person s.db e.user_id e.user_name
        e.user_sortable_name e.user_sis_id e.user_login_id rid (τ s.tick)).db
      e oid (resolveSec s.db secs e)
      (_upsert_person s.db e.user_id e.user_name e.user_sortable_name
        e.user_sis_id e.user_login_id rid (τ s.tick)).record.id
      rid (τ (s.tick + 1))
  have hsecs : (_upsert_enrollment (_upsert_person s.db e.user_id e.user_name
      e.user_sortable_name e.user_sis_id e.user_login_id rid (τ s.tick)).db
      e oid (resolveSec s.db secs e)
      (_upsert_person s.db e.user_id e.user_name e.user_sortable_name
        e.user_sis_id e.user_login_id rid (τ s.tick)).record.id
      rid (τ (s.tick + 1))).db.sections = s.db.sections := by
    rw [frame_enr_sections, frame_person_sections]
  refine ⟨hsecs, ?_, rfl, ?_, ?_, ?_, ?_⟩
  · rw [frame_enr_offerings, frame_person_offerings]
  · refine ⟨p1, ?_, pn, psn, psi, pli⟩
    rw [frame_enr_persons]
    exact hfp
  · refine ⟨r1, hfr, f1, f2, f3, f4, f5, f6, ?_⟩
    rw [f7, resolveSec_congr s.db _ secs e hsecs]
  · intro e0 hcons h0
    obtain ⟨q0, hq0, g1, g2, g3, g4⟩ := h0
    by_cases hk : e0.user_id = e.user_id
    · obtain ⟨d1, d2, d3, d4⟩ := hcons hk.symm
      refine ⟨p1, ?_, ?_, ?_, ?_, ?_⟩
      · rw [frame_enr_persons, hk]
        exact hfp
      · rw [pn, ← d1]
      · rw [psn, ← d2]
      · rw [psi, ← d3]
      · rw [pli, ← d4]
    · refine ⟨q0, ?_, g1, g2, g3, g4⟩
      rw [frame_enr_persons, hpother e0.user_id hk]
      exact hq0
  · intro e0 hcons h0
    obtain ⟨r0, hr0, k1, k2, k3, k4, k5, k6, k7⟩ := h0
    by_cases hk : e0.canvas_enrollment_id = e.canvas_enrollment_id
    · obtain ⟨d1, d2, d3, d4, d5, d6, d7⟩ := hcons hk.symm
      refine ⟨r1, ?_, ?_, ?_, ?_, ?_, ?_, ?_, ?_⟩
      · rw [hk]
        exact hfr
      · rw [f1, ← d1]
      · rw [f2, ← d2]
      · rw [f3, ← d3]
      · rw [f4, ← d4]
      · rw [f5, ← d5]
      · rw [f6, ← d6]
      · rw [f7, resolveSec_congr s.db _ secs e0 hsecs]
        exact resolveSec_csid_congr s.db secs e e0 d7
    · refine ⟨r0, ?_, k1, k2, k3, k4, k5, k6, ?_⟩
      · rw [heother e0.canvas_enrollment_id hk, frame_person_enrollments]
        exact hr0
      · rw [k7, resolveSec_congr s.db _ secs e0 hsecs]

/-- The enrollment loop of the first offering run: every observed person and
enrollment ends up reconciled (under consistency of duplicate user and
enrollment ids and a fully built run map), and sections and the run map are
untouched. -/
theorem foldl_processEnrollment_run1 (τ : Nat → Int) (oid rid : Nat)
    (secs : List SectionData) :
    ∀ (enrs : List CourseEnrollmentData) (s : OffState),
      (∀ csid, s.section_map.lookup csid =
        if (secs.map SectionData.canvas_section_id).contains csid then
          (s.db.sections.find? (fun x => x.canvas_section_id == csid)).map
            Section.id
        else none) →
      (enrs.foldl (processEnrollment τ oid rid) s).db.sections
        = s.db.sections ∧
      (enrs.foldl (processEnrollment τ oid rid) s).db.offerings
        = s.db.offerings ∧
      (∀ e0 : CourseEnrollmentData,
        (∀ e2 ∈ enrs, e2.user_id = e0.user_id → e2.user_name = e0.user_name ∧
          e2.user_sortable_name = e0.user_sortable_name ∧
          e2.user_sis_id = e0.user_sis_id ∧
          e2.user_login_id = e0.user_login_id) →
        PersonReady1 s.db e0 →
        PersonReady1 (enrs.foldl (processEnrollment τ oid rid) s).db e0) ∧
      (∀ e0 : CourseEnrollmentData,
        (∀ e2 ∈ enrs, e2.canvas_enrollment_id = e0.canvas_enrollment_id →
          e2.role = e0.role ∧ e2.enrollment_state = e0.enrollment_state ∧
          e2.current_grade = e0.current_grade ∧
          e2.current_score = e0.current_score ∧
          e2.final_grade = e0.final_grade ∧ e2.final_score = e0.final_score ∧
          e2.course_section_id = e0.course_section_id) →
        EnrReady1 s.db secs e0 →
        EnrReady1 (enrs.foldl (processEnrollment τ oid rid) s).db secs e0) ∧
      (∀ e ∈ enrs,
        (∀ e2 ∈ enrs, e2.user_id = e.user_id → e2.user_name = e.user_name ∧
          e2.user_sortable_name = e.user_sortable_name ∧
          e2.user_sis_id = e.user_sis_id ∧
          e2.user_login_id = e.user_login_id) →
        PersonReady1 (enrs.foldl (processEnrollment τ oid rid) s).db e) ∧
      (∀ e ∈ enrs,
        (∀ e2 ∈ enrs, e2.canvas_enrollment_id = e.canvas_enrollment_id →
          e2.role = e.role ∧ e2.enrollment_state = e.enrollment_state ∧
          e2.current_grade = e.current_grade ∧
          e2.current_score = e.current_score ∧
          e2.final_grade = e.final_grade ∧ e2.final_score = e.final_score ∧
          e2.course_section_id = e.course_section_id) →
        EnrReady1 (enrs.foldl (processEnrollment τ oid rid) s).db secs e) := by
  intro enrs
  induction enrs with
  | nil =>
      intro s hm
      exact ⟨rfl, rfl, fun e0 _ h => h, fun e0 _ h => h,
        fun e he _ => absurd he (List.not_mem_nil e),
        fun e he _ => absurd he (List.not_mem_nil e)⟩
  | cons e rest ih =>
      intro s hm
      obtain ⟨hsec, hoff, hmapc, hPe, hEe, hPpres, hEpres⟩ :=
        processEnrollment_run1 τ oid rid secs s e hm
      have hm2 : ∀ csid,
          (processEnrollment τ oid rid s e).section_map.lookup csid =
          if (secs.map SectionData.canvas_section_id).contains csid then
            ((processEnrollment τ oid rid s e).db.sections.find?
              (fun x => x.canvas_section_id == csid)).map Section.id
          else none := by
        intro csid
        rw [hmapc, hsec]
        exact hm csid
      obtain ⟨iht, iho, ihPp, ihEp, ihPe, ihEe⟩ :=
        ih (processEnrollment τ oid rid s e) hm2
      simp only [List.foldl_cons]
      refine ⟨?_, ?_, ?_, ?_, ?_, ?_⟩
      · rw [iht]
        exact hsec
      · rw [iho]
        exact hoff
      · intro e0 hcons h0
        exact ihPp e0
          (fun e2 he2 => hcons e2 (List.mem_cons_of_mem e he2))
          (hPpres e0 (fun hkk => hcons e (List.mem_cons_self e rest) hkk) h0)
      · intro e0 hcons h0
        exact ihEp e0
          (fun e2 he2 => hcons e2 (List.mem_cons_of_mem e he2))
          (hEpres e0 (fun hkk => hcons e (List.mem_cons_self e rest) hkk) h0)
      · intro e3 he3 hcons
        cases List.mem_cons.mp he3 with
        | inl heq =>
            subst heq
            exact ihPp e3
              (fun e2 he2 hk2 => hcons e2 (List.mem_cons_of_mem e3 he2) hk2)
              hPe
        | inr hin =>
            exact ihPe e3 hin
              (fun e2 he2 hk2 => hcons e2 (List.mem_cons_of_mem e he2) hk2)
      · intro e3 he3 hcons
        cases List.mem_cons.mp he3 with
        | inl heq =>
            subst heq
            exact ihEp e3
              (fun e2 he2 hk2 => hcons e2 (List.mem_cons_of_mem e3 he2) hk2)
              hEe
        | inr hin =>
            exact ihEe e3 hin
              (fun e2 he2 hk2 => hcons e2 (List.mem_cons_of_mem e he2) hk2)

/-- A keyed replacement of a found section row by one with the same id
preserves every reference section link. -/
theorem resolveSec_upd (db db2 : DB) (secs : List SectionData)
    (e : CourseEnrollmentData) (k : Int) (rec ex : Section)
    (htab : db2.sections = updByKey Section.canvas_section_id k rec db.sections)
    (hfind : db.sections.find? (fun x => x.canvas_section_id == k) = some ex)
    (hkey : rec.canvas_section_id = k) (hid : rec.id = ex.id) :
    resolveSec db2 secs e = resolveSec db secs e := by
  unfold resolveSec
  cases e.course_section_id with
  | none => rfl
  | some csid =>
      dsimp only
      by_cases h0 : csid = 0
      · rw [if_pos h0, if_pos h0]
      · rw [if_neg h0, if_neg h0]
        by_cases hc : (secs.map SectionData.canvas_section_id).contains csid
            = true
        · rw [if_pos hc, if_pos hc]
          by_cases hk : csid = k
          · rw [htab, hk,
              find_updByKey_self Section.canvas_section_id k rec db.sections
                ex hkey hfind]
            rw [hfind]
            dsimp only [Option.map]
            rw [hid]
          · rw [htab,
              find_updByKey_other Section.canvas_section_id k csid rec
                db.sections hkey (fun hh => hk hh.symm)]
        · rw [if_neg hc, if_neg hc]

/-- One section iteration of the second offering run preserves the idempotence
invariant: the stored record already matches the observed one. -/
theorem processSection_idem (secs : List SectionData)
    (enrs : List CourseEnrollmentData) (log0 : List ChangeLog) (n0 u0 : Nat)
    (τ : Nat → Int) (oid rid : Nat) (sd : SectionData) (hsd : sd ∈ secs)
    (s : OffState) (hInv : OffInv secs enrs log0 n0 u0 s) :
    OffInv secs enrs log0 n0 u0 (processSection τ oid rid s sd) := by
  obtain ⟨hlog, hSec, hPer, hEnr, hn, hu⟩ := hInv
  obtain ⟨srow, hfind, x1, x2⟩ := hSec sd hsd
  obtain ⟨hst, hlog2⟩ := upsert_section_unch s.db sd oid rid (τ s.tick) srow
    hfind x1 x2
  obtain ⟨htab, hkey, hg1, hg2, hgid⟩ := upsert_section_found s.db sd oid rid
    (τ s.tick) srow hfind
  have hpers := frame_section_persons s.db sd oid rid (τ s.tick)
  have henrs := frame_section_enrollments s.db sd oid rid (τ s.tick)
  have hres : ∀ e0 : CourseEnrollmentData,
      resolveSec (_upsert_section s.db sd oid rid (τ s.tick)).db secs e0
        = resolveSec s.db secs e0 := fun e0 =>
    resolveSec_upd s.db _ secs e0 sd.canvas_section_id _ srow htab hfind hkey
      hgid
  unfold processSection OffInv
  dsimp only
  refine ⟨?_, ?_, ?_, ?_, ?_, ?_⟩
  · rw [hlog2]
    exact hlog
  · intro sd0 hsd0
    obtain ⟨r0, hf0, y1, y2⟩ := hSec sd0 hsd0
    by_cases hk : sd0.canvas_section_id = sd.canvas_section_id
    · have hre : r0 = srow := by
        rw [hk] at hf0
        rw [hf0] at hfind
        exact Option.some.inj hfind
      refine ⟨(_upsert_section s.db sd oid rid (τ s.tick)).record, ?_, ?_, ?_⟩
      · rw [htab, hk]
        exact find_updByKey_self Section.canvas_section_id
          sd.canvas_section_id _ s.db.sections srow hkey hfind
      · rw [hg1, ← x1, ← hre]
        exact y1
      · rw [hg2, ← x2, ← hre]
        exact y2
    · refine ⟨r0, ?_, y1, y2⟩
      rw [htab, find_updByKey_other Section.canvas_section_id
        sd.canvas_section_id sd0.canvas_section_id _ s.db.sections hkey
        (fun hh => hk hh.symm)]
      exact hf0
  · intro e0 he0
    obtain ⟨p0, hp0, z1, z2, z3, z4⟩ := hPer e0 he0
    refine ⟨p0, ?_, z1, z2, z3, z4⟩
    rw [hpers]
    exact hp0
  · intro e0 he0
    obtain ⟨r0, hr0, k1, k2, k3, k4, k5, k6, k7⟩ := hEnr e0 he0
    refine ⟨r0, ?_, k1, k2, k3, k4, k5, k6, ?_⟩
    · rw [henrs]
      exact hr0
    · rw [hres e0]
      exact k7
  · rw [countStatus_append, hst]
    simpa using hn
  · rw [countStatus_append, hst]
    simpa using hu

/-- The section loop of the second offering run preserves the idempotence
invariant. -/
theorem foldl_processSection_idem (secs : List SectionData)
    (enrs : List CourseEnrollmentData) (log0 : List ChangeLog) (n0 u0 : Nat)
    (τ : Nat → Int) (oid rid : Nat) :
    ∀ (sds : List SectionData), (∀ x ∈ sds, x ∈ secs) →
    ∀ s : OffState, OffInv secs enrs log0 n0 u0 s →
      OffInv secs enrs log0 n0 u0 (sds.foldl (processSection τ oid rid) s) := by
  intro sds
  induction sds with
  | nil =>
      intro _ s h
      exact h
  | cons sd rest ih =>
      intro hsub s h
      exact ih (fun x hx => hsub x (List.mem_cons_of_mem sd hx)) _
        (processSection_idem secs enrs log0 n0 u0 τ oid rid sd
          (hsub sd (List.mem_cons_self sd rest)) s h)

/-- One enrollment iteration of the second offering run preserves the
idempotence invariant, given a fully built run map: both the person and the
enrollment upsert find records that already match. -/
theorem processEnrollment_idem (secs : List SectionData)
    (enrs : List CourseEnrollmentData) (log0 : List ChangeLog) (n0 u0 : Nat)
    (τ : Nat → Int) (oid rid : Nat) (e : CourseEnrollmentData) (he : e ∈ enrs)
    (s : OffState)
    (hm : ∀ csid, s.section_map.lookup csid =
      if (secs.map SectionData.canvas_section_id).contains csid then
        (s.db.sections.find? (fun x => x.canvas_section_id == csid)).map
          Section.id
      else none)
    (hInv : OffInv secs enrs log0 n0 u0 s) :
    OffInv secs enrs log0 n0 u0 (processEnrollment τ oid rid s e) ∧
    (processEnrollment τ oid rid s e).db.sections = s.db.sections ∧
    (processEnrollment τ oid rid s e).section_map = s.section_map := by
  obtain ⟨hlog, hSec, hPer, hEnr, hn, hu⟩ := hInv
  obtain ⟨p0, hfp0, z1, z2, z3, z4⟩ := hPer e he
  obtain ⟨pst, plog⟩ := upsert_person_unch s.db e.user_id e.user_name
    e.user_sortable_name e.user_sis_id e.user_login_id rid (τ s.tick) p0 hfp0
    z1 z2 z3 z4
  obtain ⟨htabP, hkeyP, pg1, pg2, pg3, pg4, pidP⟩ := upsert_person_found s.db
    e.user_id e.user_name e.user_sortable_name e.user_sis_id e.user_login_id
    rid (τ s.tick) p0 hfp0
  have hsecP := frame_person_sections s.db e.user_id e.user_name
    e.user_sortable_name e.user_sis_id e.user_login_id rid (τ s.tick)
  have henrP := frame_person_enrollments s.db e.user_id e.user_name
    e.user_sortable_name e.user_sis_id e.user_login_id rid (τ s.tick)
  have hsid : (match e.course_section_id with
      | none => none
      | some csid => if csid = 0 then none else s.section_map.lookup csid)
      = resolveSec s.db secs e := resolveSec_of_map s.db secs s.section_map e hm
  obtain ⟨r0, hfr0, k1, k2, k3, k4, k5, k6, k7⟩ := hEnr e he
  have hfr0b : (_upsert_person s.db e.user_id e.user_name e.user_sortable_name
      e.user_sis_id e.user_login_id rid (τ s.tick)).db.enrollments.find?
      (fun x => x.canvas_enrollment_id == e.canvas_enrollment_id)
      = some r0 := by
    rw [henrP]
    exact hfr0
  obtain ⟨est, elog⟩ := upsert_enr_unch (_upsert_person s.db e.user_id
      e.user_name e.user_sortable_name e.user_sis_id e.user_login_id rid
      (τ s.tick)).db e oid (resolveSec s.db secs e)
    (_upsert_person s.db e.user_id e.user_name e.user_sortable_name
      e.user_sis_id e.user_login_id rid (τ s.tick)).record.id rid
    (τ (s.tick + 1)) r0 hfr0b k1 k2 k3 k4 k5 k6 k7
  obtain ⟨htabE, hkeyE, eg1, eg2, eg3, eg4, eg5, eg6, eg7, eidE⟩ :=
    upsert_enr_found (_upsert_person s.db e.user_id e.user_name
      e.user_sortable_name e.user_sis_id e.user_login_id rid (τ s.tick)).db
    e oid (resolveSec s.db secs e)
    (_upsert_person s.db e.user_id e.user_name e.user_sortable_name
      e.user_sis_id e.user_login_id rid (τ s.tick)).record.id rid
    (τ (s.tick + 1)) r0 hfr0b
  have hsecAll : (_upsert_enrollment (_upsert_person s.db e.user_id e.user_name
      e.user_sortable_name e.user_sis_id e.user_login_id rid (τ s.tick)).db
      e oid (resolveSec s.db secs e)
      (_upsert_person s.db e.user_id e.user_name e.user_sortable_name
        e.user_sis_id e.user_login_id rid (τ s.tick)).record.id rid
      (τ (s.tick + 1))).db.sections = s.db.sections := by
    rw [frame_enr_sections, frame_person_sections]
  have hperE := frame_enr_persons (_upsert_person s.db e.user_id e.user_name
      e.user_sortable_name e.user_sis_id e.user_login_id rid (τ s.tick)).db
    e oid (resolveSec s.db secs e)
    (_upsert_person s.db e.user_id e.user_name e.user_sortable_name
      e.user_sis_id e.user_login_id rid (τ s.tick)).record.id rid
    (τ (s.tick + 1))
  unfold processEnrollment OffInv
  dsimp only
  rw [hsid]
  refine ⟨⟨?_, ?_, ?_, ?_, ?_, ?_⟩, hsecAll, rfl⟩
  · rw [elog, plog]
    exact hlog
  · intro sd0 hsd0
    obtain ⟨r00, hf00, y1, y2⟩ := hSec sd0 hsd0
    refine ⟨r00, ?_, y1, y2⟩
    rw [hsecAll]
    exact hf00
  · intro e0 he0
    obtain ⟨q0, hq0, w1, w2, w3, w4⟩ := hPer e0 he0
    by_cases hk : e0.user_id = e.user_id
    · have hqe : q0 = p0 := by
        rw [hk] at hq0
        rw [hq0] at hfp0
        exact Option.some.inj hfp0
      rw [hqe] at w1 w2 w3 w4
      refine ⟨(_upsert_person s.db e.user_id e.user_name e.user_sortable_name
        e.user_sis_id e.user_login_id rid (τ s.tick)).record, ?_, ?_, ?_, ?_,
        ?_⟩
      · rw [hperE, htabP, hk]
        exact find_updByKey_self Person.canvas_user_id e.user_id _
          s.db.persons p0 hkeyP hfp0
      · rw [pg1, ← z1]
        exact w1
      · rw [pg2, ← z2]
        exact w2
      · rw [pg3, ← z3]
        exact w3
      · rw [pg4, ← z4]
        exact w4
    · refine ⟨q0, ?_, w1, w2, w3, w4⟩
      rw [hperE, htabP, find_updByKey_other Person.canvas_user_id e.user_id
        e0.user_id _ s.db.persons hkeyP (fun hh => hk hh.symm)]
      exact hq0
  · intro e0 he0
    obtain ⟨r00, hr00, m1, m2, m3, m4, m5, m6, m7⟩ := hEnr e0 he0
    by_cases hk : e0.canvas_enrollment_id = e.canvas_enrollment_id
    · have hre : r00 = r0 := by
        rw [hk] at hr00
        rw [hr00] at hfr0
        exact Option.some.inj hfr0
      rw [hre] at m1 m2 m3 m4 m5 m6 m7
      refine ⟨(_upsert_enrollment (_upsert_person s.db e.user_id e.user_name
          e.user_sortable_name e.user_sis_id e.user_login_id rid
          (τ s.tick)).db e oid (resolveSec s.db secs e)
        (_upsert_person s.db e.user_id e.user_name e.user_sortable_name
          e.user_sis_id e.user_login_id rid (τ s.tick)).record.id rid
        (τ (s.tick + 1))).record, ?_, ?_, ?_, ?_, ?_, ?_, ?_, ?_⟩
      · rw [htabE, hk]
        exact find_updByKey_self Enrollment.canvas_enrollment_id
          e.canvas_enrollment_id _ _ r0 hkeyE hfr0b
      · rw [eg1, ← k1]
        exact m1
      · rw [eg2, ← k2]
        exact m2
      · rw [eg3, ← k3]
        exact m3
      · rw [eg4, ← k4]
        exact m4
      · rw [eg5, ← k5]
        exact m5
      · rw [eg6, ← k6]
        exact m6
      · rw [eg7, resolveSec_congr s.db _ secs e0 hsecAll, ← k7]
        exact m7
    · refine ⟨r00, ?_, m1, m2, m3, m4, m5, m6, ?_⟩
      · rw [htabE, find_updByKey_other Enrollment.canvas_enrollment_id
          e.canvas_enrollment_id e0.canvas_enrollment_id _ _ hkeyE
          (fun hh => hk hh.symm), henrP]
        exact hr00
      · rw [resolveSec_congr s.db _ secs e0 hsecAll]
        exact m7
  · rw [countStatus_append, countStatus_append, pst, est]
    simpa using hn
  · rw [countStatus_append, countStatus_append, pst, est]
    simpa using hu

/-- The enrollment loop of the second offering run preserves the idempotence
invariant, given a fully built run map. -/
theorem foldl_processEnrollment_idem (secs : List SectionData)
    (enrs : List CourseEnrollmentData) (log0 : List ChangeLog) (n0 u0 : Nat)
    (τ : Nat → Int) (oid rid : Nat) :
    ∀ (es : List CourseEnrollmentData), (∀ x ∈ es, x ∈ enrs) →
    ∀ s : OffState,
      (∀ csid, s.section_map.lookup csid =
        if (secs.map SectionData.canvas_section_id).contains csid then
          (s.db.sections.find? (fun x => x.canvas_section_id == csid)).map
            Section.id
        else none) →
      OffInv secs enrs log0 n0 u0 s →
      OffInv secs enrs log0 n0 u0
        (es.foldl (processEnrollment τ oid rid) s) := by
  intro es
  induction es with
  | nil =>
      intro _ s _ h
      exact h
  | cons e rest ih =>
      intro hsub s hm h
      obtain ⟨h2, hsecs2, hmap2⟩ := processEnrollment_idem secs enrs log0 n0 u0
        τ oid rid e (hsub e (List.mem_cons_self e rest)) s hm h
      refine ih (fun x hx => hsub x (List.mem_cons_of_mem e hx)) _ ?_ h2
      intro csid
      rw [hmap2, hsecs2]
      exact hm csid

/-- Section readiness only inspects the stored sections. -/
theorem SecReady_frame (db db2 : DB) (secs : List SectionData)
    (h : db2.sections = db.sections) (hr : SecReady db secs) :
    SecReady db2 secs := by
  intro sd hsd
  obtain ⟨row, hrow, x1, x2⟩ := hr sd hsd
  refine ⟨row, ?_, x1, x2⟩
  rw [h]
  exact hrow

/-- Person readiness only inspects the stored persons. -/
theorem PersonReady_frame (db db2 : DB) (enrs : List CourseEnrollmentData)
    (h : db2.persons = db.persons) (hr : PersonReady db enrs) :
    PersonReady db2 enrs := by
  intro e he
  obtain ⟨p, hp, z1, z2, z3, z4⟩ := hr e he
  refine ⟨p, ?_, z1, z2, z3, z4⟩
  rw [h]
  exact hp

/-- Enrollment readiness only inspects the stored enrollments and sections. -/
theorem EnrReady_frame (db db2 : DB) (secs : List SectionData)
    (enrs : List CourseEnrollmentData)
    (he : db2.enrollments = db.enrollments) (hs : db2.sections = db.sections)
    (hr : EnrReady db secs enrs) : EnrReady db2 secs enrs := by
  intro e hee
  obtain ⟨row, hrow, k1, k2, k3, k4, k5, k6, k7⟩ := hr e hee
  refine ⟨row, ?_, k1, k2, k3, k4, k5, k6, ?_⟩
  · rw [he]
    exact hrow
  · rw [resolveSec_congr db db2 secs e hs]
    exact k7

/-- Finalizing a run only touches the ingest_runs table. -/
theorem updateRun_tables (db : DB) (rid : Nat) (f : IngestRun → IngestRun) :
    (updateRun db rid f).terms = db.terms ∧
    (updateRun db rid f).offerings = db.offerings ∧
    (updateRun db rid f).user_enrollments = db.user_enrollments ∧
    (updateRun db rid f).sections = db.sections ∧
    (updateRun db rid f).persons = db.persons ∧
    (updateRun db rid f).enrollments = db.enrollments ∧
    (updateRun db rid f).change_log = db.change_log :=
  ⟨rfl, rfl, rfl, rfl, rfl, rfl, rfl⟩

/-- Equation for the success terminal of `ingest_offering`. -/
theorem offeringComplete_eq (db0 : DB) (rid : Nat) (τ : Nat → Int)
    (s : OffState) :
    offeringComplete db0 rid τ s =
      { db := updateRun s.db rid fun r =>
          markCompleted r s.new_count s.updated_count s.unchanged_count
            s.drift_count (τ s.tick)
        commits := [db0, updateRun s.db rid fun r =>
          markCompleted r s.new_count s.updated_count s.unchanged_count
            s.drift_count (τ s.tick)]
        result := some
          { run_id := rid, new_count := s.new_count
            updated_count := s.updated_count
            unchanged_count := s.unchanged_count
            drift_detected := s.all_drift }
        raised := none
        trace := s.trace } := rfl

/-- After a first offering run over a well-formed snapshot, the offerings
table is untouched and every observed section, person and enrollment is
reconciled into the returned store. -/
theorem offering_run1 (client : CanvasClient) (db : DB) (cid : Int)
    (τ : Nat → Int) (off : Offering) (secs : List SectionData)
    (enrs : List CourseEnrollmentData)
    (Hoff : db.offerings.find? (fun o => o.canvas_course_id == cid) = some off)
    (Hs : client.list_sections cid = Except.ok secs)
    (He : client.list_enrollments cid = Except.ok enrs)
    (H4c : ∀ s1 ∈ secs, ∀ s2 ∈ secs,
      s1.canvas_section_id = s2.canvas_section_id →
      s1.name = s2.name ∧ s1.sis_section_id = s2.sis_section_id)
    (H6c : ∀ e1 ∈ enrs, ∀ e2 ∈ enrs, e1.user_id = e2.user_id →
      e1.user_name = e2.user_name ∧
      e1.user_sortable_name = e2.user_sortable_name ∧
      e1.user_sis_id = e2.user_sis_id ∧ e1.user_login_id = e2.user_login_id)
    (H5c : ∀ e1 ∈ enrs, ∀ e2 ∈ enrs,
      e1.canvas_enrollment_id = e2.canvas_enrollment_id →
      e1.role = e2.role ∧ e1.enrollment_state = e2.enrollment_state ∧
      e1.current_grade = e2.current_grade ∧
      e1.current_score = e2.current_score ∧
      e1.final_grade = e2.final_grade ∧ e1.final_score = e2.final_score ∧
      e1.course_section_id = e2.course_section_id) :
    (ingest_offering client db cid τ).db.offerings = db.offerings ∧
    SecReady (ingest_offering client db cid τ).db secs ∧
    PersonReady (ingest_offering client db cid τ).db enrs ∧
    EnrReady (ingest_offering client db cid τ).db secs enrs := by
  unfold ingest_offering
  rw [Hoff]
  dsimp only
  rw [Hs]
  dsimp only
  rw [He]
  dsimp only
  obtain ⟨sfp, sfe, sfo, sfk, sfm, sfpres, sfest⟩ :=
    foldl_processSection_run1 τ off.id (offRun db cid τ).id secs
      (offStart (withRunRow db (offRun db cid τ)))
  have hSec1 : SecReady (secs.foldl
      (processSection τ off.id (offRun db cid τ).id)
      (offStart (withRunRow db (offRun db cid τ)))).db secs :=
    fun sd hsd => sfest sd hsd (fun sd2 h2 hk => H4c sd2 h2 sd hsd hk)
  have hm : ∀ csid, (secs.foldl (processSection τ off.id (offRun db cid τ).id)
      (offStart (withRunRow db (offRun db cid τ)))).section_map.lookup csid =
      if (secs.map SectionData.canvas_section_id).contains csid then
        ((secs.foldl (processSection τ off.id (offRun db cid τ).id)
          (offStart (withRunRow db (offRun db cid τ)))).db.sections.find?
          (fun x => x.canvas_section_id == csid)).map Section.id
      else none := fun csid => sfm csid
  obtain ⟨eft, efo, efPp, efEp, efPe, efEe⟩ :=
    foldl_processEnrollment_run1 τ off.id (offRun db cid τ).id secs enrs
      (secs.foldl (processSection τ off.id (offRun db cid τ).id)
        (offStart (withRunRow db (offRun db cid τ)))) hm
  rw [offeringComplete_eq]
  dsimp only
  refine ⟨?_, ?_, ?_, ?_⟩
  · rw [(updateRun_tables _ _ _).2.1, efo, sfo]
    rfl
  · refine SecReady_frame _ _ secs ?_ hSec1
    rw [(updateRun_tables _ _ _).2.2.2.1]
    exact eft
  · refine PersonReady_frame _ _ enrs ?_
      (fun e he2 => efPe e he2 (fun e2 h2 hk => H6c e2 h2 e he2 hk))
    exact (updateRun_tables _ _ _).2.2.2.2.1
  · refine EnrReady_frame _ _ secs enrs ?_ ?_
      (fun e he2 => efEe e he2 (fun e2 h2 hk => H5c e2 h2 e he2 hk))
    · exact (updateRun_tables _ _ _).2.2.2.2.2.1
    · rw [(updateRun_tables _ _ _).2.2.2.1]

/-- An offering run over a snapshot that is already fully reconciled appends
nothing to the change log and classifies nothing as new or updated. -/
theorem offering_second (client : CanvasClient) (dbF : DB) (cid : Int)
    (τ2 : Nat → Int) (off2 : Offering) (secs : List SectionData)
    (enrs : List CourseEnrollmentData)
    (Hoff : dbF.offerings.find? (fun o => o.canvas_course_id == cid)
      = some off2)
    (Hs : client.list_sections cid = Except.ok secs)
    (He : client.list_enrollments cid = Except.ok enrs)
    (hSec : SecReady dbF secs) (hPer : PersonReady dbF enrs)
    (hEnr : EnrReady dbF secs enrs) :
    (ingest_offering client dbF cid τ2).db.change_log = dbF.change_log ∧
    countStatus (ingest_offering client dbF cid τ2).trace .new = 0 ∧
    countStatus (ingest_offering client dbF cid τ2).trace .updated = 0 := by
  unfold ingest_offering
  rw [Hoff]
  dsimp only
  rw [Hs]
  dsimp only
  rw [He]
  dsimp only
  have hInv0 : OffInv secs enrs dbF.change_log 0 0
      (offStart (withRunRow dbF (offRun dbF cid τ2))) :=
    ⟨rfl, hSec, hPer, hEnr, rfl, rfl⟩
  have hInv1 := foldl_processSection_idem secs enrs dbF.change_log 0 0 τ2
    off2.id (offRun dbF cid τ2).id secs (fun x hx => hx) _ hInv0
  obtain ⟨-, -, -, -, sfm, -, -⟩ :=
    foldl_processSection_run1 τ2 off2.id (offRun dbF cid τ2).id secs
      (offStart (withRunRow dbF (offRun dbF cid τ2)))
  have hm1 : ∀ csid, (secs.foldl
      (processSection τ2 off2.id (offRun dbF cid τ2).id)
      (offStart (withRunRow dbF (offRun dbF cid τ2)))).section_map.lookup csid =
      if (secs.map SectionData.canvas_section_id).contains csid then
        ((secs.foldl (processSection τ2 off2.id (offRun dbF cid τ2).id)
          (offStart (withRunRow dbF (offRun dbF cid τ2)))).db.sections.find?
          (fun x => x.canvas_section_id == csid)).map Section.id
      else none := fun csid => sfm csid
  have hInv2 := foldl_processEnrollment_idem secs enrs dbF.change_log 0 0 τ2
    off2.id (offRun dbF cid τ2).id enrs (fun x hx => hx) _ hm1 hInv1
  obtain ⟨hlog2, -, -, -, hcn, hcu⟩ := hInv2
  rw [offeringComplete_eq]
  dsimp only
  refine ⟨?_, hcn, hcu⟩
  rw [(updateRun_tables _ _ _).2.2.2.2.2.2]
  exact hlog2

/-- C1: idempotence of reconciliation. For a fixed observed snapshot
(a fixed client) that is well formed — courses listed successfully, every
truthy course term id resolving to term data carrying that id, term fetches
agreeing on shared term ids, and courses, caller enrollments, sections,
persons and enrollments that share an external id agreeing on all reconciled
fields — running catalog ingestion a second time on the database produced by
a first run appends zero change-log entries and records zero new and zero
updated classifications; and likewise for offering ingestion of a locally
known offering whose section and enrollment listings succeed. -/
theorem C1_idempotent :
    (∀ (client : CanvasClient) (db : DB) (τ τ2 : Nat → Int)
        (courses : List CourseData),
      client.list_my_courses = Except.ok courses →
      (∀ c ∈ courses, ∀ tid, c.term_id = some tid → tid ≠ 0 →
        ∃ td, client.get_term_from_course c.canvas_course_id
            = Except.ok (some td) ∧ td.canvas_term_id = tid) →
      (∀ c1 ∈ courses, ∀ c2 ∈ courses, ∀ td1 td2,
        client.get_term_from_course c1.canvas_course_id
          = Except.ok (some td1) →
        client.get_term_from_course c2.canvas_course_id
          = Except.ok (some td2) →
        td1.canvas_term_id = td2.canvas_term_id → td1 = td2) →
      (∀ c1 ∈ courses, ∀ c2 ∈ courses,
        c1.canvas_course_id = c2.canvas_course_id →
        c1.name = c2.name ∧ c1.code = c2.code ∧
        c1.workflow_state = c2.workflow_state ∧ c1.term_id = c2.term_id) →
      (∀ c1 ∈ courses, ∀ e1 ∈ c1.enrollments,
        ∀ c2 ∈ courses, ∀ e2 ∈ c2.enrollments,
        e1.canvas_enrollment_id = e2.canvas_enrollment_id →
        e1.role = e2.role ∧ e1.enrollment_state = e2.enrollment_state) →
      (ingest_catalog client (ingest_catalog client db τ).db τ2).db.change_log
        = (ingest_catalog client db τ).db.change_log ∧
      countStatus
        (ingest_catalog client (ingest_catalog client db τ).db τ2).trace
        .new = 0 ∧
      countStatus
        (ingest_catalog client (ingest_catalog client db τ).db τ2).trace
        .updated = 0) ∧
    (∀ (client : CanvasClient) (db : DB) (cid : Int) (τ τ2 : Nat → Int)
        (off : Offering) (secs : List SectionData)
        (enrs : List CourseEnrollmentData),
      db.offerings.find? (fun o => o.canvas_course_id == cid) = some off →
      client.list_sections cid = Except.ok secs →
      client.list_enrollments cid = Except.ok enrs →
      (∀ s1 ∈ secs, ∀ s2 ∈ secs,
        s1.canvas_section_id = s2.canvas_section_id →
        s1.name = s2.name ∧ s1.sis_section_id = s2.sis_section_id) →
      (∀ e1 ∈ enrs, ∀ e2 ∈ enrs, e1.user_id = e2.user_id →
        e1.user_name = e2.user_name ∧
        e1.user_sortable_name = e2.user_sortable_name ∧
        e1.user_sis_id = e2.user_sis_id ∧
        e1.user_login_id = e2.user_login_id) →
      (∀ e1 ∈ enrs, ∀ e2 ∈ enrs,
        e1.canvas_enrollment_id = e2.canvas_enrollment_id →
        e1.role = e2.role ∧ e1.enrollment_state = e2.enrollment_state ∧
        e1.current_grade = e2.current_grade ∧
        e1.current_score = e2.current_score ∧
        e1.final_grade = e2.final_grade ∧ e1.final_score = e2.final_score ∧
        e1.course_section_id = e2.course_section_id) →
      (ingest_offering client (ingest_offering client db cid τ).db cid
          τ2).db.change_log
        = (ingest_offering client db cid τ).db.change_log ∧
      countStatus (ingest_offering client (ingest_offering client db cid τ).db
        cid τ2).trace .new = 0 ∧
      countStatus (ingest_offering client (ingest_offering client db cid τ).db
        cid τ2).trace .updated = 0) := by
  constructor
  · intro client db τ τ2 courses Hc H3 H4 H2c H5c
    exact catalog_second client (ingest_catalog client db τ).db τ2 courses Hc
      H3 (catalog_run1 client db τ courses Hc H3 H4 H2c H5c)
  · intro client db cid τ τ2 off secs enrs Hoff Hs He H4c H6c H5c
    obtain ⟨hoffs, hS, hP, hE⟩ :=
      offering_run1 client db cid τ off secs enrs Hoff Hs He H4c H6c H5c
    refine offering_second client (ingest_offering client db cid τ).db cid τ2
      off secs enrs ?_ Hs He hS hP hE
    rw [hoffs]
    exact Hoff

/-- Witness for C1 at concrete inputs: one re-observed course snapshot for the
catalog scope and one seeded offering with empty section and enrollment
listings for the offering scope. -/
theorem C1_witness :
    ((ingest_catalog driftClient
        (ingest_catalog driftClient emptyDB tickClock).db
        tickClock).db.change_log
      = (ingest_catalog driftClient emptyDB tickClock).db.change_log ∧
    countStatus (ingest_catalog driftClient
      (ingest_catalog driftClient emptyDB tickClock).db tickClock).trace
      .new = 0 ∧
    countStatus (ingest_catalog driftClient
      (ingest_catalog driftClient emptyDB tickClock).db tickClock).trace
      .updated = 0) ∧
    ((ingest_offering driftClient
        (ingest_offering driftClient seededDB 101 tickClock).db 101
        tickClock).db.change_log
      = (ingest_offering driftClient seededDB 101 tickClock).db.change_log ∧
    countStatus (ingest_offering driftClient
      (ingest_offering driftClient seededDB 101 tickClock).db 101
      tickClock).trace .new = 0 ∧
    countStatus (ingest_offering driftClient
      (ingest_offering driftClient seededDB 101 tickClock).db 101
      tickClock).trace .updated = 0) := by
  have h := C1_idempotent
  constructor
  · refine h.1 driftClient emptyDB tickClock tickClock [driftCourse] rfl ?_ ?_
      ?_ ?_
    · intro c hc tid htid h0
      rw [List.mem_singleton] at hc
      subst hc
      exact absurd htid (by simp [driftCourse])
    · intro c1 h1 c2 h2 td1 td2 hf1 hf2 hcid
      exact absurd hf1 (by simp [driftClient])
    · intro c1 h1 c2 h2 hk
      rw [List.mem_singleton] at h1 h2
      subst h1
      subst h2
      exact ⟨rfl, rfl, rfl, rfl⟩
    · intro c1 h1 e1 he1 c2 h2 e2 he2 hk
      rw [List.mem_singleton] at h1
      subst h1
      exact absurd he1 (List.not_mem_nil e1)
  · refine h.2 driftClient seededDB 101 tickClock tickClock seededOffering []
      [] rfl rfl rfl ?_ ?_ ?_
    · intro s1 hs1 s2 hs2 hk
      exact absurd hs1 (List.not_mem_nil s1)
    · intro e1 he1 e2 he2 hk
      exact absurd he1 (List.not_mem_nil e1)
    · intro e1 he1 e2 he2 hk
      exact absurd he1 (List.not_mem_nil e1)

end CanvasLedger
